import Mathlib

/-!
# KWin DRM backend: property store, pipelines and the output search

A shallow embedding of `drm_object.cpp`, `drm_pipeline.cpp` and `drm_gpu.cpp`
(directory `src/plugins/platforms/drm`).  C++ objects become records, member
functions become functions from the old record to the new one, and every libdrm
call goes through an explicit `Kernel` value that records the call and answers
it.  Pointers to kernel blobs (`drmModePropertyBlobRes *`) are `Option Blob`:
`none` is the null pointer.
-/

namespace KWin

/-! ## The kernel as seen through libdrm -/

/-- A property blob, the content of a `drmModePropertyBlobRes`: its id and its
bytes (`length` is the number of bytes). -/
structure Blob where
  id : Nat
  data : List Nat
deriving DecidableEq, Repr

/-- Number of bytes of a blob (`drmModePropertyBlobRes::length`). -/
def Blob.length (b : Blob) : Nat := b.data.length

/-- One entry of an atomic request, as added by `drmModeAtomicAddProperty`. -/
structure AtomicProperty where
  objectId : Nat
  propertyId : Nat
  value : Nat
deriving DecidableEq, Repr

/-- The libdrm calls recorded in the trace. -/
inductive KernelCall where
  | createPropertyBlob (data : List Nat) (accepted : Bool)
  | destroyPropertyBlob (id : Nat)
  | getPropertyBlob (id : Nat)
  | atomicCommit (req : List AtomicProperty) (flags : Nat) (accepted : Bool)
  | setCursor (crtcId handle : Nat) (width height : Int) (ok : Bool)
  | moveCursor (crtcId : Nat) (x y : Int) (ok : Bool)
  | objectGetProperties (objectId : Nat) (ok : Bool)
  | connectorSetProperty (connectorId propertyId value : Nat) (ok : Bool)
  | setCrtc (crtcId bufferId connectorId : Nat) (mode : List Nat) (ok : Bool)
  | pageFlip (crtcId bufferId : Nat) (ok : Bool)
  | crtcSetGamma (crtcId : Nat) (ramp : List Nat) (ok : Bool)
  | objectSetProperty (objectId propertyId value : Nat) (ok : Bool)
deriving DecidableEq, Repr

/-- The kernel side of the blob interface: the live blobs, the id the next
created blob receives, whether blob creation is rejected, and the trace of the
calls made so far (oldest first). -/
structure Kernel where
  blobs : List Blob
  freshBlobId : Nat
  rejectBlobCreate : Bool
  calls : List KernelCall
deriving DecidableEq, Repr

/-- The call `drmModeCreatePropertyBlob(fd, data, length, &id)`: `none` is a
non-zero return, `some id` the id written on success. -/
def drmModeCreatePropertyBlob (k : Kernel) (data : List Nat) : Option Nat × Kernel :=
  if k.rejectBlobCreate then
    (none, { k with calls := k.calls ++ [KernelCall.createPropertyBlob data false] })
  else
    (some k.freshBlobId,
      { k with
        blobs := k.blobs ++ [{ id := k.freshBlobId, data := data }]
        freshBlobId := k.freshBlobId + 1
        calls := k.calls ++ [KernelCall.createPropertyBlob data true] })

/-- The call `drmModeDestroyPropertyBlob(fd, id)`. -/
def drmModeDestroyPropertyBlob (k : Kernel) (id : Nat) : Kernel :=
  { k with
    blobs := k.blobs.filter (fun b => b.id != id)
    calls := k.calls ++ [KernelCall.destroyPropertyBlob id] }

/-- How the driver answers the atomic interface: whether `drmModeAtomicAlloc`
returns a request, whether `drmModeAtomicAddProperty` succeeds for an entry,
and whether `drmModeAtomicCommit` accepts a request with given flags. -/
structure Driver where
  atomicAlloc : Bool
  atomicAddProperty : AtomicProperty → Bool
  atomicCommit : List AtomicProperty → Nat → Bool

/-- The flag `DRM_MODE_PAGE_FLIP_EVENT`. -/
def DRM_MODE_PAGE_FLIP_EVENT : Nat := 0x01

/-- The flag `DRM_MODE_ATOMIC_TEST_ONLY`. -/
def DRM_MODE_ATOMIC_TEST_ONLY : Nat := 0x0100

/-- The flag `DRM_MODE_ATOMIC_NONBLOCK`. -/
def DRM_MODE_ATOMIC_NONBLOCK : Nat := 0x0200

/-- The flag `DRM_MODE_ATOMIC_ALLOW_MODESET`. -/
def DRM_MODE_ATOMIC_ALLOW_MODESET : Nat := 0x0400

/-- The call `drmModeAtomicCommit(fd, req, flags, data) == 0`. -/
def drmModeAtomicCommit (drv : Driver) (k : Kernel) (req : List AtomicProperty) (flags : Nat) :
    Bool × Kernel :=
  (drv.atomicCommit req flags,
    { k with calls := k.calls ++ [KernelCall.atomicCommit req flags (drv.atomicCommit req flags)] })

/-- The call `drmModeGetPropertyBlob(fd, id)`: the blob with that id, or null. -/
def drmModeGetPropertyBlob (k : Kernel) (id : Nat) : Option Blob × Kernel :=
  (k.blobs.find? (fun b => b.id == id),
    { k with calls := k.calls ++ [KernelCall.getPropertyBlob id] })

/-- The number of blobs the kernel created so far: the accepted
`drmModeCreatePropertyBlob` calls of the trace. -/
def createdBlobs (k : Kernel) : Nat :=
  k.calls.countP (fun call =>
    match call with
    | KernelCall.createPropertyBlob _ accepted => accepted
    | _ => false)

/-- The blob ids destroyed so far: the `drmModeDestroyPropertyBlob` calls of the
trace. -/
def destroyedBlobs (k : Kernel) : List Nat :=
  k.calls.filterMap (fun call =>
    match call with
    | KernelCall.destroyPropertyBlob id => some id
    | _ => none)

/-! ## `DrmObject::Property` -/

/-- The fields of `DrmObject::Property` that the staging protocol touches:
`m_propId`, the three slots `m_pending`/`m_next`/`m_current` with their blob
pointers, `m_immutable` and `m_legacy`. -/
structure Property where
  propId : Nat
  pending : Nat
  pendingBlob : Option Blob
  next : Nat
  nextBlob : Option Blob
  current : Nat
  currentBlob : Option Blob
  immutable : Bool
  legacy : Bool
deriving DecidableEq, Repr

namespace Property

/-- The constructor `Property(gpu, prop, val, enumNames, blob)`: all three slots
start at `val` and `blob`; `immutable` is `prop->flags & DRM_MODE_PROP_IMMUTABLE`. -/
def new (propId val : Nat) (blob : Option Blob) (immutable : Bool) : Property :=
  { propId := propId
    pending := val, pendingBlob := blob
    next := val, nextBlob := blob
    current := val, currentBlob := blob
    immutable := immutable
    legacy := false }

/-- `void Property::setPending(uint64_t value)`. -/
def setPending (p : Property) (value : Nat) : Property :=
  { p with pending := value }

/-- The tail of `setPendingBlob` (the statements after the blob was created):
the old pending blob is destroyed unless `current` or `next` still refers to
it, then `m_pending = id` and `m_pendingBlob = drmModeGetPropertyBlob(fd, id)`. -/
def storePendingBlob (p : Property) (id : Nat) (k : Kernel) : Bool × Property × Kernel :=
  let k1 :=
    if p.pending != 0 && p.pending != p.current && p.pending != p.next then
      drmModeDestroyPropertyBlob k p.pending
    else k
  let got := drmModeGetPropertyBlob k1 id
  (true, { p with pending := id, pendingBlob := got.1 }, got.2)

/-- The test `blob && m_pendingBlob && length == m_pendingBlob->length &&
memcmp(blob, m_pendingBlob->data, length) == 0`. -/
def sameAsPendingBlob (p : Property) (blob : Option (List Nat)) : Bool :=
  match blob, p.pendingBlob with
  | some bytes, some pb => bytes.length == pb.length && bytes == pb.data
  | _, _ => false

/-- `bool Property::setPendingBlob(void *blob, size_t length)`; the argument is
`none` for a null pointer and `some bytes` for `length` bytes at `blob`. -/
def setPendingBlob (p : Property) (blob : Option (List Nat)) (k : Kernel) :
    Bool × Property × Kernel :=
  if blob.isNone && p.pendingBlob.isNone then (true, p, k)
  else if p.sameAsPendingBlob blob then (true, p, k)
  else
    match blob with
    | some bytes =>
      match drmModeCreatePropertyBlob k bytes with
      | (none, k1) => (false, p, k1)
      | (some id, k1) => p.storePendingBlob id k1
    | none => p.storePendingBlob 0 k

/-- `void Property::setCurrent(uint64_t value)`. -/
def setCurrent (p : Property) (value : Nat) : Property :=
  { p with current := value }

/-- `void Property::setCurrentBlob(drmModePropertyBlobRes *blob)`. -/
def setCurrentBlob (p : Property) (blob : Option Blob) (k : Kernel) : Property × Kernel :=
  match blob, p.currentBlob with
  | none, none => (p, k)
  | _, _ =>
    let blobId : Nat := match blob with
      | some b => b.id
      | none => 0
    let k1 :=
      if p.current != 0 && p.current != p.pending && p.current != p.next
          && p.current != blobId then
        drmModeDestroyPropertyBlob k p.current
      else k
    ({ p with currentBlob := blob, current := blobId }, k1)

/-- `void Property::commit()`. -/
def commit (p : Property) (k : Kernel) : Property × Kernel :=
  if p.immutable || p.current == p.pending then (p, k)
  else if p.pendingBlob.isSome || p.currentBlob.isSome then
    p.setCurrentBlob p.pendingBlob k
  else (p.setCurrent p.pending, k)

/-- `void Property::commitPending()`. -/
def commitPending (p : Property) (k : Kernel) : Property × Kernel :=
  if p.immutable || p.next == p.pending then (p, k)
  else if p.pendingBlob.isSome || p.nextBlob.isSome then
    let k1 :=
      if p.next != 0 && p.next != p.current then drmModeDestroyPropertyBlob k p.next
      else k
    ({ p with next := p.pending, nextBlob := p.pendingBlob }, k1)
  else ({ p with next := p.pending }, k)

/-- `void Property::rollbackPending()`. -/
def rollbackPending (p : Property) (k : Kernel) : Property × Kernel :=
  if p.immutable || p.next == p.pending then (p, k)
  else if p.pendingBlob.isSome || p.nextBlob.isSome then
    let k1 :=
      if p.pending != 0 && p.pending != p.current then
        drmModeDestroyPropertyBlob k p.pending
      else k
    ({ p with pending := p.next, pendingBlob := p.nextBlob }, k1)
  else ({ p with pending := p.next }, k)

/-- `bool Property::needsCommit() const`. -/
def needsCommit (p : Property) : Bool :=
  p.pending != p.current

end Property

/-! ## `DrmObject` and the three device objects -/

/-- The part of a `DrmObject` the staging protocol needs: `m_id` and `m_props`
(a null entry is a property the kernel did not report). -/
structure DrmObject where
  id : Nat
  props : List (Option Property)
deriving DecidableEq, Repr

namespace DrmObject

/-- `getProp(index)`: the entry `m_props[index]`, null when the property is
missing. -/
def getProp (o : DrmObject) (index : Nat) : Option Property :=
  (o.props.get? index).join

/-- The loop `for (prop : m_props) if (prop) prop->f()` with the kernel threaded
through. -/
def forEachProp (f : Property → Kernel → Property × Kernel) :
    List (Option Property) → Kernel → List (Option Property) × Kernel
  | [], k => ([], k)
  | none :: rest, k => (none :: (forEachProp f rest k).1, (forEachProp f rest k).2)
  | some p :: rest, k =>
    (some (f p k).1 :: (forEachProp f rest (f p k).2).1, (forEachProp f rest (f p k).2).2)

/-- `void DrmObject::commit()`. -/
def commit (o : DrmObject) (k : Kernel) : DrmObject × Kernel :=
  ({ o with props := (forEachProp Property.commit o.props k).1 },
    (forEachProp Property.commit o.props k).2)

/-- `void DrmObject::commitPending()`. -/
def commitPending (o : DrmObject) (k : Kernel) : DrmObject × Kernel :=
  ({ o with props := (forEachProp Property.commitPending o.props k).1 },
    (forEachProp Property.commitPending o.props k).2)

/-- `void DrmObject::rollbackPending()`. -/
def rollbackPending (o : DrmObject) (k : Kernel) : DrmObject × Kernel :=
  ({ o with props := (forEachProp Property.rollbackPending o.props k).1 },
    (forEachProp Property.rollbackPending o.props k).2)

/-- `bool DrmObject::needsCommit() const`. -/
def needsCommit (o : DrmObject) : Bool :=
  o.props.any (fun prop =>
    match prop with
    | some p => p.needsCommit
    | none => false)

/-- The loop of `atomicPopulate` over the properties that are left. -/
def atomicPopulateLoop (drv : Driver) (objectId : Nat) :
    List (Option Property) → List AtomicProperty → Bool × List AtomicProperty
  | [], req => (true, req)
  | none :: rest, req => atomicPopulateLoop drv objectId rest req
  | some property :: rest, req =>
    if !property.immutable && !property.legacy && property.needsCommit then
      if drv.atomicAddProperty
          { objectId := objectId, propertyId := property.propId, value := property.pending } then
        atomicPopulateLoop drv objectId rest
          (req ++ [{ objectId := objectId, propertyId := property.propId,
                     value := property.pending }])
      else (false, req)
    else atomicPopulateLoop drv objectId rest req

/-- `bool DrmObject::atomicPopulate(drmModeAtomicReq *req) const`: the result and
the request with the entries added. -/
def atomicPopulate (drv : Driver) (o : DrmObject) (req : List AtomicProperty) :
    Bool × List AtomicProperty :=
  atomicPopulateLoop drv o.id o.props req

/-- Modelled from the spec: `DrmObject::setPending(index, value)` is declared in
drm_object.h, which is not among the sources; it stages the scalar `value` in
the property at `index` and does nothing when that property is missing. -/
def setPending (o : DrmObject) (index value : Nat) : DrmObject :=
  { o with props := o.props.modify (Option.map (fun p => p.setPending value)) index }

end DrmObject

/-- The tile descriptor returned by `DrmConnector::tilingInfo()`. -/
structure TilingInfo where
  group_id : Int
  num_tiles_x : Int
  num_tiles_y : Int
  loc_x : Int
  loc_y : Int
  tile_width : Int
  tile_height : Int
deriving DecidableEq, Repr

/-- A connector: the object, the encoder ids of `encoders()`, the answer of
`isTiled()` and the descriptor of `tilingInfo()`. -/
structure DrmConnector extends DrmObject where
  encoders : List Nat
  isTiled : Bool
  tilingInfo : TilingInfo
deriving DecidableEq, Repr

/-- A CRTC: the object and its `pipeIndex()`. -/
structure DrmCrtc extends DrmObject where
  pipeIndex : Nat
deriving DecidableEq, Repr

/-- The enumeration `DrmPlane::TypeIndex`. -/
inductive TypeIndex where
  | Overlay
  | Primary
  | Cursor
deriving DecidableEq, Repr

/-- A plane: the object, its `type()` and the CRTC-compatibility bitmask. -/
structure DrmPlane extends DrmObject where
  type : TypeIndex
  possibleCrtcs : Nat
deriving DecidableEq, Repr

/-- Modelled from the spec: `DrmPlane::isCrtcSupported(pipeIndex)` is declared in
drm_object_plane.h, which is not among the sources; the spec gives a plane a
"CRTC-compatibility bitmask", so the plane supports the CRTC whose bit is set. -/
def DrmPlane.isCrtcSupported (plane : DrmPlane) (pipeIndex : Nat) : Bool :=
  plane.possibleCrtcs.testBit pipeIndex

/-- The enumerators `DrmConnector::PropertyIndex::CrtcId` and
`DrmPlane::PropertyIndex::CrtcId`.  The headers that declare them are not among
the sources, so their values are parameters of everything that uses them. -/
structure PropertyIndex where
  connectorCrtcId : Nat
  planeCrtcId : Nat
deriving DecidableEq, Repr

/-! ## `DrmPipeline` -/

/-- A framebuffer (`DrmBuffer`): its `bufferId()` and `size()`. -/
structure DrmBuffer where
  bufferId : Nat
  size : Int × Int
deriving DecidableEq, Repr

/-- An entry of `m_allObjects`: a pointer to the connector, CRTC or primary plane
at the given position of `m_connectors`, `m_crtcs` or `m_primaryPlanes`. -/
inductive ObjRef where
  | connector (i : Nat)
  | crtc (i : Nat)
  | plane (i : Nat)
deriving DecidableEq, Repr

/-- The anonymous struct `m_cursor`. -/
structure CursorState where
  pos : Int × Int
  buffer : Option DrmBuffer
  dirty : Bool
deriving DecidableEq, Repr

/-- The data members of `DrmPipeline`.  `m_pageflipUserData` is the id of the
output the pipeline belongs to, `none` for the null pointer. -/
structure DrmPipeline where
  pageflipUserData : Option Nat
  connectors : List DrmConnector
  crtcs : List DrmCrtc
  primaryPlanes : List DrmPlane
  primaryBuffer : Option DrmBuffer
  oldTestBuffer : Option DrmBuffer
  active : Bool
  legacyNeedsModeset : Bool
  cursor : CursorState
  allObjects : List ObjRef
  lastFlags : Nat
deriving DecidableEq, Repr

namespace DrmPipeline

/-- The members as the in-class initialisers leave them, before `addOutput`. -/
def init : DrmPipeline :=
  { pageflipUserData := none
    connectors := []
    crtcs := []
    primaryPlanes := []
    primaryBuffer := none
    oldTestBuffer := none
    active := true
    legacyNeedsModeset := true
    cursor := { pos := (100, 100), buffer := none, dirty := true }
    allObjects := []
    lastFlags := 0 }

/-- `void DrmPipeline::addOutput(conn, crtc, primaryPlane)`. -/
def addOutput (p : DrmPipeline) (conn : DrmConnector) (crtc : DrmCrtc)
    (primaryPlane : Option DrmPlane) : DrmPipeline :=
  let p1 : DrmPipeline :=
    { p with
      connectors := p.connectors ++ [conn]
      crtcs := p.crtcs ++ [crtc]
      allObjects := p.allObjects ++
        [ObjRef.connector p.connectors.length, ObjRef.crtc p.crtcs.length] }
  match primaryPlane with
  | some plane =>
    { p1 with
      primaryPlanes := p1.primaryPlanes ++ [plane]
      allObjects := p1.allObjects ++ [ObjRef.plane p1.primaryPlanes.length] }
  | none => p1

/-- The constructor `DrmPipeline(gpu, conn, crtc, primaryPlane)`. -/
def new (conn : DrmConnector) (crtc : DrmCrtc) (primaryPlane : Option DrmPlane) :
    DrmPipeline :=
  init.addOutput conn crtc primaryPlane

/-- The accessor `connector()` used by drm_gpu.cpp: the connector the pipeline
was constructed with. -/
def connector (p : DrmPipeline) : Option DrmConnector := p.connectors.head?

/-- The accessor `crtc()` used by drm_gpu.cpp. -/
def crtc (p : DrmPipeline) : Option DrmCrtc := p.crtcs.head?

/-- The accessor `primaryPlane()` used by drm_gpu.cpp, null in legacy mode. -/
def primaryPlane (p : DrmPipeline) : Option DrmPlane := p.primaryPlanes.head?

/-- The condition of the `if` in the loop of `isConnected()` at index `i`:
`some true` when one of the two CrtcId values differs from the CRTC id.  The
second comparison is evaluated only when the first is false.  `none` stands
for an access the C++ code cannot make (index out of range, null property). -/
def crtcIdMismatch (ix : PropertyIndex) (p : DrmPipeline) (i : Nat) : Option Bool :=
  match p.connectors.get? i, p.crtcs.get? i with
  | some conn, some crtc =>
    match conn.getProp ix.connectorCrtcId with
    | none => none
    | some connProp =>
      if connProp.current != crtc.id then some true
      else
        match p.primaryPlanes.get? i with
        | none => none
        | some plane =>
          match plane.getProp ix.planeCrtcId with
          | none => none
          | some planeProp => some (planeProp.current != crtc.id)
  | _, _ => none

/-- The loop of `isConnected()` over the remaining indices. -/
def isConnectedLoop (ix : PropertyIndex) (p : DrmPipeline) : List Nat → Option Bool
  | [] => some true
  | i :: rest =>
    match crtcIdMismatch ix p i with
    | none => none
    | some true => some false
    | some false => isConnectedLoop ix p rest

/-- `bool DrmPipeline::isConnected() const`. -/
def isConnected (ix : PropertyIndex) (p : DrmPipeline) : Option Bool :=
  if p.primaryPlanes.length != 0 then
    isConnectedLoop ix p (List.range p.connectors.length)
  else some false

/-- The object an entry of `m_allObjects` points to. -/
def getObject (p : DrmPipeline) : ObjRef → Option DrmObject
  | ObjRef.connector i => (p.connectors.get? i).map (fun c => c.toDrmObject)
  | ObjRef.crtc i => (p.crtcs.get? i).map (fun c => c.toDrmObject)
  | ObjRef.plane i => (p.primaryPlanes.get? i).map (fun c => c.toDrmObject)

/-- Writes the `DrmObject` part of the object an entry of `m_allObjects` points
to. -/
def setObject (p : DrmPipeline) (r : ObjRef) (o : DrmObject) : DrmPipeline :=
  match r with
  | ObjRef.connector i =>
    { p with connectors := p.connectors.modify (fun c => { c with toDrmObject := o }) i }
  | ObjRef.crtc i =>
    { p with crtcs := p.crtcs.modify (fun c => { c with toDrmObject := o }) i }
  | ObjRef.plane i =>
    { p with primaryPlanes := p.primaryPlanes.modify (fun c => { c with toDrmObject := o }) i }

/-- One step of a loop `for (obj : m_allObjects) obj->f()`. -/
def applyToObject (f : DrmObject → Kernel → DrmObject × Kernel) (s : DrmPipeline × Kernel)
    (r : ObjRef) : DrmPipeline × Kernel :=
  match s.1.getObject r with
  | some o => (s.1.setObject r (f o s.2).1, (f o s.2).2)
  | none => s

/-- The loop `for (obj : m_allObjects) obj->f()` for `f` one of `commit`,
`commitPending`, `rollbackPending`. -/
def forAllObjects (f : DrmObject → Kernel → DrmObject × Kernel) (p : DrmPipeline)
    (k : Kernel) : DrmPipeline × Kernel :=
  p.allObjects.foldl (applyToObject f) (p, k)

/-- The objects `m_allObjects` points to, in order. -/
def objects (p : DrmPipeline) : List DrmObject :=
  p.allObjects.filterMap p.getObject

/-- The two statements
`m_connectors[i]->setPending(DrmConnector::PropertyIndex::CrtcId, value)` and
`m_primaryPlanes[i]->setPending(DrmPlane::PropertyIndex::CrtcId, value)` of
`setup()` and `setActive()`. -/
def stageCrtcId (ix : PropertyIndex) (p : DrmPipeline) (i value : Nat) : DrmPipeline :=
  { p with
    connectors := p.connectors.modify
      (fun c => { c with toDrmObject := c.toDrmObject.setPending ix.connectorCrtcId value }) i
    primaryPlanes := p.primaryPlanes.modify
      (fun c => { c with toDrmObject := c.toDrmObject.setPending ix.planeCrtcId value }) i }

end DrmPipeline

/-- What a reader of one field of the properties sees of an object: its id
and, for every property, the value `v` of that field. -/
def DrmObject.view {β : Type} (v : Property → β) (o : DrmObject) : Nat × List (Option β) :=
  (o.id, o.props.map (Option.map v))

/-- What a reader of one field of the properties sees of a pipeline: the views
of its connectors, CRTCs and primary planes. -/
def DrmPipeline.view {β : Type} (v : Property → β) (p : DrmPipeline) :
    List (Nat × List (Option β)) × List (Nat × List (Option β)) × List (Nat × List (Option β)) :=
  (p.connectors.map (fun c => c.toDrmObject.view v),
   p.crtcs.map (fun c => c.toDrmObject.view v),
   p.primaryPlanes.map (fun c => c.toDrmObject.view v))

/-! ## `DrmPipeline::testPipelines` -/

/-- Members the pipeline code calls whose definitions are in files that are not
among the sources (drm_object_connector, drm_object_crtc, drm_object_plane,
the buffer classes and the rendering backend).  They are parameters:
the enumerators `Rotate90` and `Rotate270` of `DrmPlane::Transformation`,
`DrmPlane::transformation()`, `DrmConnector::modeIndex()`,
`DrmConnector::totalModeSize(index)`, the size of `DrmConnector::currentMode()`,
`DrmConnector::tilePos()`, the three overrides of `needsModeset()`,
`DrmPlane::set(srcPos, srcSize, dstPos, dstSize)`, `DrmPlane::setBuffer(buffer)`,
and the buffer that `checkTestBuffer()` obtains from the backend, from gbm or as
a dumb buffer (`none` when it gets a null pointer). -/
structure Decls where
  Rotate90 : Nat
  Rotate270 : Nat
  transformation : DrmPlane → Nat
  modeIndex : DrmConnector → Int
  totalModeSize : DrmConnector → Int → Int × Int
  currentModeSize : DrmConnector → Int × Int
  tilePos : DrmConnector → Int × Int
  connectorNeedsModeset : DrmConnector → Bool
  crtcNeedsModeset : DrmCrtc → Bool
  planeNeedsModeset : DrmPlane → Bool
  planeSet : DrmPlane → Int × Int → Int × Int → Int × Int → Int × Int → DrmPlane
  planeSetBuffer : DrmPlane → Option DrmBuffer → DrmPlane
  createTestBuffer : DrmPipeline → Option DrmBuffer

/-- What the pipeline code asks its GPU: `atomicModeSetting()`,
`useEglStreams()`, `eglBackend() != nullptr` and
`m_gpu == m_gpu->platform()->primaryGpu()`. -/
structure GpuCaps where
  atomicModeSetting : Bool
  useEglStreams : Bool
  hasEglBackend : Bool
  isPrimaryGpu : Bool
deriving DecidableEq, Repr

namespace DrmPipeline

/-- `QSize::transposed()`. -/
def transposed (size : Int × Int) : Int × Int := (size.2, size.1)

/-- `DrmPlane::Transformations DrmPipeline::transformation() const`; `Rotate0`
is the value 1 of the DRM rotation bitmask. -/
def transformation (d : Decls) (p : DrmPipeline) : Nat :=
  match p.primaryPlanes.head? with
  | some plane => d.transformation plane
  | none => 1

/-- `QSize DrmPipeline::rotated(const QSize &size) const`. -/
def rotated (d : Decls) (p : DrmPipeline) (size : Int × Int) : Int × Int :=
  if p.transformation d &&& (d.Rotate90 ||| d.Rotate270) != 0 then transposed size else size

/-- `QSize DrmPipeline::sourceSize() const`; `none` when there is no first
connector. -/
def sourceSize (d : Decls) (p : DrmPipeline) : Option (Int × Int) :=
  match p.connectors.head? with
  | none => none
  | some first =>
    some (if p.transformation d &&& (d.Rotate90 ||| d.Rotate270) != 0 then
      transposed (d.totalModeSize first (d.modeIndex first))
    else d.totalModeSize first (d.modeIndex first))

/-- The end of `checkTestBuffer()`, from the point where a buffer has to be
made: the three ways of getting one all end in
`if (buffer && buffer->bufferId())`. -/
def takeTestBuffer (d : Decls) (p : DrmPipeline) : Bool × DrmPipeline :=
  match d.createTestBuffer p with
  | some buffer =>
    if buffer.bufferId != 0 then
      (true, { p with oldTestBuffer := p.primaryBuffer, primaryBuffer := some buffer })
    else (false, p)
  | none => (false, p)

/-- `bool DrmPipeline::checkTestBuffer()`; `none` when `sourceSize()` has no
connector to ask. -/
def checkTestBuffer (d : Decls) (p : DrmPipeline) : Option (Bool × DrmPipeline) :=
  match p.primaryBuffer with
  | some buffer =>
    match p.sourceSize d with
    | none => none
    | some size =>
      if buffer.size == size then some (true, p)
      else if !p.active then some (true, p)
      else some (takeTestBuffer d p)
  | none =>
    if !p.active then some (true, p)
    else some (takeTestBuffer d p)

/-- The `std::any_of` over `m_allObjects` with `obj->needsModeset()`. -/
def needsModeset (d : Decls) (p : DrmPipeline) : Bool :=
  p.allObjects.any (fun r =>
    match r with
    | ObjRef.connector i => (p.connectors.get? i).any d.connectorNeedsModeset
    | ObjRef.crtc i => (p.crtcs.get? i).any d.crtcNeedsModeset
    | ObjRef.plane i => (p.primaryPlanes.get? i).any d.planeNeedsModeset)

/-- The first loop of `populateAtomicValues`, over the indices that are left:
`m_primaryPlanes[i]->set(...)` and `m_primaryPlanes[i]->setBuffer(...)`.  `none`
when `m_primaryPlanes[i]` does not exist. -/
def setPlaneValues (d : Decls) : List Nat → DrmPipeline → Option DrmPipeline
  | [], p => some p
  | i :: rest, p =>
    match p.connectors.get? i, p.primaryPlanes.get? i with
    | some conn, some plane =>
      setPlaneValues d rest
        { p with
          primaryPlanes := p.primaryPlanes.set i
            (d.planeSetBuffer
              (d.planeSet plane (d.tilePos conn) (p.rotated d (d.currentModeSize conn)) (0, 0)
                (d.currentModeSize conn))
              (if p.active then p.primaryBuffer else none)) }
    | _, _ => none

/-- The second loop of `populateAtomicValues`: `obj->atomicPopulate(req)` for
the objects that are left, stopping at the first failure. -/
def populateObjects (drv : Driver) (p : DrmPipeline) :
    List ObjRef → List AtomicProperty → Bool × List AtomicProperty
  | [], req => (true, req)
  | r :: rest, req =>
    match p.getObject r with
    | none => populateObjects drv p rest req
    | some o =>
      if (o.atomicPopulate drv req).1 then
        populateObjects drv p rest (o.atomicPopulate drv req).2
      else (false, (o.atomicPopulate drv req).2)

/-- The flags after the first lines of `populateAtomicValues`. -/
def populateFlags (d : Decls) (caps : GpuCaps) (p : DrmPipeline) (flags : Nat) : Nat :=
  let usesEglStreams := caps.useEglStreams && caps.hasEglBackend && caps.isPrimaryGpu
  let flags1 := if !usesEglStreams && p.active then flags ||| DRM_MODE_PAGE_FLIP_EVENT else flags
  if p.needsModeset d then flags1 ||| DRM_MODE_ATOMIC_ALLOW_MODESET
  else flags1 ||| DRM_MODE_ATOMIC_NONBLOCK

/-- `bool DrmPipeline::populateAtomicValues(drmModeAtomicReq *req, uint32_t &flags)`:
the result, the pipeline, the request and the flags.  `none` when a primary
plane that the loop indexes does not exist. -/
def populateAtomicValues (d : Decls) (drv : Driver) (caps : GpuCaps) (p : DrmPipeline)
    (req : List AtomicProperty) (flags : Nat) :
    Option (Bool × DrmPipeline × List AtomicProperty × Nat) :=
  match setPlaneValues d (List.range p.connectors.length)
      { p with lastFlags := populateFlags d caps p flags } with
  | none => none
  | some p1 =>
    some ((populateObjects drv p1 p1.allObjects req).1, p1,
      (populateObjects drv p1 p1.allObjects req).2, populateFlags d caps p flags)

/-- The state of the loop of `testPipelines`. -/
structure TestLoop where
  result : Bool
  pipelines : List DrmPipeline
  req : List AtomicProperty
  flags : Nat

/-- The loop of `testPipelines` over the pipelines that are left; it stops at the
first pipeline whose `checkTestBuffer()` or `populateAtomicValues()` fails. -/
def testLoop (d : Decls) (drv : Driver) (caps : GpuCaps) :
    List DrmPipeline → List AtomicProperty → Nat → Option TestLoop
  | [], req, flags => some { result := true, pipelines := [], req := req, flags := flags }
  | pipeline :: rest, req, flags =>
    match pipeline.checkTestBuffer d with
    | none => none
    | some (false, p1) =>
      some { result := false, pipelines := p1 :: rest, req := req, flags := flags }
    | some (true, p1) =>
      match p1.populateAtomicValues d drv caps req flags with
      | none => none
      | some (false, p2, req2, flags2) =>
        some { result := false, pipelines := p2 :: rest, req := req2, flags := flags2 }
      | some (true, p2, req2, flags2) =>
        match testLoop d drv caps rest req2 flags2 with
        | none => none
        | some s => some { s with pipelines := p2 :: s.pipelines }

/-- `bool DrmPipeline::testPipelines(const QVector<DrmPipeline*> &pipelines)`:
the result, the pipelines as the call leaves them, and the kernel.  `none`
when the batch is empty (`Q_ASSERT`, `pipelines[0]`) or an access fails. -/
def testPipelines (d : Decls) (drv : Driver) (caps : GpuCaps) (k : Kernel)
    (pipelines : List DrmPipeline) : Option (Bool × List DrmPipeline × Kernel) :=
  if pipelines.isEmpty then none
  else if !drv.atomicAlloc then some (false, pipelines, k)
  else
    match testLoop d drv caps pipelines [] 0 with
    | none => none
    | some s =>
      if s.result then
        some ((drmModeAtomicCommit drv k s.req
            ((s.flags &&& 0xFFFFFFFE) ||| DRM_MODE_ATOMIC_TEST_ONLY)).1,
          s.pipelines,
          (drmModeAtomicCommit drv k s.req
            ((s.flags &&& 0xFFFFFFFE) ||| DRM_MODE_ATOMIC_TEST_ONLY)).2)
      else some (false, s.pipelines, k)

end DrmPipeline

/-! ## `DrmGpu`: the search for a working combination -/

/-- One pass of insertion, as `std::__insertion_sort` does it: `val` goes to the
front when it compares before the first element, otherwise it moves left past
every element it compares before. -/
def sortInsert {α : Type} (comp : α → α → Bool) (sorted : List α) (val : α) : List α :=
  match sorted with
  | [] => [val]
  | first :: _ =>
    if comp val first then val :: sorted
    else
      (sorted.reverse.dropWhile (comp val)).reverse ++
        val :: (sorted.reverse.takeWhile (comp val)).reverse

/-- The function `std::__insertion_sort(first, last, comp)` of libstdc++: every
element in turn is inserted into the sorted front of the range.  `std::sort` of
libstdc++ is this function on a range of at most 16 elements (`_S_threshold`);
on a longer range it partitions the range first and leaves another order. -/
def insertionSort {α : Type} (comp : α → α → Bool) (l : List α) : List α :=
  l.foldl (sortInsert comp) []

/-- The number of pipelines of a combination with `isConnected()` true
(`std::count_if`). -/
def connectedCount (ix : PropertyIndex) (combination : List DrmPipeline) : Nat :=
  combination.countP (fun pipeline => pipeline.isConnected ix == some true)

/-- The comparator passed to `std::sort` in `constructAllCombinations`. -/
def sortByRelevance (ix : PropertyIndex) (combination0 combination1 : List DrmPipeline) :
    Bool :=
  if combination0.length > combination1.length then true
  else connectedCount ix combination0 > connectedCount ix combination1

/-- The lambda `recurse` of `constructAllCombinations`, given the combinations
`otherPipelines` already built for the remaining connectors. -/
def recurseWith (connector : DrmConnector) (crtc : DrmCrtc) (primaryPlane : Option DrmPlane)
    (otherPipelines : List (List DrmPipeline)) : List (List DrmPipeline) :=
  otherPipelines.map (fun list => DrmPipeline.new connector crtc primaryPlane :: list) ++
    (if otherPipelines.isEmpty then [[DrmPipeline.new connector crtc primaryPlane]] else [])

/-- `planesLeft.removeOne(primaryPlane)`, where `primaryPlane` may be null. -/
def removeOnePlane (planes : List DrmPlane) (primaryPlane : Option DrmPlane) : List DrmPlane :=
  match primaryPlane with
  | some plane => planes.erase plane
  | none => planes

/-- `DrmGpu::constructAllCombinations(connectors, crtcs, planes)`;
`atomicModeSetting` is `m_atomicModeSetting`.  The encoder fetched with
`drmModeGetEncoder` is not looked at, so each encoder id of the connector
contributes the same candidates.  `sort comp ret` is the call
`std::sort(ret.begin(), ret.end(), comp)`: the standard library is not among the
sources, and the order it leaves for this comparator, which is no strict weak
ordering, depends on the implementation and on the length of the range, so it
is taken as given. -/
def constructAllCombinations
    (sort : (List DrmPipeline → List DrmPipeline → Bool) →
      List (List DrmPipeline) → List (List DrmPipeline))
    (atomicModeSetting : Bool) (ix : PropertyIndex) :
    List DrmConnector → List DrmCrtc → List DrmPlane → List (List DrmPipeline)
  | [], _, _ => []
  | connector :: connectors, crtcs, planes =>
    sort (sortByRelevance ix)
      (connector.encoders.flatMap (fun _ =>
        crtcs.flatMap (fun crtc =>
          if atomicModeSetting then
            planes.flatMap (fun plane =>
              if plane.type == TypeIndex.Primary && plane.isCrtcSupported crtc.pipeIndex then
                recurseWith connector crtc (some plane)
                  (constructAllCombinations sort atomicModeSetting ix connectors
                    (crtcs.erase crtc) (removeOnePlane planes (some plane)))
              else [])
          else
            recurseWith connector crtc none
              (constructAllCombinations sort atomicModeSetting ix connectors
                (crtcs.erase crtc) (removeOnePlane planes none)))))

/-- A `DrmOutput` as far as the search is concerned: the pipeline it holds. -/
structure DrmOutput where
  pipeline : DrmPipeline
deriving DecidableEq, Repr

/-- What the pointer `output->pipeline()` of an output of `outputs` points to
during the search: the pipeline the output came with, a pipeline of the
candidate under test, or a pipeline of a failed candidate, which
`qDeleteAll(*it)` has deleted. -/
inductive Holding where
  | own
  | candidate
  | deleted
deriving DecidableEq, Repr

/-- Whether an output of `outputs` holds a pipeline with the connector of
`pipeline`. -/
def hasOutputFor (outputs : List DrmOutput) (pipeline : DrmPipeline) : Bool :=
  outputs.any (fun output => output.pipeline.connector == pipeline.connector)

/-- A new `DrmOutput` for every pipeline of a candidate whose connector has no
output among `outputs`. -/
def newOutputs (outputs : List DrmOutput) (combination : List DrmPipeline) : List DrmOutput :=
  (combination.filter (fun pipeline => !hasOutputFor outputs pipeline)).map
    (fun pipeline => { pipeline := pipeline })

/-- The `std::find_if` over `outputs` for one pipeline of a candidate, with the
`else` branch of the loop: the first output whose pipeline has the connector of
`pipeline` gets `setPipeline(pipeline)`.  The result says whether there was
such an output.  `none` when the search reads `output->pipeline()->connector()`
through a pointer to a deleted pipeline. -/
def setPipelineFor (pipeline : DrmPipeline) :
    List (DrmOutput × Holding) → Option (Bool × List (DrmOutput × Holding))
  | [] => some (false, [])
  | (output, holding) :: rest =>
    if holding = Holding.deleted then none
    else if output.pipeline.connector == pipeline.connector then
      some (true, ({ output with pipeline := pipeline }, Holding.candidate) :: rest)
    else
      match setPipelineFor pipeline rest with
      | none => none
      | some (found, rest1) => some (found, (output, holding) :: rest1)

/-- The inner loop of `findWorkingCombination` over the pipelines of one
candidate that are left: a pipeline whose connector has no output gets a new
output, appended to `config`; otherwise the output found gets the pipeline. -/
def bindCandidate :
    List DrmPipeline → List DrmOutput → List (DrmOutput × Holding) →
      Option (List DrmOutput × List (DrmOutput × Holding))
  | [], config, outputs => some (config, outputs)
  | pipeline :: rest, config, outputs =>
    match setPipelineFor pipeline outputs with
    | none => none
    | some (true, outputs1) => bindCandidate rest config outputs1
    | some (false, outputs1) =>
      bindCandidate rest (config ++ [{ pipeline := pipeline }]) outputs1

/-- The call `qDeleteAll(*it)` after a failed test, seen from `outputs`: the
pipelines of the candidate are deleted, also those set on an output. -/
def deleteCandidate (outputs : List (DrmOutput × Holding)) : List (DrmOutput × Holding) :=
  outputs.map (fun s => if s.2 = Holding.candidate then (s.1, Holding.deleted) else s)

/-- The loop of `findWorkingCombination` over the sorted candidates:
`config` is filled for a candidate, the candidate is tested, and on failure
`config` is cleared, the candidate is deleted and the next one is tried.
`testPipelines` is the verdict of `DrmPipeline::testPipelines` on a candidate.
The result is `config` together with the outputs passed in, as the loop leaves
them.  `none` when the loop reads a deleted pipeline. -/
def tryCombinations (testPipelines : List DrmPipeline → Bool) :
    List (DrmOutput × Holding) → List (List DrmPipeline) →
      Option (List DrmOutput × List (DrmOutput × Holding))
  | outputs, [] => some ([], outputs)
  | outputs, combination :: rest =>
    match bindCandidate combination [] outputs with
    | none => none
    | some (config, outputs1) =>
      if testPipelines combination then some (config, outputs1)
      else tryCombinations testPipelines (deleteCandidate outputs1) rest

/-- `DrmGpu::findWorkingCombination(outputs, connectors, crtcs, planes)`: the
returned `config`, and the outputs passed in as the call leaves them.  `none`
when the call reads a deleted pipeline. -/
def findWorkingCombination
    (sort : (List DrmPipeline → List DrmPipeline → Bool) →
      List (List DrmPipeline) → List (List DrmPipeline))
    (atomicModeSetting : Bool) (ix : PropertyIndex)
    (testPipelines : List DrmPipeline → Bool) (outputs : List DrmOutput)
    (connectors : List DrmConnector) (crtcs : List DrmCrtc) (planes : List DrmPlane) :
    Option (List DrmOutput × List (DrmOutput × Holding)) :=
  tryCombinations testPipelines (outputs.map (fun output => (output, Holding.own)))
    (constructAllCombinations sort atomicModeSetting ix connectors crtcs planes)

/-- The outputs passed to `findWorkingCombination` after the call; `none` when
one of them is left with a pointer to a deleted pipeline, a state the members
of `DrmGpu` as modelled here cannot hold. -/
def heldOutputs (outputs : List (DrmOutput × Holding)) : Option (List DrmOutput) :=
  if outputs.any (fun s => decide (s.2 = Holding.deleted)) then none
  else some (outputs.map (fun s => s.1))

/-! ## `DrmGpu::updateOutputs` -/

/-- `bool DrmPipeline::isComplete() const`; `none` when there is no first
connector. -/
def DrmPipeline.isComplete (useEglStreams : Bool) (p : DrmPipeline) : Option Bool :=
  match p.connectors.head? with
  | none => none
  | some first =>
    if first.isTiled then
      if useEglStreams then some true
      else
        some ((List.range first.tilingInfo.num_tiles_x.toNat).all (fun x =>
          (List.range first.tilingInfo.num_tiles_y.toNat).all (fun y =>
            p.connectors.any (fun conn =>
              decide ((x : Int) ≥ conn.tilingInfo.loc_x) &&
              decide ((x : Int) ≤ conn.tilingInfo.loc_x + conn.tilingInfo.tile_width) &&
              decide ((y : Int) ≥ conn.tilingInfo.loc_y) &&
              decide ((y : Int) ≤ conn.tilingInfo.loc_y + conn.tilingInfo.tile_height)))))
    else some true

/-- The members of `DrmGpu` that `updateOutputs` reads and writes. -/
structure DrmGpu where
  atomicModeSetting : Bool
  useEglStreams : Bool
  planes : List DrmPlane
  unusedPlanes : List DrmPlane
  crtcs : List DrmCrtc
  connectors : List DrmConnector
  pipelines : List DrmPipeline
  outputs : List DrmOutput
deriving DecidableEq, Repr

/-- What the kernel reports for one connector id of `drmModeGetResources`: the
object `new DrmConnector(this, id)` builds, the results of `init()` and
`isNonDesktop()` on it, and the connection status `isConnected()` returns for
that id. -/
structure ReportedConnector where
  connector : DrmConnector
  initOk : Bool
  nonDesktop : Bool
  connected : Bool
deriving DecidableEq, Repr

/-- What the kernel reports for one CRTC id: the id, the properties read by
`init()` and its result. -/
structure ReportedCrtc where
  id : Nat
  props : List (Option Property)
  initOk : Bool
deriving DecidableEq, Repr

/-- The answer to `drmModeGetResources`, and for every plane the properties a
call of `updateProperties()` reads back. -/
structure Resources where
  connectors : List ReportedConnector
  crtcs : List ReportedCrtc
  planeProps : DrmPlane → List (Option Property)

/-- The two lists filled by the first loop of `updateOutputs`. -/
structure ConnectorScan where
  removedConnectors : List DrmConnector
  unusedConnectors : List DrmConnector
deriving DecidableEq, Repr

/-- The body of the loop over `resources->connectors`. -/
def scanConnector (known : List DrmConnector) (s : ConnectorScan) (r : ReportedConnector) :
    ConnectorScan :=
  match known.find? (fun c => c.id == r.connector.id) with
  | none =>
    if !r.initOk then s
    else if r.nonDesktop then s
    else if !r.connected then s
    else { s with unusedConnectors := s.unusedConnectors ++ [r.connector] }
  | some c =>
    if r.connected then { s with removedConnectors := s.removedConnectors.erase c }
    else s

/-- The two lists filled by the second loop of `updateOutputs`. -/
structure CrtcScan where
  removedCrtcs : List DrmCrtc
  unusedCrtcs : List DrmCrtc
deriving DecidableEq, Repr

/-- The body of the loop over `resources->crtcs`; `i` is the loop index, which
becomes the pipe index of a new CRTC. -/
def scanCrtc (known : List DrmCrtc) (s : CrtcScan) (ir : Nat × ReportedCrtc) : CrtcScan :=
  match known.find? (fun c => c.id == ir.2.id) with
  | none =>
    if !ir.2.initOk then s
    else { s with
      unusedCrtcs := s.unusedCrtcs ++ [{ id := ir.2.id, props := ir.2.props, pipeIndex := ir.1 }] }
  | some c => { s with removedCrtcs := s.removedCrtcs.erase c }

namespace DrmGpu

/-- `DrmOutput *DrmGpu::findOutput(quint32 connector)`. -/
def findOutput (gpu : DrmGpu) (connector : Nat) : Option DrmOutput :=
  gpu.outputs.find? (fun o =>
    match o.pipeline.connector with
    | some c => c.id == connector
    | none => false)

/-- `void DrmGpu::removeOutput(DrmOutput *output)`. -/
def removeOutput (gpu : DrmGpu) (output : DrmOutput) : DrmGpu :=
  { gpu with
    outputs := gpu.outputs.erase output
    connectors :=
      match output.pipeline.connector with
      | some c => gpu.connectors.erase c
      | none => gpu.connectors
    unusedPlanes := gpu.unusedPlanes ++ output.pipeline.primaryPlane.toList
    pipelines := gpu.pipelines.erase output.pipeline }

/-- The body of the loop over `removedConnectors`. -/
def dropConnector (s : DrmGpu × List DrmCrtc) (connector : DrmConnector) :
    DrmGpu × List DrmCrtc :=
  let gpu : DrmGpu := { s.1 with connectors := s.1.connectors.erase connector }
  match gpu.findOutput connector.id with
  | some output => (gpu.removeOutput output, s.2 ++ output.pipeline.crtc.toList)
  | none => (gpu, s.2)

/-- The body of the loop over `removedCrtcs`. -/
def dropCrtc (s : DrmGpu × List DrmConnector) (crtc : DrmCrtc) : DrmGpu × List DrmConnector :=
  let found := s.1.outputs.find? (fun output => output.pipeline.crtc == some crtc)
  let s1 : DrmGpu × List DrmConnector :=
    match found with
    | some output => (s.1.removeOutput output, s.2 ++ output.pipeline.connector.toList)
    | none => s
  ({ s1.1 with crtcs := s1.1.crtcs.erase crtc }, s1.2)

/-- The body of the last loop of `updateOutputs`, which registers one output of
`config` with the GPU. -/
def registerOutput (gpu : DrmGpu) (output : DrmOutput) : DrmGpu :=
  { gpu with
    connectors := gpu.connectors ++ output.pipeline.connector.toList
    crtcs := gpu.crtcs ++ output.pipeline.crtc.toList
    unusedPlanes := removeOnePlane gpu.unusedPlanes output.pipeline.primaryPlane
    pipelines := gpu.pipelines ++ [output.pipeline] }

/-- The first part of `updateOutputs`, up to the test `!unusedConnectors.isEmpty()`:
the two scans of the reported resources and the removal of the connectors and
CRTCs that are gone.  The result is the GPU with `unusedConnectors` and
`unusedCrtcs`. -/
def collectUnused (res : Resources) (gpu : DrmGpu) :
    DrmGpu × List DrmConnector × List DrmCrtc :=
  let cs := res.connectors.foldl (scanConnector gpu.connectors)
    { removedConnectors := gpu.connectors, unusedConnectors := [] }
  let rs := res.crtcs.enum.foldl (scanCrtc gpu.crtcs)
    { removedCrtcs := gpu.crtcs, unusedCrtcs := [] }
  let s1 := cs.removedConnectors.foldl dropConnector (gpu, rs.unusedCrtcs)
  let s2 := rs.removedCrtcs.foldl dropCrtc (s1.1, cs.unusedConnectors)
  (s2.1, s2.2, s1.2)

/-- The loop `for (plane : m_planes) plane->updateProperties()`: every plane
takes the properties the kernel reports for it. -/
def refreshPlanes (res : Resources) (gpu : DrmGpu) : DrmGpu :=
  { gpu with
    planes := gpu.planes.map (fun plane => { plane with props := res.planeProps plane })
    unusedPlanes :=
      gpu.unusedPlanes.map (fun plane => { plane with props := res.planeProps plane }) }

/-- The vectors of the GPU and the pipelines point to the same connector, CRTC
and plane objects: after calls on `pipelines` that changed their objects, the
vectors show them as the pipelines left them. -/
def adoptObjects (gpu : DrmGpu) (pipelines : List DrmPipeline) : DrmGpu :=
  { gpu with
    connectors := gpu.connectors.map (fun c =>
      ((pipelines.flatMap (fun p => p.connectors)).find? (fun c1 => c1.id == c.id)).getD c)
    crtcs := gpu.crtcs.map (fun c =>
      ((pipelines.flatMap (fun p => p.crtcs)).find? (fun c1 => c1.id == c.id)).getD c)
    planes := gpu.planes.map (fun c =>
      ((pipelines.flatMap (fun p => p.primaryPlanes)).find? (fun c1 => c1.id == c.id)).getD c)
    unusedPlanes := gpu.unusedPlanes.map (fun c =>
      ((pipelines.flatMap (fun p => p.primaryPlanes)).find? (fun c1 => c1.id == c.id)).getD c) }

/-- The second search of `updateOutputs`, over the resources of the current
outputs as well: the pipelines of the current outputs are switched off first.
`none` when the search reads a deleted pipeline or leaves one with a current
output. -/
def searchAgain
    (sort : (List DrmPipeline → List DrmPipeline → Bool) →
      List (List DrmPipeline) → List (List DrmPipeline))
    (ix : PropertyIndex) (testPipelines : List DrmPipeline → Bool)
    (setActiveFalse : DrmPipeline → DrmPipeline) (gpu : DrmGpu)
    (unusedConnectors : List DrmConnector) (unusedCrtcs : List DrmCrtc) : Option DrmGpu :=
  let off : DrmGpu :=
    adoptObjects
      { gpu with
        outputs := gpu.outputs.map (fun output =>
          { output with pipeline := setActiveFalse output.pipeline })
        pipelines := gpu.pipelines.map (fun pipeline =>
          if gpu.outputs.any (fun output => output.pipeline == pipeline) then
            setActiveFalse pipeline
          else pipeline) }
      (gpu.outputs.map (fun output => setActiveFalse output.pipeline))
  match findWorkingCombination sort off.atomicModeSetting ix testPipelines off.outputs
      (unusedConnectors ++ off.connectors) (off.crtcs ++ unusedCrtcs) off.planes with
  | none => none
  | some again =>
    match heldOutputs again.2 with
    | none => none
    | some outputs =>
      some { again.1.foldl registerOutput off with outputs := outputs ++ again.1 }

/-- The body of `if (!unusedConnectors.isEmpty())` after the planes were
refreshed: the search over the unused resources, the second search when it
configured fewer connectors than there are and enough CRTCs are free, and the
registration of the outputs found.  Before the second search the loop
`for (output : config) { ...; qDeleteAll(config); }` deletes every output of
`config` once for each of them: `none` when `config` holds more than one. -/
def configureUnused
    (sort : (List DrmPipeline → List DrmPipeline → Bool) →
      List (List DrmPipeline) → List (List DrmPipeline))
    (ix : PropertyIndex) (testPipelines : List DrmPipeline → Bool)
    (setActiveFalse : DrmPipeline → DrmPipeline) (gpu : DrmGpu)
    (unusedConnectors : List DrmConnector) (unusedCrtcs : List DrmCrtc) : Option DrmGpu :=
  match findWorkingCombination sort gpu.atomicModeSetting ix testPipelines []
      unusedConnectors unusedCrtcs gpu.unusedPlanes with
  | none => none
  | some first =>
    if first.1.length < unusedConnectors.length && unusedCrtcs.length ≥ unusedConnectors.length
    then
      if first.1.length > 1 then none
      else searchAgain sort ix testPipelines setActiveFalse gpu unusedConnectors unusedCrtcs
    else
      some { first.1.foldl registerOutput gpu with
        outputs := (first.1.foldl registerOutput gpu).outputs ++ first.1 }

/-- `bool DrmGpu::updateOutputs()`.  `resources` is the answer of the kernel
(null when `drmModeGetResources` fails), `testPipelines` the verdict of
`DrmPipeline::testPipelines`, and `setActiveFalse` the effect of
`setActive(false)` on a pipeline of a current output.  `none` where the call
has no defined behaviour. -/
def updateOutputs
    (sort : (List DrmPipeline → List DrmPipeline → Bool) →
      List (List DrmPipeline) → List (List DrmPipeline))
    (ix : PropertyIndex) (testPipelines : List DrmPipeline → Bool)
    (setActiveFalse : DrmPipeline → DrmPipeline) (resources : Option Resources)
    (gpu : DrmGpu) : Option (Bool × DrmGpu) :=
  match resources with
  | none => some (false, gpu)
  | some res =>
    if (collectUnused res gpu).2.1.isEmpty then some (true, (collectUnused res gpu).1)
    else
      (configureUnused sort ix testPipelines setActiveFalse
        (refreshPlanes res (collectUnused res gpu).1)
        (collectUnused res gpu).2.1 (collectUnused res gpu).2.2).map (fun gpu1 => (true, gpu1))

end DrmGpu

/-- The `drmModePropertyRes` that `drmModeGetProperty` returns: `prop_id`, `name`
and the two bits of `flags` the code reads, `DRM_MODE_PROP_BLOB` and
`DRM_MODE_PROP_IMMUTABLE`. -/
structure PropertyRes where
  prop_id : Nat
  name : String
  isBlob : Bool
  isImmutable : Bool
deriving DecidableEq, Repr

/-- One property of a `drmModeObjectProperties`: the entry of `prop_values` and
what `drmModeGetProperty` returns for the entry of `props` (`none` for a null
pointer). -/
structure ReportedProperty where
  value : Nat
  res : Option PropertyRes
deriving DecidableEq, Repr

/-- How the kernel answers the calls of the pipeline code: the atomic
interface, `drmModeSetCursor` (CRTC id, handle, width, height),
`drmModeMoveCursor` (CRTC id, x, y), `drmModeObjectGetProperties` (object id;
`none` for a null pointer), `drmModeConnectorSetProperty` (connector id,
property id, value), `drmModeSetCrtc` (CRTC id, buffer id, connector id, mode),
`drmModePageFlip` (CRTC id, buffer id), `drmModeCrtcSetGamma` (CRTC id, ramp) and
`drmModeObjectSetProperty` (object id, property id, value).  A Boolean answer is
`true` when the call returns 0. -/
structure Ioctls extends Driver where
  setCursor : Nat → Nat → Int → Int → Bool
  moveCursor : Nat → Int → Int → Bool
  objectGetProperties : Nat → Option (List ReportedProperty)
  connectorSetProperty : Nat → Nat → Nat → Bool
  setCrtc : Nat → Nat → Nat → List Nat → Bool
  pageFlip : Nat → Nat → Bool
  crtcSetGamma : Nat → List Nat → Bool
  objectSetProperty : Nat → Nat → Nat → Bool

/-- The call `drmModeSetCursor(fd, crtcId, handle, width, height) == 0`. -/
def drmModeSetCursor (io : Ioctls) (k : Kernel) (crtcId handle : Nat) (width height : Int) :
    Bool × Kernel :=
  (io.setCursor crtcId handle width height,
    { k with calls := k.calls ++
        [KernelCall.setCursor crtcId handle width height (io.setCursor crtcId handle width height)] })

/-- The call `drmModeMoveCursor(fd, crtcId, x, y) == 0`. -/
def drmModeMoveCursor (io : Ioctls) (k : Kernel) (crtcId : Nat) (x y : Int) : Bool × Kernel :=
  (io.moveCursor crtcId x y,
    { k with calls := k.calls ++ [KernelCall.moveCursor crtcId x y (io.moveCursor crtcId x y)] })

/-- The call `drmModeObjectGetProperties(fd, id, type)`. -/
def drmModeObjectGetProperties (io : Ioctls) (k : Kernel) (objectId : Nat) :
    Option (List ReportedProperty) × Kernel :=
  (io.objectGetProperties objectId,
    { k with calls := k.calls ++
        [KernelCall.objectGetProperties objectId (io.objectGetProperties objectId).isSome] })

/-- The call `drmModeConnectorSetProperty(fd, connectorId, propertyId, value) == 0`. -/
def drmModeConnectorSetProperty (io : Ioctls) (k : Kernel) (connectorId propertyId value : Nat) :
    Bool × Kernel :=
  (io.connectorSetProperty connectorId propertyId value,
    { k with calls := k.calls ++
        [KernelCall.connectorSetProperty connectorId propertyId value
          (io.connectorSetProperty connectorId propertyId value)] })

/-- The call `drmModeSetCrtc(fd, crtcId, bufferId, 0, 0, &connId, 1, &mode) == 0`. -/
def drmModeSetCrtc (io : Ioctls) (k : Kernel) (crtcId bufferId connectorId : Nat)
    (mode : List Nat) : Bool × Kernel :=
  (io.setCrtc crtcId bufferId connectorId mode,
    { k with calls := k.calls ++
        [KernelCall.setCrtc crtcId bufferId connectorId mode
          (io.setCrtc crtcId bufferId connectorId mode)] })

/-- The call `drmModePageFlip(fd, crtcId, bufferId, DRM_MODE_PAGE_FLIP_EVENT, data) == 0`. -/
def drmModePageFlip (io : Ioctls) (k : Kernel) (crtcId bufferId : Nat) : Bool × Kernel :=
  (io.pageFlip crtcId bufferId,
    { k with calls := k.calls ++ [KernelCall.pageFlip crtcId bufferId (io.pageFlip crtcId bufferId)] })

/-- The call `drmModeCrtcSetGamma(fd, crtcId, size, red, green, blue) == 0`; the
three arrays are passed one after the other. -/
def drmModeCrtcSetGamma (io : Ioctls) (k : Kernel) (crtcId : Nat) (ramp : List Nat) :
    Bool × Kernel :=
  (io.crtcSetGamma crtcId ramp,
    { k with calls := k.calls ++ [KernelCall.crtcSetGamma crtcId ramp (io.crtcSetGamma crtcId ramp)] })

/-- The call `drmModeObjectSetProperty(fd, objectId, type, propertyId, value) == 0`. -/
def drmModeObjectSetProperty (io : Ioctls) (k : Kernel) (objectId propertyId value : Nat) :
    Bool × Kernel :=
  (io.objectSetProperty objectId propertyId value,
    { k with calls := k.calls ++
        [KernelCall.objectSetProperty objectId propertyId value
          (io.objectSetProperty objectId propertyId value)] })

/-- An entry of `m_propertyDefinitions`: its `name` and whether its
`requirement` is `Requirement::Required`. -/
structure PropertyDefinition where
  name : String
  required : Bool
deriving DecidableEq, Repr

namespace DrmObject

/-- The inner loop of `updateProperties`: the first reported property whose
`drmModeGetProperty` answer is not null and carries the name of the
definition. -/
def findReported (reported : List ReportedProperty) (definition : PropertyDefinition) :
    Option (Nat × PropertyRes) :=
  reported.findSome? (fun r =>
    match r.res with
    | some res => if definition.name == res.name then some (r.value, res) else none
    | none => none)

/-- One round of the outer loop of `updateProperties`: the new entry
`m_props[propIndex]`.  A property that is not found is deleted (the entry
becomes null). -/
def updateProperty (reported : List ReportedProperty) (old : Option Property)
    (definition : PropertyDefinition) (k : Kernel) : Option Property × Kernel :=
  match findReported reported definition with
  | none => (none, k)
  | some (value, res) =>
    let got : Option Blob × Kernel := if res.isBlob then drmModeGetPropertyBlob k value else (none, k)
    match old with
    | some property =>
      if res.isBlob then
        (some (property.setCurrentBlob got.1 got.2).1, (property.setCurrentBlob got.1 got.2).2)
      else (some (property.setCurrent value), got.2)
    | none => (some (Property.new res.prop_id value got.1 res.isImmutable), got.2)

/-- The outer loop of `updateProperties` over the definitions that are left,
`propIndex` being the index of the first of them. -/
def updatePropertiesLoop (reported : List ReportedProperty) (old : List (Option Property)) :
    List PropertyDefinition → Nat → Kernel → List (Option Property) × Kernel
  | [], _, k => ([], k)
  | definition :: rest, propIndex, k =>
    let r := updateProperty reported (old.get? propIndex).join definition k
    (r.1 :: (updatePropertiesLoop reported old rest (propIndex + 1) r.2).1,
      (updatePropertiesLoop reported old rest (propIndex + 1) r.2).2)

/-- The last loop of `updateProperties`: no required property is missing. -/
def requiredPresent (definitions : List PropertyDefinition) (props : List (Option Property)) :
    Bool :=
  (definitions.zip props).all (fun e => !(e.1.required && e.2.isNone))

/-- `bool DrmObject::updateProperties()` for an object with the given
`m_propertyDefinitions`. -/
def updateProperties (definitions : List PropertyDefinition) (atomicModeSetting : Bool)
    (io : Ioctls) (o : DrmObject) (k : Kernel) : Bool × DrmObject × Kernel :=
  match drmModeObjectGetProperties io k o.id with
  | (none, k1) => (false, o, k1)
  | (some reported, k1) =>
    let r := updatePropertiesLoop reported o.props definitions 0 k1
    (!atomicModeSetting || requiredPresent definitions r.1, { o with props := r.1 }, r.2)

/-- Modelled from the spec: `DrmObject::setPendingBlob(index, data, length)` is
declared in drm_object.h, which is not among the sources; it stages the blob in
the property at `index` and fails when that property is missing. -/
def setPendingBlob (o : DrmObject) (index : Nat) (blob : Option (List Nat)) (k : Kernel) :
    Bool × DrmObject × Kernel :=
  match o.getProp index with
  | some property =>
    ((property.setPendingBlob blob k).1,
      { o with props := o.props.set index (some (property.setPendingBlob blob k).2.1) },
      (property.setPendingBlob blob k).2.2)
  | none => (false, o, k)

end DrmObject

/-! ## `DrmPipeline`: commits, tests and presentation -/

/-- Further members the pipeline code calls whose definitions are in files that
are not among the sources; they are parameters like those of `Decls`:
`DrmDumbBuffer::handle()`, `DrmPlane::setTransformation(t)` (its result and the
plane it leaves), `setNext(buffer)` and `current()` of a plane and of a CRTC,
`DrmBuffer::needsModeChange(buffer)`, `DrmConnector::setModeIndex(index)`, the
bytes of the `drmModeModeInfo` of `DrmConnector::currentMode()`,
`DrmConnector::hasOverscan()`, `overscan()`, `setOverscan(overscan, size)` and
`vrrCapable()`, the enumerators `Active`, `ModeId`, `Gamma_LUT` and `VrrEnabled`
of `DrmCrtc::PropertyIndex`, `Dpms` of `DrmConnector::PropertyIndex`, the two
`CrtcId` enumerators, and the property definitions the three classes hand to
the `DrmObject` constructor. -/
structure Members extends Decls where
  handle : DrmBuffer → Nat
  planeSetTransformation : DrmPlane → Nat → Bool × DrmPlane
  planeSetNext : DrmPlane → Option DrmBuffer → DrmPlane
  planeCurrent : DrmPlane → Option DrmBuffer
  crtcSetNext : DrmCrtc → Option DrmBuffer → DrmCrtc
  crtcCurrent : DrmCrtc → Option DrmBuffer
  needsModeChange : DrmBuffer → Option DrmBuffer → Bool
  setModeIndex : DrmConnector → Int → DrmConnector
  currentMode : DrmConnector → List Nat
  hasOverscan : DrmConnector → Bool
  overscan : DrmConnector → Nat
  connectorSetOverscan : DrmConnector → Nat → Int × Int → DrmConnector
  vrrCapable : DrmConnector → Bool
  crtcActive : Nat
  crtcModeId : Nat
  crtcGammaLut : Nat
  crtcVrrEnabled : Nat
  connectorDpms : Nat
  index : PropertyIndex
  connectorDefinitions : List PropertyDefinition
  crtcDefinitions : List PropertyDefinition
  planeDefinitions : List PropertyDefinition

/-- The enumerator `DrmPlane::Transformation::Rotate0`, the value 1 of the DRM
rotation bitmask. -/
def Rotate0 : Nat := 1

/-- The value `DRM_MODE_DPMS_ON`. -/
def DRM_MODE_DPMS_ON : Nat := 0

/-- The value `DRM_MODE_DPMS_OFF`. -/
def DRM_MODE_DPMS_OFF : Nat := 3

namespace DrmPipeline

/-- The loop of `setCursor` over the CRTCs that are left; it stops at the first
call that fails. -/
def setCursorLoop (io : Ioctls) (handle : Nat) (size : Int × Int) :
    List DrmCrtc → Kernel → Bool × Kernel
  | [], k => (true, k)
  | crtc :: rest, k =>
    if (drmModeSetCursor io k crtc.id handle size.1 size.2).1 then
      setCursorLoop io handle size rest (drmModeSetCursor io k crtc.id handle size.1 size.2).2
    else (false, (drmModeSetCursor io k crtc.id handle size.1 size.2).2)

/-- `bool DrmPipeline::setCursor(const QSharedPointer<DrmDumbBuffer> &buffer)`. -/
def setCursor (m : Members) (io : Ioctls) (p : DrmPipeline) (buffer : Option DrmBuffer)
    (k : Kernel) : Bool × DrmPipeline × Kernel :=
  if !p.cursor.dirty && p.cursor.buffer == buffer then (true, p, k)
  else
    let s : Int × Int := match buffer with
      | some b => b.size
      | none => (64, 64)
    let handle : Nat := match buffer with
      | some b => m.handle b
      | none => 0
    if (setCursorLoop io handle s p.crtcs k).1 then
      (true, { p with cursor := { p.cursor with buffer := buffer, dirty := false } },
        (setCursorLoop io handle s p.crtcs k).2)
    else (false, p, (setCursorLoop io handle s p.crtcs k).2)

/-- The loop of `moveCursor` over the CRTCs that are left; it stops at the first
call that fails. -/
def moveCursorLoop (io : Ioctls) (pos : Int × Int) : List DrmCrtc → Kernel → Bool × Kernel
  | [], k => (true, k)
  | crtc :: rest, k =>
    if (drmModeMoveCursor io k crtc.id pos.1 pos.2).1 then
      moveCursorLoop io pos rest (drmModeMoveCursor io k crtc.id pos.1 pos.2).2
    else (false, (drmModeMoveCursor io k crtc.id pos.1 pos.2).2)

/-- `bool DrmPipeline::moveCursor(QPoint pos)`: `m_cursor.pos = pos` is the
statement of the branch in which a call failed. -/
def moveCursor (io : Ioctls) (p : DrmPipeline) (pos : Int × Int) (k : Kernel) :
    Bool × DrmPipeline × Kernel :=
  if !p.cursor.dirty && p.cursor.pos == pos then (true, p, k)
  else if (moveCursorLoop io pos p.crtcs k).1 then
    (true, { p with cursor := { p.cursor with dirty := false } },
      (moveCursorLoop io pos p.crtcs k).2)
  else
    (false, { p with cursor := { p.cursor with pos := pos } }, (moveCursorLoop io pos p.crtcs k).2)

/-- The property definitions of the object an entry of `m_allObjects` points
to. -/
def definitionsOf (m : Members) : ObjRef → List PropertyDefinition
  | ObjRef.connector _ => m.connectorDefinitions
  | ObjRef.crtc _ => m.crtcDefinitions
  | ObjRef.plane _ => m.planeDefinitions

/-- `void DrmPipeline::updateProperties()`; the results of the calls
`obj->updateProperties()` are not looked at. -/
def updateProperties (m : Members) (io : Ioctls) (caps : GpuCaps) (p : DrmPipeline)
    (k : Kernel) : DrmPipeline × Kernel :=
  let s := p.allObjects.foldl
    (fun s r =>
      applyToObject
        (fun o k1 => (o.updateProperties (definitionsOf m r) caps.atomicModeSetting io k1).2) s r)
    (p, k)
  ({ s.1 with cursor := { s.1.cursor with dirty := true } }, s.2)

/-- The `else` branch at the end of `doAtomicCommit` and of `atomicTest`: the
buffer that `checkTestBuffer()` replaced comes back, and every object rolls
back. -/
def rollbackAll (p : DrmPipeline) (k : Kernel) : DrmPipeline × Kernel :=
  forAllObjects DrmObject.rollbackPending
    (match p.oldTestBuffer with
      | some buffer => { p with primaryBuffer := some buffer, oldTestBuffer := none }
      | none => p) k

/-- `bool DrmPipeline::doAtomicCommit(drmModeAtomicReq *req, uint32_t flags, bool testOnly)`;
`none` when `populateAtomicValues` indexes a primary plane that does not
exist. -/
def doAtomicCommit (m : Members) (io : Ioctls) (caps : GpuCaps) (p : DrmPipeline) (k : Kernel)
    (req : List AtomicProperty) (flags : Nat) (testOnly : Bool) :
    Option (Bool × DrmPipeline × Kernel) :=
  match p.populateAtomicValues m.toDecls io.toDriver caps req flags with
  | none => none
  | some (populated, p1, req1, flags1) =>
    let tested : Bool × Kernel :=
      if populated then
        drmModeAtomicCommit io.toDriver k req1
          ((flags1 &&& 0xFFFFFFFE) ||| DRM_MODE_ATOMIC_TEST_ONLY)
      else (false, k)
    let committed : Bool × Kernel :=
      if !testOnly && tested.1 then drmModeAtomicCommit io.toDriver tested.2 req1 flags1
      else tested
    if committed.1 then
      let s1 := forAllObjects DrmObject.commitPending { p1 with oldTestBuffer := none } committed.2
      if !testOnly then
        let s2 := forAllObjects DrmObject.commit s1.1 s1.2
        some (true,
          { s2.1 with
            primaryPlanes := s2.1.primaryPlanes.map
              (fun plane => m.planeSetNext plane s2.1.primaryBuffer) },
          s2.2)
      else some (true, s1.1, s1.2)
    else some (false, (rollbackAll p1 committed.2).1, (rollbackAll p1 committed.2).2)

/-- `bool DrmPipeline::atomicCommit()`. -/
def atomicCommit (m : Members) (io : Ioctls) (caps : GpuCaps) (p : DrmPipeline) (k : Kernel) :
    Option (Bool × DrmPipeline × Kernel) :=
  if !io.atomicAlloc then some (false, p, k)
  else doAtomicCommit m io caps p k [] 0 false

end DrmPipeline

/-- A vector of pipelines as seen from one pipeline (`this`): the pipelines in
front of it, whether the vector holds it, and the pipelines behind it.  It is
the argument `pipelines` of `test` and the answer of `m_gpu->pipelines()`. -/
structure Batch where
  before : List DrmPipeline
  holdsThis : Bool
  after : List DrmPipeline
deriving DecidableEq, Repr

/-- The vector with the present state of this pipeline in its place. -/
def Batch.pipelines (b : Batch) (self : DrmPipeline) : List DrmPipeline :=
  b.before ++ (if b.holdsThis then [self] else []) ++ b.after

/-- This pipeline and the others, read back from the vector after a call that
worked on its elements. -/
def Batch.readBack (b : Batch) (self : DrmPipeline) (l : List DrmPipeline) :
    DrmPipeline × Batch :=
  if b.holdsThis then
    ((l.get? b.before.length).getD self,
      { b with before := l.take b.before.length, after := l.drop (b.before.length + 1) })
  else (self, { b with before := l.take b.before.length, after := l.drop b.before.length })

namespace DrmPipeline

/-- `bool DrmPipeline::atomicTest(const QVector<DrmPipeline*> &pipelines)`. -/
def atomicTest (m : Members) (io : Ioctls) (caps : GpuCaps) (pipelines : Batch)
    (p : DrmPipeline) (k : Kernel) : Option (Bool × DrmPipeline × Batch × Kernel) :=
  match testPipelines m.toDecls io.toDriver caps k (pipelines.pipelines p) with
  | none => none
  | some (result, l, k1) =>
    if result then
      some (true,
        (forAllObjects DrmObject.commitPending
          { (pipelines.readBack p l).1 with oldTestBuffer := none } k1).1,
        (pipelines.readBack p l).2,
        (forAllObjects DrmObject.commitPending
          { (pipelines.readBack p l).1 with oldTestBuffer := none } k1).2)
    else
      some (false, (rollbackAll (pipelines.readBack p l).1 k1).1, (pipelines.readBack p l).2,
        (rollbackAll (pipelines.readBack p l).1 k1).2)

/-- The statements of the failure branch of the legacy `modeset`:
`m_connectors.first()->setModeIndex(oldModeIndex)` and
`m_primaryBuffer = m_oldTestBuffer`. -/
def undoLegacyModeset (m : Members) (oldModeIndex : Int) (p : DrmPipeline) : DrmPipeline :=
  { p with
    connectors := p.connectors.modifyHead (fun conn => m.setModeIndex conn oldModeIndex)
    primaryBuffer := p.oldTestBuffer }

/-- The branch of `bool DrmPipeline::modeset(int wantedMode)` for a GPU without
atomic mode setting.  `none` when there is no first connector or CRTC, or when
`m_primaryBuffer->bufferId()` is read through a null pointer. -/
def modesetLegacy (m : Members) (io : Ioctls) (p : DrmPipeline) (k : Kernel) (wantedMode : Int) :
    Option (Bool × DrmPipeline × Kernel) :=
  match p.connectors with
  | [] => none
  | conn :: others =>
    let p1 : DrmPipeline := { p with connectors := m.setModeIndex conn wantedMode :: others }
    match p1.checkTestBuffer m.toDecls with
    | none => none
    | some (false, p2) => some (false, undoLegacyModeset m (m.modeIndex conn) p2, k)
    | some (true, p2) =>
      match p2.crtcs.head?, p2.primaryBuffer with
      | some crtc, some buffer =>
        if (drmModeSetCrtc io k crtc.id buffer.bufferId (m.setModeIndex conn wantedMode).id
            (m.currentMode (m.setModeIndex conn wantedMode))).1 then
          some (true, { p2 with oldTestBuffer := none, legacyNeedsModeset := false },
            (drmModeSetCrtc io k crtc.id buffer.bufferId (m.setModeIndex conn wantedMode).id
              (m.currentMode (m.setModeIndex conn wantedMode))).2)
        else
          some (false, undoLegacyModeset m (m.modeIndex conn) p2,
            (drmModeSetCrtc io k crtc.id buffer.bufferId (m.setModeIndex conn wantedMode).id
              (m.currentMode (m.setModeIndex conn wantedMode))).2)
      | _, _ => none

/-- `bool DrmPipeline::test(const QVector<DrmPipeline*> &pipelines)`.  The call
`modeset(0)` is made only on a GPU without atomic mode setting, where `modeset`
takes its legacy branch. -/
def test (m : Members) (io : Ioctls) (caps : GpuCaps) (pipelines : Batch) (p : DrmPipeline)
    (k : Kernel) : Option (Bool × DrmPipeline × Batch × Kernel) :=
  if caps.atomicModeSetting then
    match p.checkTestBuffer m.toDecls with
    | none => none
    | some (false, p1) => some (false, p1, pipelines, k)
    | some (true, p1) => atomicTest m io caps pipelines p1 k
  else if p.legacyNeedsModeset then
    match modesetLegacy m io p k 0 with
    | none => none
    | some (result, p1, k1) => some (result, p1, pipelines, k1)
  else some (true, p, pipelines, k)

end DrmPipeline

namespace DrmPipeline

/-- `DrmBuffer *DrmPipeline::currentBuffer() const`: the outer `none` when there
is neither a primary plane nor a CRTC, the inner one for a null pointer. -/
def currentBuffer (m : Members) (p : DrmPipeline) : Option (Option DrmBuffer) :=
  match p.primaryPlanes.head? with
  | some plane => some (m.planeCurrent plane)
  | none => p.crtcs.head?.map m.crtcCurrent

/-- `bool DrmPipeline::presentLegacy()`; it is called on a GPU without atomic
mode setting, where `modeset` takes its legacy branch. -/
def presentLegacy (m : Members) (io : Ioctls) (p : DrmPipeline) (k : Kernel) :
    Option (Bool × DrmPipeline × Kernel) :=
  match currentBuffer m p with
  | none => none
  | some current =>
    let needsModeset : Bool := match current with
      | none => true
      | some buffer => m.needsModeChange buffer p.primaryBuffer
    let afterModeset : Option (Bool × DrmPipeline × Kernel) :=
      if needsModeset then
        match p.connectors.head? with
        | none => none
        | some conn => modesetLegacy m io p k (m.modeIndex conn)
      else some (true, p, k)
    match afterModeset with
    | none => none
    | some (false, p1, k1) => some (false, p1, k1)
    | some (true, p1, k1) =>
      match p1.crtcs with
      | [] => none
      | crtc :: others =>
        some ((drmModePageFlip io k1 (m.crtcSetNext crtc p1.primaryBuffer).id
            (match p1.primaryBuffer with
              | some buffer => buffer.bufferId
              | none => 0)).1,
          { p1 with
            lastFlags := DRM_MODE_PAGE_FLIP_EVENT
            crtcs := m.crtcSetNext crtc p1.primaryBuffer :: others },
          (drmModePageFlip io k1 (m.crtcSetNext crtc p1.primaryBuffer).id
            (match p1.primaryBuffer with
              | some buffer => buffer.bufferId
              | none => 0)).2)

/-- The part of `present` after `m_primaryBuffer = buffer` and the shortcut for
EGL streams, on a GPU with atomic mode setting: a commit, and after a failure
`updateProperties()` and a second commit. -/
def presentAtomic (m : Members) (io : Ioctls) (caps : GpuCaps) (p : DrmPipeline) (k : Kernel) :
    Option (Bool × DrmPipeline × Kernel) :=
  match atomicCommit m io caps p k with
  | none => none
  | some (true, p1, k1) => some (true, p1, k1)
  | some (false, p1, k1) =>
    atomicCommit m io caps (updateProperties m io caps p1 k1).1 (updateProperties m io caps p1 k1).2

/-- `bool DrmPipeline::present(const QSharedPointer<DrmBuffer> &buffer)`. -/
def present (m : Members) (io : Ioctls) (caps : GpuCaps) (p : DrmPipeline)
    (buffer : Option DrmBuffer) (k : Kernel) : Option (Bool × DrmPipeline × Kernel) :=
  if caps.useEglStreams && caps.hasEglBackend && caps.isPrimaryGpu
      && !({ p with primaryBuffer := buffer } : DrmPipeline).objects.any DrmObject.needsCommit then
    some (true, { p with primaryBuffer := buffer }, k)
  else if caps.atomicModeSetting then
    presentAtomic m io caps { p with primaryBuffer := buffer } k
  else presentLegacy m io { p with primaryBuffer := buffer } k

/-- The first loop of `setPendingTransformation` over the planes that are left;
it stops at the first plane that refuses. -/
def setTransformationLoop (m : Members) (transformation : Nat) :
    List DrmPlane → Bool × List DrmPlane
  | [] => (true, [])
  | plane :: rest =>
    if (m.planeSetTransformation plane transformation).1 then
      ((setTransformationLoop m transformation rest).1,
        (m.planeSetTransformation plane transformation).2 ::
          (setTransformationLoop m transformation rest).2)
    else (false, (m.planeSetTransformation plane transformation).2 :: rest)

/-- The second loop of `setPendingTransformation`: `rollbackPending()` on the
primary planes that are left. -/
def rollbackPlanes : List DrmPlane → Kernel → List DrmPlane × Kernel
  | [], k => ([], k)
  | plane :: rest, k =>
    ({ plane with toDrmObject := (plane.toDrmObject.rollbackPending k).1 } ::
        (rollbackPlanes rest (plane.toDrmObject.rollbackPending k).2).1,
      (rollbackPlanes rest (plane.toDrmObject.rollbackPending k).2).2)

/-- `bool DrmPipeline::setPendingTransformation(const DrmPlane::Transformations &)`. -/
def setPendingTransformation (m : Members) (caps : GpuCaps) (p : DrmPipeline)
    (transformation : Nat) (k : Kernel) : Bool × DrmPipeline × Kernel :=
  if p.transformation m.toDecls == transformation then (true, p, k)
  else if !caps.atomicModeSetting then (false, p, k)
  else if (setTransformationLoop m transformation p.primaryPlanes).1 then
    (true, { p with primaryPlanes := (setTransformationLoop m transformation p.primaryPlanes).2 }, k)
  else
    (false,
      { p with
        primaryPlanes :=
          (rollbackPlanes (setTransformationLoop m transformation p.primaryPlanes).2 k).1 },
      (rollbackPlanes (setTransformationLoop m transformation p.primaryPlanes).2 k).2)

/-- The lambda `setValues` of `modeset` over the indices that are left; the
result of `setPendingBlob` is not looked at.  `none` when `m_crtcs[i]` does not
exist. -/
def setValues (m : Members) (wantedMode : Int) :
    List Nat → DrmPipeline → Kernel → Option (DrmPipeline × Kernel)
  | [], p, k => some (p, k)
  | i :: rest, p, k =>
    match p.connectors.get? i, p.crtcs.get? i with
    | some conn, some crtc =>
      setValues m wantedMode rest
        { p with
          connectors := p.connectors.set i
            (if m.hasOverscan (m.setModeIndex conn wantedMode) then
              m.connectorSetOverscan (m.setModeIndex conn wantedMode)
                (m.overscan (m.setModeIndex conn wantedMode))
                (m.currentModeSize (m.setModeIndex conn wantedMode))
            else m.setModeIndex conn wantedMode)
          crtcs := p.crtcs.set i
            { crtc with
              toDrmObject :=
                (crtc.toDrmObject.setPendingBlob m.crtcModeId
                  (some (m.currentMode (m.setModeIndex conn wantedMode))) k).2.1 } }
        (crtc.toDrmObject.setPendingBlob m.crtcModeId
          (some (m.currentMode (m.setModeIndex conn wantedMode))) k).2.2
    | _, _ => none

/-- The calls `setValues(); works = test();` of the atomic branch of `modeset`;
`test()` is `test(m_gpu->pipelines())`. -/
def setValuesAndTest (m : Members) (io : Ioctls) (caps : GpuCaps) (gpuPipelines : Batch)
    (p : DrmPipeline) (k : Kernel) (wantedMode : Int) :
    Option (Bool × DrmPipeline × Batch × Kernel) :=
  match setValues m wantedMode (List.range p.connectors.length) p k with
  | none => none
  | some (p1, k1) => test m io caps gpuPipelines p1 k1

/-- `bool DrmPipeline::modeset(int wantedMode)`. -/
def modeset (m : Members) (io : Ioctls) (caps : GpuCaps) (gpuPipelines : Batch)
    (p : DrmPipeline) (k : Kernel) (wantedMode : Int) :
    Option (Bool × DrmPipeline × Batch × Kernel) :=
  if caps.atomicModeSetting then
    match setValuesAndTest m io caps gpuPipelines p k wantedMode with
    | none => none
    | some (true, p1, b1, k1) => some (true, p1, b1, k1)
    | some (false, p1, b1, k1) =>
      if p1.transformation m.toDecls != Rotate0 then
        if (setPendingTransformation m caps p1 Rotate0 k1).1 then
          setValuesAndTest m io caps b1 (setPendingTransformation m caps p1 Rotate0 k1).2.1
            (setPendingTransformation m caps p1 Rotate0 k1).2.2 wantedMode
        else
          some (false, (setPendingTransformation m caps p1 Rotate0 k1).2.1, b1,
            (setPendingTransformation m caps p1 Rotate0 k1).2.2)
      else some (false, p1, b1, k1)
  else
    match modesetLegacy m io p k wantedMode with
    | none => none
    | some (result, p1, k1) => some (result, p1, gpuPipelines, k1)

end DrmPipeline

/-- A `GammaRamp`: the entries of `red()`, `green()` and `blue()`, one triple for
each of the `size()` indices. -/
structure GammaRamp where
  entries : List (Nat × Nat × Nat)
deriving DecidableEq, Repr

/-- The two enumerators of `RenderLoopPrivate::SyncMode` the pipeline code
names. -/
inductive SyncMode where
  | Fixed
  | Adaptive
deriving DecidableEq, Repr

namespace DrmPipeline

/-- The first loop of `setActive`: `drmModeSetCursor(fd, crtc->id(), 0, 0, 0)` for
the CRTCs that are left; a failure is logged and the loop goes on. -/
def clearCursors (io : Ioctls) : List DrmCrtc → Kernel → Kernel
  | [], k => k
  | crtc :: rest, k => clearCursors io rest (drmModeSetCursor io k crtc.id 0 0 0).2

/-- The second loop of `setActive`, on a GPU with atomic mode setting, over the
indices that are left.  `none` when `m_crtcs[i]` or `m_primaryPlanes[i]` does
not exist. -/
def stageActive (m : Members) (active : Bool) :
    List Nat → DrmPipeline → Kernel → Option (DrmPipeline × Kernel)
  | [], p, k => some (p, k)
  | i :: rest, p, k =>
    match p.connectors.get? i, p.crtcs.get? i, p.primaryPlanes.get? i with
    | some conn, some crtc, some plane =>
      stageActive m active rest
        { p with
          connectors := p.connectors.set i
            { conn with
              toDrmObject :=
                conn.toDrmObject.setPending m.index.connectorCrtcId (if active then crtc.id else 0) }
          crtcs := p.crtcs.set i
            { crtc with
              toDrmObject :=
                ((crtc.toDrmObject.setPending m.crtcActive (if active then 1 else 0)).setPendingBlob
                  m.crtcModeId (if active then some (m.currentMode conn) else none) k).2.1 }
          primaryPlanes := p.primaryPlanes.set i
            { plane with
              toDrmObject :=
                plane.toDrmObject.setPending m.index.planeCrtcId (if active then crtc.id else 0) } }
        ((crtc.toDrmObject.setPending m.crtcActive (if active then 1 else 0)).setPendingBlob
          m.crtcModeId (if active then some (m.currentMode conn) else none) k).2.2
    | _, _, _ => none

/-- The middle of `setActive`, from `m_active = active` to the value of
`success`; `test()` is `test(m_gpu->pipelines())`. -/
def applyActive (m : Members) (io : Ioctls) (caps : GpuCaps) (gpuPipelines : Batch)
    (p : DrmPipeline) (k : Kernel) (active : Bool) :
    Option (Bool × DrmPipeline × Batch × Kernel) :=
  if caps.atomicModeSetting then
    match stageActive m active (List.range p.connectors.length) { p with active := active } k with
    | none => none
    | some (p1, k1) =>
      if active then
        match test m io caps gpuPipelines p1 k1 with
        | none => none
        | some (true, p2, b2, k2) => some (true, p2, b2, k2)
        | some (false, p2, b2, k2) =>
          test m io caps b2 (updateProperties m io caps p2 k2).1 (updateProperties m io caps p2 k2).2
      else
        match atomicCommit m io caps p1 k1 with
        | none => none
        | some (success, p2, k2) => some (success, p2, gpuPipelines, k2)
  else
    match p.connectors.head? with
    | none => none
    | some conn =>
      match conn.getProp m.connectorDpms with
      | none => some (false, { p with active := active }, gpuPipelines, k)
      | some dpmsProp =>
        some ((drmModeConnectorSetProperty io k conn.id dpmsProp.propId
            (if active then DRM_MODE_DPMS_ON else DRM_MODE_DPMS_OFF)).1,
          { p with active := active }, gpuPipelines,
          (drmModeConnectorSetProperty io k conn.id dpmsProp.propId
            (if active then DRM_MODE_DPMS_ON else DRM_MODE_DPMS_OFF)).2)

/-- `bool DrmPipeline::setActive(bool active)`. -/
def setActive (m : Members) (io : Ioctls) (caps : GpuCaps) (gpuPipelines : Batch)
    (p : DrmPipeline) (k : Kernel) (active : Bool) :
    Option (Bool × DrmPipeline × Batch × Kernel) :=
  match applyActive m io caps gpuPipelines p
      (if p.active && !active then clearCursors io p.crtcs k else k) active with
  | none => none
  | some (success, p1, b1, k1) =>
    if (if success then p1.active else p.active) then
      some (success,
        (setCursor m io { p1 with active := if success then p1.active else p.active }
          p1.cursor.buffer k1).2.1,
        b1,
        (setCursor m io { p1 with active := if success then p1.active else p.active }
          p1.cursor.buffer k1).2.2)
    else some (success, { p1 with active := if success then p1.active else p.active }, b1, k1)

/-- The bytes of the `drm_color_lut` array `setGammaRamp` fills: red, green and
blue of every entry. -/
def gammaLut (ramp : GammaRamp) : List Nat :=
  ramp.entries.flatMap (fun e => [e.1, e.2.1, e.2.2])

/-- The first loop of `setGammaRamp`, over the CRTCs that are left; it stops at
the first CRTC whose `setPendingBlob` fails. -/
def stageGamma (m : Members) (lut : List Nat) : List DrmCrtc → Kernel → Bool × List DrmCrtc × Kernel
  | [], k => (true, [], k)
  | crtc :: rest, k =>
    if (crtc.toDrmObject.setPendingBlob m.crtcGammaLut (some lut) k).1 then
      ((stageGamma m lut rest (crtc.toDrmObject.setPendingBlob m.crtcGammaLut (some lut) k).2.2).1,
        { crtc with
          toDrmObject := (crtc.toDrmObject.setPendingBlob m.crtcGammaLut (some lut) k).2.1 } ::
          (stageGamma m lut rest
            (crtc.toDrmObject.setPendingBlob m.crtcGammaLut (some lut) k).2.2).2.1,
        (stageGamma m lut rest (crtc.toDrmObject.setPendingBlob m.crtcGammaLut (some lut) k).2.2).2.2)
    else
      (false,
        { crtc with
          toDrmObject := (crtc.toDrmObject.setPendingBlob m.crtcGammaLut (some lut) k).2.1 } :: rest,
        (crtc.toDrmObject.setPendingBlob m.crtcGammaLut (some lut) k).2.2)

/-- The legacy loop of `setGammaRamp`, over the CRTCs that are left. -/
def setGammaLegacy (io : Ioctls) (ramp : GammaRamp) : List DrmCrtc → Kernel → Bool × Kernel
  | [], k => (true, k)
  | crtc :: rest, k =>
    if (drmModeCrtcSetGamma io k crtc.id
        (ramp.entries.map (fun e => e.1) ++ ramp.entries.map (fun e => e.2.1) ++
          ramp.entries.map (fun e => e.2.2))).1 then
      setGammaLegacy io ramp rest
        (drmModeCrtcSetGamma io k crtc.id
          (ramp.entries.map (fun e => e.1) ++ ramp.entries.map (fun e => e.2.1) ++
            ramp.entries.map (fun e => e.2.2))).2
    else
      (false,
        (drmModeCrtcSetGamma io k crtc.id
          (ramp.entries.map (fun e => e.1) ++ ramp.entries.map (fun e => e.2.1) ++
            ramp.entries.map (fun e => e.2.2))).2)

/-- `bool DrmPipeline::setGammaRamp(const GammaRamp &ramp)`; `none` when
`m_crtcs.first()` is asked of an empty vector. -/
def setGammaRamp (m : Members) (io : Ioctls) (caps : GpuCaps) (gpuPipelines : Batch)
    (p : DrmPipeline) (k : Kernel) (ramp : GammaRamp) :
    Option (Bool × DrmPipeline × Batch × Kernel) :=
  if caps.atomicModeSetting && p.crtcs.isEmpty then none
  else if caps.atomicModeSetting
      && (p.crtcs.head?.any (fun crtc => (crtc.getProp m.crtcGammaLut).isSome)) then
    if (stageGamma m (gammaLut ramp) p.crtcs k).1 then
      test m io caps gpuPipelines { p with crtcs := (stageGamma m (gammaLut ramp) p.crtcs k).2.1 }
        (stageGamma m (gammaLut ramp) p.crtcs k).2.2
    else
      some (false, { p with crtcs := (stageGamma m (gammaLut ramp) p.crtcs k).2.1 }, gpuPipelines,
        (stageGamma m (gammaLut ramp) p.crtcs k).2.2)
  else
    some ((setGammaLegacy io ramp p.crtcs k).1, p, gpuPipelines, (setGammaLegacy io ramp p.crtcs k).2)

/-- `bool DrmPipeline::setTransformation(const DrmPlane::Transformations &)`. -/
def setTransformation (m : Members) (io : Ioctls) (caps : GpuCaps) (gpuPipelines : Batch)
    (p : DrmPipeline) (k : Kernel) (transformation : Nat) :
    Option (Bool × DrmPipeline × Batch × Kernel) :=
  if (setPendingTransformation m caps p transformation k).1 then
    test m io caps gpuPipelines (setPendingTransformation m caps p transformation k).2.1
      (setPendingTransformation m caps p transformation k).2.2
  else
    some (false, (setPendingTransformation m caps p transformation k).2.1, gpuPipelines,
      (setPendingTransformation m caps p transformation k).2.2)

/-- The loop of `setSyncMode` on a GPU with atomic mode setting, over the CRTCs
that are left: `success`, `needsTest` and the CRTCs.  It stops at the first CRTC
without the property `VrrEnabled`. -/
def stageVrr (m : Members) (vrr : Nat) : List DrmCrtc → Bool × Bool × List DrmCrtc
  | [] => (true, false, [])
  | crtc :: rest =>
    match crtc.getProp m.crtcVrrEnabled with
    | none => (false, false, crtc :: rest)
    | some vrrProp =>
      if vrrProp.pending != vrr then
        ((stageVrr m vrr rest).1, true,
          { crtc with props := crtc.props.set m.crtcVrrEnabled (some (vrrProp.setPending vrr)) } ::
            (stageVrr m vrr rest).2.2)
      else ((stageVrr m vrr rest).1, (stageVrr m vrr rest).2.1, crtc :: (stageVrr m vrr rest).2.2)

/-- `bool DrmPipeline::setSyncMode(RenderLoopPrivate::SyncMode syncMode)`; `none`
when `m_crtcs.first()` is asked of an empty vector. -/
def setSyncMode (m : Members) (io : Ioctls) (caps : GpuCaps) (gpuPipelines : Batch)
    (p : DrmPipeline) (k : Kernel) (syncMode : SyncMode) :
    Option (Bool × DrmPipeline × Batch × Kernel) :=
  if !p.connectors.all m.vrrCapable then some (syncMode == SyncMode.Fixed, p, gpuPipelines, k)
  else if caps.atomicModeSetting then
    if (stageVrr m (if syncMode == SyncMode.Adaptive then 1 else 0) p.crtcs).1
        && (stageVrr m (if syncMode == SyncMode.Adaptive then 1 else 0) p.crtcs).2.1 then
      test m io caps gpuPipelines
        { p with crtcs := (stageVrr m (if syncMode == SyncMode.Adaptive then 1 else 0) p.crtcs).2.2 }
        k
    else
      some ((stageVrr m (if syncMode == SyncMode.Adaptive then 1 else 0) p.crtcs).1,
        { p with crtcs := (stageVrr m (if syncMode == SyncMode.Adaptive then 1 else 0) p.crtcs).2.2 },
        gpuPipelines, k)
  else
    match p.crtcs.head? with
    | none => none
    | some crtc =>
      match crtc.getProp m.crtcVrrEnabled with
      | none => some (false, p, gpuPipelines, k)
      | some vrrProp =>
        some ((drmModeObjectSetProperty io k crtc.id vrrProp.propId
            (if syncMode == SyncMode.Adaptive then 1 else 0)).1, p, gpuPipelines,
          (drmModeObjectSetProperty io k crtc.id vrrProp.propId
            (if syncMode == SyncMode.Adaptive then 1 else 0)).2)

/-- `bool DrmPipeline::setOverscan(uint32_t overscan)`; `none` when
`m_connectors.first()` is asked of an empty vector. -/
def setOverscan (m : Members) (io : Ioctls) (caps : GpuCaps) (gpuPipelines : Batch)
    (p : DrmPipeline) (k : Kernel) (overscan : Nat) :
    Option (Bool × DrmPipeline × Batch × Kernel) :=
  if overscan > 100 || p.connectors.length > 1 then some (false, p, gpuPipelines, k)
  else
    match p.connectors with
    | [] => none
    | conn :: others =>
      if overscan != 0 && !m.hasOverscan conn then some (false, p, gpuPipelines, k)
      else
        test m io caps gpuPipelines
          { p with
            connectors := m.connectorSetOverscan conn overscan (m.currentModeSize conn) :: others }
          k

end DrmPipeline

/-! ## Reading the trace -/

/-- The calls of the blob interface: create, destroy and get. -/
def isBlobCall : KernelCall → Bool
  | KernelCall.createPropertyBlob _ _ => true
  | KernelCall.destroyPropertyBlob _ => true
  | KernelCall.getPropertyBlob _ => true
  | _ => false

/-- The calls `updateProperties()` makes: `drmModeObjectGetProperties` and the
blob interface. -/
def isReadCall : KernelCall → Bool
  | KernelCall.objectGetProperties _ _ => true
  | call => isBlobCall call

/-- Whether the flags of an atomic commit hold `DRM_MODE_ATOMIC_TEST_ONLY`. -/
def isTestOnly (flags : Nat) : Bool := flags &&& DRM_MODE_ATOMIC_TEST_ONLY != 0

/-- A `drmModeAtomicCommit` without `DRM_MODE_ATOMIC_TEST_ONLY`. -/
def isCommitAttempt : KernelCall → Bool
  | KernelCall.atomicCommit _ flags _ => !isTestOnly flags
  | _ => false

/-- A `drmModeAtomicCommit` without `DRM_MODE_ATOMIC_TEST_ONLY` that the kernel
accepted. -/
def isAcceptedCommit : KernelCall → Bool
  | KernelCall.atomicCommit _ flags accepted => accepted && !isTestOnly flags
  | _ => false

/-- A `drmModeObjectGetProperties`. -/
def isPropertyQuery : KernelCall → Bool
  | KernelCall.objectGetProperties _ _ => true
  | _ => false

/-- The number of calls of one kind in the trace. -/
def countCalls (kind : KernelCall → Bool) (k : Kernel) : Nat := k.calls.countP kind

/-- The trace of `k2` is the trace of `k1` followed by calls of the kinds
`allowed` only. -/
def AddsOnly (allowed : KernelCall → Bool) (k1 k2 : Kernel) : Prop :=
  ∃ rest, k2.calls = k1.calls ++ rest ∧ ∀ call ∈ rest, allowed call = true

/-- What the loops over the objects of a pipeline leave alone: the cursor, the
flags `m_active` and `m_legacyNeedsModeset`, `m_allObjects`, and the lengths of
the three vectors. -/
def DrmPipeline.shape (p : DrmPipeline) : CursorState × Bool × Bool × List ObjRef × Nat × Nat × Nat :=
  (p.cursor, p.active, p.legacyNeedsModeset, p.allObjects, p.connectors.length, p.crtcs.length,
    p.primaryPlanes.length)

/-- The `next` slot of a property: `m_next` and `m_nextBlob`. -/
def Property.nextSlot (property : Property) : Nat × Option Blob :=
  (property.next, property.nextBlob)

/-- The property at index `i` of the object an entry of `m_allObjects` points
to. -/
def DrmPipeline.propertyAt (p : DrmPipeline) (r : ObjRef) (i : Nat) : Option Property :=
  (p.getObject r).bind (fun o => o.getProp i)

/-- `QPoint DrmPipeline::cursorPos() const`. -/
def DrmPipeline.cursorPos (p : DrmPipeline) : Int × Int := p.cursor.pos

/-! ## `EglMultiBackend` -/

/-- What `EglMultiBackend` calls on one `AbstractEglDrmBackend`.  The backend
classes are defined outside the sources, so their methods are fields: the
answers of `hasOutput`, `beginFrame` (a region), `scanout`,
`directScanoutAllowed` and `textureForOutput` (`none` for a null pointer).
Outputs, surface items and textures are given by their addresses, regions by
their rectangles; `id` names the backend in the record of calls. -/
structure EglBackend where
  id : Nat
  hasOutput : Nat → Bool
  beginFrame : Nat → List Nat
  scanout : Nat → Nat → Bool
  directScanoutAllowed : Nat → Bool
  textureForOutput : Nat → Option Nat

/-- A call that `EglMultiBackend` passes on to a backend. -/
inductive BackendCall where
  | beginFrame (backend output : Nat)
  | endFrame (backend output : Nat) (damage damagedRegion : List Nat)
  | scanout (backend output surfaceItem : Nat)
  | directScanoutAllowed (backend output : Nat)
  | textureForOutput (backend output : Nat)
deriving DecidableEq, Repr

/-- The member `m_backends` of `EglMultiBackend`, in the order of registration;
the first entry is the primary backend. -/
structure EglMultiBackend where
  backends : List EglBackend

namespace EglMultiBackend

/-- `AbstractEglDrmBackend *EglMultiBackend::findBackend(AbstractOutput *) const`;
`none` stands for `Q_UNREACHABLE()`. -/
def findBackend (mb : EglMultiBackend) (output : Nat) : Option EglBackend :=
  mb.backends.find? (fun backend => backend.hasOutput output)

/-- `QRegion EglMultiBackend::beginFrame(AbstractOutput *output)`: the result and
the calls passed on. -/
def beginFrame (mb : EglMultiBackend) (output : Nat) : Option (List Nat × List BackendCall) :=
  (mb.findBackend output).map (fun backend =>
    (backend.beginFrame output, [BackendCall.beginFrame backend.id output]))

/-- `void EglMultiBackend::endFrame(output, damage, damagedRegion)`: the calls
passed on. -/
def endFrame (mb : EglMultiBackend) (output : Nat) (damage damagedRegion : List Nat) :
    Option (List BackendCall) :=
  (mb.findBackend output).map (fun backend =>
    [BackendCall.endFrame backend.id output damage damagedRegion])

/-- `bool EglMultiBackend::scanout(AbstractOutput *output, SurfaceItem *surfaceItem)`. -/
def scanout (mb : EglMultiBackend) (output surfaceItem : Nat) : Option (Bool × List BackendCall) :=
  (mb.findBackend output).map (fun backend =>
    (backend.scanout output surfaceItem, [BackendCall.scanout backend.id output surfaceItem]))

/-- `bool EglMultiBackend::directScanoutAllowed(AbstractOutput *output) const`. -/
def directScanoutAllowed (mb : EglMultiBackend) (output : Nat) :
    Option (Bool × List BackendCall) :=
  (mb.findBackend output).map (fun backend =>
    (backend.directScanoutAllowed output, [BackendCall.directScanoutAllowed backend.id output]))

/-- `QSharedPointer<GLTexture> EglMultiBackend::textureForOutput(AbstractOutput *) const`:
the call goes to `m_backends[0]`; `none` when there is no backend. -/
def textureForOutput (mb : EglMultiBackend) (requestedOutput : Nat) :
    Option (Option Nat × List BackendCall) :=
  match mb.backends with
  | [] => none
  | backend :: _ =>
    some (backend.textureForOutput requestedOutput,
      [BackendCall.textureForOutput backend.id requestedOutput])

end EglMultiBackend

/-! ## `pageFlipHandler` -/

/-- What `pageFlipHandler` asks of the application: whether
`kwinApp()->platform()` is a `DrmBackend`, the GPU `findGpuByFd(fd)` returns,
given by the addresses in its `outputs()` (`none` for a null pointer), the
result of `convertTimestamp` for the presentation clock of the GPU of an output
and a time in seconds and nanoseconds, and the steady clock. -/
structure FlipContext where
  platformIsDrmBackend : Bool
  findGpuByFd : Int → Option (List Nat)
  convertTimestamp : Nat → Nat → Nat → Int
  steadyClockNow : Int

/-- What `pageFlipHandler` does with the output its `data` points to: the reads
`output->gpu()->presentationClock()`, `output->name()` and
`output->renderLoop()`, and the calls `output->pageFlipped()` and
`notifyFrameCompleted(timestamp)` on its render loop. -/
inductive FlipStep where
  | readPresentationClock (output : Nat)
  | readName (output : Nat)
  | pageFlipped (output : Nat)
  | readRenderLoop (output : Nat)
  | notifyFrameCompleted (output : Nat) (timestamp : Int)
deriving DecidableEq, Repr

/-- `static void pageFlipHandler(int fd, unsigned int frame, unsigned int sec,
unsigned int usec, void *data)`: the steps on the output at address `data`, in
order.  `usec * 1000` is a product of `unsigned int`. -/
def pageFlipHandler (ctx : FlipContext) (fd : Int) (_frame sec usec : Nat) (data : Nat) :
    List FlipStep :=
  if !ctx.platformIsDrmBackend then []
  else
    match ctx.findGpuByFd fd with
    | none => []
    | some outputs =>
      if !outputs.contains data then []
      else
        [FlipStep.readPresentationClock data] ++
        (if ctx.convertTimestamp data sec (usec * 1000 % 2 ^ 32) == 0 then
          [FlipStep.readName data, FlipStep.pageFlipped data, FlipStep.readRenderLoop data,
            FlipStep.notifyFrameCompleted data ctx.steadyClockNow]
        else
          [FlipStep.pageFlipped data, FlipStep.readRenderLoop data,
            FlipStep.notifyFrameCompleted data
              (ctx.convertTimestamp data sec (usec * 1000 % 2 ^ 32))])

/-- `bool DrmObject::initProps()`: it returns false when `updateProperties()`
does, and true otherwise; the rest of the function writes the debug log. -/
def DrmObject.initProps (definitions : List PropertyDefinition) (atomicModeSetting : Bool)
    (io : Ioctls) (o : DrmObject) (k : Kernel) : Bool × DrmObject × Kernel :=
  if !(o.updateProperties definitions atomicModeSetting io k).1 then
    (false, (o.updateProperties definitions atomicModeSetting io k).2)
  else (true, (o.updateProperties definitions atomicModeSetting io k).2)

/-! ## Sequences of blob operations on one property -/

/-- The operations on a property that touch blobs: `setPendingBlob(blob,
length)`, `commitPending()`, `rollbackPending()`, `commit()`, and
`setCurrentBlob` as `updateProperties()` calls it, with the blob that
`drmModeGetPropertyBlob` returns for `value`. -/
inductive BlobOp where
  | setPendingBlob (blob : Option (List Nat))
  | commitPending
  | rollbackPending
  | commit
  | setCurrentBlob (value : Nat)
deriving DecidableEq, Repr

/-- One operation on a property and the kernel. -/
def BlobOp.run : BlobOp → Property × Kernel → Property × Kernel
  | BlobOp.setPendingBlob blob, s => (s.1.setPendingBlob blob s.2).2
  | BlobOp.commitPending, s => s.1.commitPending s.2
  | BlobOp.rollbackPending, s => s.1.rollbackPending s.2
  | BlobOp.commit, s => s.1.commit s.2
  | BlobOp.setCurrentBlob value, s =>
    s.1.setCurrentBlob (drmModeGetPropertyBlob s.2 value).1 (drmModeGetPropertyBlob s.2 value).2

/-- A sequence of operations, first to last. -/
def BlobOp.runAll (ops : List BlobOp) (s : Property × Kernel) : Property × Kernel :=
  ops.foldl (fun s op => op.run s) s

/-- Whether one of the three slots of the property refers to the blob `id`, by
its value or by its blob pointer. -/
def Property.references (p : Property) (id : Nat) : Bool :=
  p.pending == id || p.next == id || p.current == id ||
  p.pendingBlob.any (fun b => b.id == id) || p.nextBlob.any (fun b => b.id == id) ||
  p.currentBlob.any (fun b => b.id == id)

/-- A property and a kernel that fit together: the kernel has handed out only
ids below the one it creates next, the slots hold such ids, and a blob pointer
of a slot points to the blob whose id the slot holds. -/
def BlobInvariant (s : Property × Kernel) : Prop :=
  s.1.pending < s.2.freshBlobId ∧ s.1.next < s.2.freshBlobId ∧ s.1.current < s.2.freshBlobId ∧
  (∀ b ∈ s.2.blobs, b.id < s.2.freshBlobId) ∧
  (∀ b, s.1.pendingBlob = some b → b.id = s.1.pending) ∧
  (∀ b, s.1.nextBlob = some b → b.id = s.1.next) ∧
  (∀ b, s.1.currentBlob = some b → b.id = s.1.current)

/-- What every blob operation does: the state stays well formed, and the blobs
it destroys are non-zero ids that no slot refers to afterwards. -/
def BlobStep (s t : Property × Kernel) : Prop :=
  BlobInvariant t ∧
  ∃ ds, destroyedBlobs t.2 = destroyedBlobs s.2 ++ ds ∧
    ∀ id ∈ ds, id ≠ 0 ∧ t.1.references id = false

/-! ## The atomic commits a pipeline issues -/

/-- The flags of the test that `doAtomicCommit` makes before a commit with
`flags`: `(flags & (~DRM_MODE_PAGE_FLIP_EVENT)) | DRM_MODE_ATOMIC_TEST_ONLY`. -/
def testFlags (flags : Nat) : Nat := (flags &&& 0xFFFFFFFE) ||| DRM_MODE_ATOMIC_TEST_ONLY

/-- Whether a call may follow the call `prev`: a `drmModeAtomicCommit` without
`DRM_MODE_ATOMIC_TEST_ONLY` has to come right after the accepted test of the
same request with the flags `testFlags`. -/
def mayFollow (prev : Option KernelCall) : KernelCall → Bool
  | KernelCall.atomicCommit req flags _ =>
    isTestOnly flags || decide (prev = some (KernelCall.atomicCommit req (testFlags flags) true))
  | _ => true

/-- Whether every commit without `DRM_MODE_ATOMIC_TEST_ONLY` in the calls comes
right after its accepted test; `prev` is the call before the first one. -/
def commitsTested (prev : Option KernelCall) : List KernelCall → Bool
  | [] => true
  | call :: rest => mayFollow prev call && commitsTested (some call) rest

/-- A call that is not a `drmModeAtomicCommit` without
`DRM_MODE_ATOMIC_TEST_ONLY`. -/
def isOtherCall (call : KernelCall) : Bool := !isCommitAttempt call

/-- The trace of `k2` is the trace of `k1` followed by calls in which every
commit comes right after its accepted test. -/
def AddsTested (k1 k2 : Kernel) : Prop :=
  ∃ rest, k2.calls = k1.calls ++ rest ∧ ∀ prev, commitsTested prev rest = true

/-- The calls of the users of a pipeline: `present`, `test()`, `modeset`,
`setCursor`, `moveCursor`, `setActive`, `setGammaRamp`, `setTransformation`,
`setSyncMode`, `setOverscan` and `updateProperties`. -/
inductive PipelineCall where
  | present (buffer : Option DrmBuffer)
  | test
  | modeset (wantedMode : Int)
  | setCursor (buffer : Option DrmBuffer)
  | moveCursor (pos : Int × Int)
  | setActive (active : Bool)
  | setGammaRamp (ramp : GammaRamp)
  | setTransformation (transformation : Nat)
  | setSyncMode (syncMode : SyncMode)
  | setOverscan (overscan : Nat)
  | updateProperties

/-- The calls that stage values and ask the kernel to test them:
`setActive(true)`, `modeset`, `setTransformation`, `setGammaRamp`, `setOverscan`
and `setSyncMode`. -/
def PipelineCall.stagesOnly : PipelineCall → Bool
  | PipelineCall.setActive active => active
  | PipelineCall.modeset _ => true
  | PipelineCall.setTransformation _ => true
  | PipelineCall.setGammaRamp _ => true
  | PipelineCall.setOverscan _ => true
  | PipelineCall.setSyncMode _ => true
  | _ => false

/-- One call on a pipeline: the pipeline, the other pipelines of the GPU and
the kernel after it, the returned value dropped.  `none` where the call has no
defined behaviour. -/
def PipelineCall.run (m : Members) (io : Ioctls) (caps : GpuCaps) :
    PipelineCall → DrmPipeline × Batch × Kernel → Option (DrmPipeline × Batch × Kernel)
  | PipelineCall.present buffer, s =>
    (DrmPipeline.present m io caps s.1 buffer s.2.2).map (fun r => (r.2.1, s.2.1, r.2.2))
  | PipelineCall.test, s => (DrmPipeline.test m io caps s.2.1 s.1 s.2.2).map (fun r => r.2)
  | PipelineCall.modeset wantedMode, s =>
    (DrmPipeline.modeset m io caps s.2.1 s.1 s.2.2 wantedMode).map (fun r => r.2)
  | PipelineCall.setCursor buffer, s =>
    some ((DrmPipeline.setCursor m io s.1 buffer s.2.2).2.1, s.2.1,
      (DrmPipeline.setCursor m io s.1 buffer s.2.2).2.2)
  | PipelineCall.moveCursor pos, s =>
    some ((DrmPipeline.moveCursor io s.1 pos s.2.2).2.1, s.2.1,
      (DrmPipeline.moveCursor io s.1 pos s.2.2).2.2)
  | PipelineCall.setActive active, s =>
    (DrmPipeline.setActive m io caps s.2.1 s.1 s.2.2 active).map (fun r => r.2)
  | PipelineCall.setGammaRamp ramp, s =>
    (DrmPipeline.setGammaRamp m io caps s.2.1 s.1 s.2.2 ramp).map (fun r => r.2)
  | PipelineCall.setTransformation transformation, s =>
    (DrmPipeline.setTransformation m io caps s.2.1 s.1 s.2.2 transformation).map (fun r => r.2)
  | PipelineCall.setSyncMode syncMode, s =>
    (DrmPipeline.setSyncMode m io caps s.2.1 s.1 s.2.2 syncMode).map (fun r => r.2)
  | PipelineCall.setOverscan overscan, s =>
    (DrmPipeline.setOverscan m io caps s.2.1 s.1 s.2.2 overscan).map (fun r => r.2)
  | PipelineCall.updateProperties, s =>
    some ((DrmPipeline.updateProperties m io caps s.1 s.2.2).1, s.2.1,
      (DrmPipeline.updateProperties m io caps s.1 s.2.2).2)

/-- A sequence of calls on a pipeline, first to last. -/
def PipelineCall.runAll (m : Members) (io : Ioctls) (caps : GpuCaps) :
    List PipelineCall → DrmPipeline × Batch × Kernel → Option (DrmPipeline × Batch × Kernel)
  | [], s => some s
  | call :: rest, s =>
    match call.run m io caps s with
    | none => none
    | some s1 => PipelineCall.runAll m io caps rest s1

/-! ## Concrete states used as test inputs -/

/-- A kernel holding one blob, id 3 with the single byte 1; the next blob it
creates gets id 7. -/
def kernelWithBlob3 : Kernel :=
  { blobs := [{ id := 3, data := [1] }], freshBlobId := 7, rejectBlobCreate := false, calls := [] }

/-- A mutable blob property as the constructor leaves it: value 3, blob 3. -/
def blobProperty3 : Property :=
  Property.new 1 3 (some { id := 3, data := [1] }) false

/-- The state after `setPendingBlob` of the byte 2 (the kernel creates blob 7)
followed by `setPending(3)`: pending and next both hold the value 3, but the
pending blob pointer is blob 7 and the next blob pointer is blob 3. -/
def staleBlobState : Property × Kernel :=
  ((blobProperty3.setPendingBlob (some [2]) kernelWithBlob3).2.1.setPending 3,
   (blobProperty3.setPendingBlob (some [2]) kernelWithBlob3).2.2)

/-- The state after `setPendingBlob(nullptr, 0)` followed by `setPending(7)`: no
pending blob pointer, pending value 7, current still blob 3. -/
def nullBlobState : Property × Kernel :=
  ((blobProperty3.setPendingBlob none kernelWithBlob3).2.1.setPending 7,
   (blobProperty3.setPendingBlob none kernelWithBlob3).2.2)

/-- An immutable scalar property with value 3. -/
def immutableProperty3 : Property :=
  Property.new 2 3 none true

/-- The property indices used in the examples: `CrtcId` is the first property
of a connector and of a plane. -/
def exampleIndex : PropertyIndex := { connectorCrtcId := 0, planeCrtcId := 0 }

/-- The tile descriptor of a connector that is not tiled. -/
def noTiling : TilingInfo :=
  { group_id := -1, num_tiles_x := 0, num_tiles_y := 0, loc_x := 0, loc_y := 0,
    tile_width := 0, tile_height := 0 }

/-- A connector that is not tiled, with one property, `CrtcId`, whose current
value is `crtcId`. -/
def mkConnector (id crtcId : Nat) (encoders : List Nat) : DrmConnector :=
  { id := id, props := [some (Property.new 20 crtcId none false)], encoders := encoders,
    isTiled := false, tilingInfo := noTiling }

/-- A CRTC without properties. -/
def mkCrtc (id pipeIndex : Nat) : DrmCrtc :=
  { id := id, props := [], pipeIndex := pipeIndex }

/-- A primary plane with one property, `CrtcId`, whose current value is
`crtcId`. -/
def mkPrimaryPlane (id crtcId possibleCrtcs : Nat) : DrmPlane :=
  { id := id, props := [some (Property.new 30 crtcId none false)], type := TypeIndex.Primary,
    possibleCrtcs := possibleCrtcs }

/-- A kernel that accepts every test. -/
def acceptAll (_combination : List DrmPipeline) : Bool := true

/-- Values for the members that are declared outside the sources: no rotation,
a single mode of 1920x1080, no object asks for a modeset, and planes that have
no geometry or framebuffer property, so that `set` and `setBuffer` stage
nothing. -/
def exampleDecls : Decls :=
  { Rotate90 := 2
    Rotate270 := 8
    transformation := fun _ => 1
    modeIndex := fun _ => 0
    totalModeSize := fun _ _ => (1920, 1080)
    currentModeSize := fun _ => (1920, 1080)
    tilePos := fun _ => (0, 0)
    connectorNeedsModeset := fun _ => false
    crtcNeedsModeset := fun _ => false
    planeNeedsModeset := fun _ => false
    planeSet := fun plane _ _ _ _ => plane
    planeSetBuffer := fun plane _ => plane
    createTestBuffer := fun _ => none }

/-- A driver that hands out requests, takes every property and accepts every
commit. -/
def acceptingDriver : Driver :=
  { atomicAlloc := true, atomicAddProperty := fun _ => true, atomicCommit := fun _ _ => true }

/-- A GPU with atomic mode setting and without EGL streams. -/
def atomicCaps : GpuCaps :=
  { atomicModeSetting := true, useEglStreams := false, hasEglBackend := false,
    isPrimaryGpu := true }

/-- The pipeline (31, 51, 61) with CRTC id 51 staged in the `CrtcId` of its
connector and of its plane (their current value is 0) and a test buffer of the
size of the mode. -/
def stagedPipeline : DrmPipeline :=
  { (DrmPipeline.new (mkConnector 31 0 [41]) (mkCrtc 51 0)
      (some (mkPrimaryPlane 61 0 1))).stageCrtcId exampleIndex 0 51 with
    primaryBuffer := some { bufferId := 9, size := (1920, 1080) } }

/-- The call of `testPipelines` on the batch of that one pipeline. -/
def testedBatch : Option (Bool × List DrmPipeline × Kernel) :=
  DrmPipeline.testPipelines exampleDecls acceptingDriver atomicCaps kernelWithBlob3
    [stagedPipeline]

/-- A kernel like `kernelWithBlob3` that rejects the creation of blobs. -/
def rejectingKernel : Kernel :=
  { blobs := [{ id := 3, data := [1] }], freshBlobId := 7, rejectBlobCreate := true, calls := [] }

/-- The property definitions used in the examples: a connector and a plane have
the single property `CRTC_ID`, a CRTC has none. -/
def exampleDefinitions : List PropertyDefinition := [{ name := "CRTC_ID", required := true }]

/-- Values for the further members that are declared outside the sources: the
handle of a buffer is its id, planes accept every transformation and keep no
buffer, connectors have one mode with the bytes `[1]`, no overscan and variable
refresh rate, and the properties of a CRTC are `Active`, `MODE_ID`, `GAMMA_LUT`
and `VRR_ENABLED` in this order. -/
def exampleMembers : Members :=
  { toDecls := exampleDecls
    handle := fun buffer => buffer.bufferId
    planeSetTransformation := fun plane _ => (true, plane)
    planeSetNext := fun plane _ => plane
    planeCurrent := fun _ => none
    crtcSetNext := fun crtc _ => crtc
    crtcCurrent := fun _ => none
    needsModeChange := fun _ _ => false
    setModeIndex := fun conn _ => conn
    currentMode := fun _ => [1]
    hasOverscan := fun _ => false
    overscan := fun _ => 0
    connectorSetOverscan := fun conn _ _ => conn
    vrrCapable := fun _ => true
    crtcActive := 0
    crtcModeId := 1
    crtcGammaLut := 2
    crtcVrrEnabled := 3
    connectorDpms := 1
    index := exampleIndex
    connectorDefinitions := exampleDefinitions
    crtcDefinitions := []
    planeDefinitions := exampleDefinitions }

/-- A kernel that accepts every call and reports the property `CRTC_ID` with
value 0 for every object. -/
def acceptingIoctls : Ioctls :=
  { toDriver := acceptingDriver
    setCursor := fun _ _ _ _ => true
    moveCursor := fun _ _ _ => true
    objectGetProperties := fun _ =>
      some [{ value := 0,
              res := some { prop_id := 20, name := "CRTC_ID", isBlob := false,
                            isImmutable := false } }]
    connectorSetProperty := fun _ _ _ => true
    setCrtc := fun _ _ _ _ => true
    pageFlip := fun _ _ => true
    crtcSetGamma := fun _ _ => true
    objectSetProperty := fun _ _ _ => true }

/-- A kernel without blobs and with an empty trace. -/
def emptyKernel : Kernel :=
  { blobs := [], freshBlobId := 1, rejectBlobCreate := false, calls := [] }

/-- The cursor buffer of the examples: 64x64, id and handle 5. -/
def cursorBuffer : DrmBuffer := { bufferId := 5, size := (64, 64) }

/-- A GPU without atomic mode setting. -/
def legacyCaps : GpuCaps :=
  { atomicModeSetting := false, useEglStreams := false, hasEglBackend := false,
    isPrimaryGpu := true }

/-- Members like `exampleMembers`, with a backend that hands out a test buffer
of the size of the mode, id 9. -/
def bufferMembers : Members :=
  { exampleMembers with createTestBuffer := fun _ => some { bufferId := 9, size := (1920, 1080) } }

/-- A kernel like `acceptingIoctls` that rejects every `drmModeSetCrtc` and every
atomic commit, tests included. -/
def rejectingIoctls : Ioctls :=
  { acceptingIoctls with
    atomicCommit := fun _ _ => false
    setCrtc := fun _ _ _ _ => false }

/-- The pipeline (31, 51) of a GPU without atomic mode setting, as the
constructor leaves it. -/
def legacyPipeline : DrmPipeline :=
  DrmPipeline.new (mkConnector 31 0 [41]) (mkCrtc 51 0) none

/-- The vector of pipelines of a GPU whose only pipeline is this one. -/
def onlyThis : Batch := { before := [], holdsThis := true, after := [] }

/-- A CRTC with the properties `Active` (value 1) and `MODE_ID`, without
`GAMMA_LUT`, and with `VRR_ENABLED` (value 0) when `vrr` is set. -/
def mkVrrCrtc (id pipeIndex : Nat) (vrr : Bool) : DrmCrtc :=
  { id := id
    props := [some (Property.new 71 1 none false), some (Property.new 72 0 none false), none,
      if vrr then some (Property.new 74 0 none false) else none]
    pipeIndex := pipeIndex }

/-- A pipeline of two tiles, (31, 51, 61) and (32, 52, 62), as the constructor
and `addOutput` build it; CRTC 51 has the property `VRR_ENABLED`, CRTC 52 has
not. -/
def tiledPipeline : DrmPipeline :=
  (DrmPipeline.new (mkConnector 31 51 [41]) (mkVrrCrtc 51 0 true)
      (some (mkPrimaryPlane 61 51 1))).addOutput
    (mkConnector 32 52 [42]) (mkVrrCrtc 52 1 false) (some (mkPrimaryPlane 62 52 2))

/-- The pipeline `stagedPipeline` after its cursor was set: the cursor state is
not dirty. -/
def shownPipeline : DrmPipeline :=
  { stagedPipeline with cursor := { pos := (100, 100), buffer := none, dirty := false } }

/-- A second framebuffer of the size of the mode, id 10. -/
def nextFrame : DrmBuffer := { bufferId := 10, size := (1920, 1080) }

/-- A kernel like `acceptingIoctls` that rejects every `drmModeMoveCursor`. -/
def stuckCursorIoctls : Ioctls :=
  { acceptingIoctls with moveCursor := fun _ _ _ => false }

/-- The left half of a display of two tiles side by side: connector 31 at tile
(0, 0) of a 2x1 grid, each tile 1920x2160 pixels. -/
def leftTile : DrmConnector :=
  { id := 31, props := [some (Property.new 20 0 none false)], encoders := [41], isTiled := true
    tilingInfo := { group_id := 1, num_tiles_x := 2, num_tiles_y := 1, loc_x := 0, loc_y := 0,
                    tile_width := 1920, tile_height := 2160 } }

/-- A pipeline that holds the left tile only. -/
def halfTiledPipeline : DrmPipeline :=
  DrmPipeline.new leftTile (mkCrtc 51 0) (some (mkPrimaryPlane 61 0 1))

/-- Members like `exampleDecls` in which connector 32, and no other object,
asks for a modeset. -/
def modesetFor32 : Decls :=
  { exampleDecls with connectorNeedsModeset := fun conn => conn.id == 32 }

/-- The pipeline (32, 52, 62), staged like `stagedPipeline`. -/
def stagedPipeline32 : DrmPipeline :=
  { (DrmPipeline.new (mkConnector 32 0 [42]) (mkCrtc 52 1)
      (some (mkPrimaryPlane 62 0 2))).stageCrtcId exampleIndex 0 52 with
    primaryBuffer := some { bufferId := 9, size := (1920, 1080) } }

/-- The primary backend of the examples: it owns output 1 and answers every
texture query with texture 100. -/
def primaryEgl : EglBackend :=
  { id := 0, hasOutput := fun output => output == 1, beginFrame := fun _ => [1]
    scanout := fun _ _ => false, directScanoutAllowed := fun _ => false
    textureForOutput := fun _ => some 100 }

/-- A secondary backend: it owns output 2 and answers every texture query with
texture 200. -/
def secondaryEgl : EglBackend :=
  { id := 1, hasOutput := fun output => output == 2, beginFrame := fun _ => [2]
    scanout := fun _ _ => true, directScanoutAllowed := fun _ => true
    textureForOutput := fun _ => some 200 }

/-- The two backends, the primary one registered first. -/
def twoBackends : EglMultiBackend := { backends := [primaryEgl, secondaryEgl] }

/-- An application with one GPU on file descriptor 7 whose outputs are at the
addresses 1 and 2; timestamps are taken as they come. -/
def oneGpuContext : FlipContext :=
  { platformIsDrmBackend := true
    findGpuByFd := fun fd => if fd == 7 then some [1, 2] else none
    convertTimestamp := fun _ sec nsec => (sec : Int) * 1000000000 + nsec
    steadyClockNow := 5 }

/-- A kernel like `acceptingIoctls` that reports no property for any object. -/
def bareIoctls : Ioctls :=
  { acceptingIoctls with objectGetProperties := fun _ => some [] }

/-- The pipeline (31, 51, 61) as the driver has set it: the `CrtcId` of the
connector and of the plane is 51. -/
def drivenPipeline : DrmPipeline :=
  DrmPipeline.new (mkConnector 31 51 [41]) (mkCrtc 51 0) (some (mkPrimaryPlane 61 51 1))

/-- A GPU in atomic mode that drives connector 31 with CRTC 51 and plane 61;
plane 62, which supports pipe 1 only, is unused. -/
def oneOutputGpu : DrmGpu :=
  { atomicModeSetting := true, useEglStreams := false
    planes := [mkPrimaryPlane 61 51 1, mkPrimaryPlane 62 0 2]
    unusedPlanes := [mkPrimaryPlane 62 0 2]
    crtcs := [mkCrtc 51 0]
    connectors := [mkConnector 31 51 [41]]
    pipelines := [drivenPipeline]
    outputs := [{ pipeline := drivenPipeline }] }

/-- The kernel reports connector 31 as before and a new connected connector 32,
CRTC 51 as before and a new CRTC 52; the planes keep their properties. -/
def secondConnectorPlugged : Resources :=
  { connectors :=
      [{ connector := mkConnector 31 51 [41], initOk := true, nonDesktop := false,
         connected := true },
       { connector := mkConnector 32 0 [42], initOk := true, nonDesktop := false,
         connected := true }]
    crtcs := [{ id := 51, props := [], initOk := true }, { id := 52, props := [], initOk := true }]
    planeProps := fun plane => plane.props }

/-- A kernel that rejects every candidate in which CRTC 52 drives connector
32. -/
def rejectConnector32OnCrtc52 (combination : List DrmPipeline) : Bool :=
  !combination.any (fun pipeline =>
    pipeline.connectors.any (fun conn => conn.id == 32)
      && pipeline.crtcs.any (fun crtc => crtc.id == 52))

/-- The effect of `setActive(false)` used in the examples: the call on a
pipeline that is the only one of its GPU, with a kernel that accepts every
commit.  The commit leaves 0 as the current `CrtcId` of the connector and of
the plane. -/
def switchOff (pipeline : DrmPipeline) : DrmPipeline :=
  match DrmPipeline.setActive exampleMembers acceptingIoctls atomicCaps onlyThis pipeline
      emptyKernel false with
  | some r => r.2.1
  | none => pipeline

/-- The GPU `oneOutputGpu` after `updateOutputs()` saw the second connector;
the candidates are few enough for `std::sort` to be the insertion sort. -/
def afterSecondConnector : Option DrmGpu :=
  (DrmGpu.updateOutputs insertionSort exampleIndex rejectConnector32OnCrtc52 switchOff
    (some secondConnectorPlugged) oneOutputGpu).map (fun r => r.2)

/-- A sequence of blob operations: two bytes are staged (the kernel creates
blob 7) and accepted by a test, then one other byte is staged (blob 8). -/
def stageTwice : List BlobOp :=
  [BlobOp.setPendingBlob (some [1, 2]), BlobOp.commitPending, BlobOp.setPendingBlob (some [4])]

/-- A sequence of calls on a pipeline: a modeset, a frame, and switching the
output off. -/
def modesetFrameOff : List PipelineCall :=
  [PipelineCall.modeset 0, PipelineCall.present (some nextFrame), PipelineCall.setActive false]

/-! ## Theorems -/

namespace Property

/-! ### Field-by-field effect of the three transitions -/

theorem commitPending_pending (p : Property) (k : Kernel) :
    (p.commitPending k).1.pending = p.pending := by
  unfold commitPending; split_ifs <;> rfl

theorem commitPending_pendingBlob (p : Property) (k : Kernel) :
    (p.commitPending k).1.pendingBlob = p.pendingBlob := by
  unfold commitPending; split_ifs <;> rfl

theorem commitPending_current (p : Property) (k : Kernel) :
    (p.commitPending k).1.current = p.current := by
  unfold commitPending; split_ifs <;> rfl

theorem commitPending_currentBlob (p : Property) (k : Kernel) :
    (p.commitPending k).1.currentBlob = p.currentBlob := by
  unfold commitPending; split_ifs <;> rfl

theorem commitPending_immutable (p : Property) (k : Kernel) :
    (p.commitPending k).1.immutable = p.immutable := by
  unfold commitPending; split_ifs <;> rfl

theorem commitPending_next (p : Property) (k : Kernel) (h : p.immutable = false) :
    (p.commitPending k).1.next = p.pending := by
  unfold commitPending; split_ifs with h1 h2 <;> simp_all

theorem commitPending_nextBlob (p : Property) (k : Kernel) (h : p.immutable = false)
    (hne : p.next ≠ p.pending) :
    (p.commitPending k).1.nextBlob = p.pendingBlob := by
  unfold commitPending; split_ifs with h1 h2 <;> simp_all

theorem commitPending_skip (p : Property) (k : Kernel)
    (h : p.immutable = true ∨ p.next = p.pending) : p.commitPending k = (p, k) := by
  unfold commitPending; split_ifs with h1 <;> simp_all

theorem rollbackPending_skip (p : Property) (k : Kernel)
    (h : p.immutable = true ∨ p.next = p.pending) : p.rollbackPending k = (p, k) := by
  unfold rollbackPending; split_ifs with h1 <;> simp_all

theorem rollbackPending_next (p : Property) (k : Kernel) :
    (p.rollbackPending k).1.next = p.next := by
  unfold rollbackPending; split_ifs <;> rfl

theorem rollbackPending_nextBlob (p : Property) (k : Kernel) :
    (p.rollbackPending k).1.nextBlob = p.nextBlob := by
  unfold rollbackPending; split_ifs <;> rfl

theorem rollbackPending_current (p : Property) (k : Kernel) :
    (p.rollbackPending k).1.current = p.current := by
  unfold rollbackPending; split_ifs <;> rfl

theorem rollbackPending_currentBlob (p : Property) (k : Kernel) :
    (p.rollbackPending k).1.currentBlob = p.currentBlob := by
  unfold rollbackPending; split_ifs <;> rfl

theorem rollbackPending_pending (p : Property) (k : Kernel) (h : p.immutable = false) :
    (p.rollbackPending k).1.pending = p.next := by
  unfold rollbackPending; split_ifs with h1 h2 <;> simp_all

theorem rollbackPending_pendingBlob (p : Property) (k : Kernel) (h : p.immutable = false)
    (hne : p.next ≠ p.pending) :
    (p.rollbackPending k).1.pendingBlob = p.nextBlob := by
  unfold rollbackPending; split_ifs with h1 h2 <;> simp_all

end Property

/-! ### The sort and the enumeration of combinations -/

theorem new_primaryPlanes (conn : DrmConnector) (crtc : DrmCrtc) (pl : Option DrmPlane) :
    (DrmPipeline.new conn crtc pl).primaryPlanes = pl.toList := by
  cases pl <;> rfl

theorem newOutputs_nil (comb : List DrmPipeline) :
    newOutputs [] comb = comb.map (fun pipeline => { pipeline := pipeline }) := by
  simp [newOutputs, hasOutputFor]

theorem forEachProp_map {β : Type} (v : Property → β)
    (f : Property → Kernel → Property × Kernel) (hf : ∀ pr k, v (f pr k).1 = v pr)
    (props : List (Option Property)) (k : Kernel) :
    (DrmObject.forEachProp f props k).1.map (Option.map v) = props.map (Option.map v) := by
  induction props generalizing k with
  | nil => rfl
  | cons pr rest ih =>
    cases pr with
    | none => simp [DrmObject.forEachProp, ih]
    | some pr => simp [DrmObject.forEachProp, ih, hf]

theorem commitPending_view {β : Type} (v : Property → β)
    (hf : ∀ pr k, v (Property.commitPending pr k).1 = v pr) (o : DrmObject) (k : Kernel) :
    (o.commitPending k).1.view v = o.view v := by
  simp [DrmObject.commitPending, DrmObject.view, forEachProp_map v _ hf]

theorem map_modify_of_get? {α γ : Type} (g : α → γ) (f : α → α) (l : List α) (i : Nat)
    (h : ∀ a, l.get? i = some a → g (f a) = g a) :
    (l.modify f i).map g = l.map g := by
  induction l generalizing i with
  | nil => simp
  | cons a as ih =>
    cases i with
    | zero => simp [h a (by simp)]
    | succ n =>
      simp only [List.modify_succ_cons, List.map_cons]
      rw [ih n (fun b hb => h b (by simpa using hb))]

theorem applyToObject_view {β : Type} (v : Property → β)
    (F : DrmObject → Kernel → DrmObject × Kernel)
    (hF : ∀ o k, (F o k).1.view v = o.view v) (s : DrmPipeline × Kernel) (r : ObjRef) :
    (DrmPipeline.applyToObject F s r).1.view v = s.1.view v := by
  unfold DrmPipeline.applyToObject
  cases hg : s.1.getObject r with
  | none => rfl
  | some o =>
    cases r with
    | connector i =>
      simp only [DrmPipeline.getObject, Option.map_eq_some'] at hg
      obtain ⟨c, hc, rfl⟩ := hg
      simp only [DrmPipeline.setObject, DrmPipeline.view]
      rw [map_modify_of_get?]
      intro a ha
      rw [hc] at ha; cases ha
      exact hF _ _
    | crtc i =>
      simp only [DrmPipeline.getObject, Option.map_eq_some'] at hg
      obtain ⟨c, hc, rfl⟩ := hg
      simp only [DrmPipeline.setObject, DrmPipeline.view]
      rw [map_modify_of_get?]
      intro a ha
      rw [hc] at ha; cases ha
      exact hF _ _
    | plane i =>
      simp only [DrmPipeline.getObject, Option.map_eq_some'] at hg
      obtain ⟨c, hc, rfl⟩ := hg
      simp only [DrmPipeline.setObject, DrmPipeline.view]
      rw [map_modify_of_get?]
      intro a ha
      rw [hc] at ha; cases ha
      exact hF _ _

theorem foldl_applyToObject_view {β : Type} (v : Property → β)
    (F : DrmObject → Kernel → DrmObject × Kernel)
    (hF : ∀ o k, (F o k).1.view v = o.view v) (refs : List ObjRef) (s : DrmPipeline × Kernel) :
    (refs.foldl (DrmPipeline.applyToObject F) s).1.view v = s.1.view v := by
  induction refs generalizing s with
  | nil => rfl
  | cons r rs ih =>
    simp only [List.foldl_cons]
    rw [ih, applyToObject_view v F hF]

theorem forAllObjects_view {β : Type} (v : Property → β)
    (F : DrmObject → Kernel → DrmObject × Kernel)
    (hF : ∀ o k, (F o k).1.view v = o.view v) (p : DrmPipeline) (k : Kernel) :
    (p.forAllObjects F k).1.view v = p.view v :=
  foldl_applyToObject_view v F hF p.allObjects (p, k)

theorem getProp_map_of_view {β : Type} (v : Property → β) (o o' : DrmObject) (idx : Nat)
    (h : o.view v = o'.view v) : (o.getProp idx).map v = (o'.getProp idx).map v := by
  have h2 : o.props.map (Option.map v) = o'.props.map (Option.map v) := congrArg Prod.snd h
  have h3 := congrArg (fun l => l.get? idx) h2
  simp only [List.get?_eq_getElem?, List.getElem?_map] at h3
  simp only [← List.get?_eq_getElem?] at h3
  unfold DrmObject.getProp
  cases h1 : o.props.get? idx with
  | none =>
    rw [h1] at h3
    cases h1' : o'.props.get? idx with
    | none => rfl
    | some x => rw [h1'] at h3; simp at h3
  | some x =>
    rw [h1] at h3
    cases h1' : o'.props.get? idx with
    | none => rw [h1'] at h3; simp at h3
    | some y =>
      rw [h1'] at h3
      simp only [Option.map_some', Option.some.injEq] at h3
      simpa using h3

theorem get?_map_of_map_eq {α γ : Type} (g : α → γ) (l l' : List α) (i : Nat)
    (h : l.map g = l'.map g) : (l.get? i).map g = (l'.get? i).map g := by
  have := congrArg (fun l => l.get? i) h
  simpa only [List.get?_eq_getElem?, List.getElem?_map] using this

theorem crtcIdMismatch_congr (ix : PropertyIndex) (p q : DrmPipeline) (i : Nat)
    (h : p.view Property.current = q.view Property.current) :
    DrmPipeline.crtcIdMismatch ix p i = DrmPipeline.crtcIdMismatch ix q i := by
  have hc := get?_map_of_map_eq _ _ _ i (congrArg Prod.fst h)
  have hr := get?_map_of_map_eq _ _ _ i (congrArg (fun x => x.2.1) h)
  have hp := get?_map_of_map_eq _ _ _ i (congrArg (fun x => x.2.2) h)
  unfold DrmPipeline.crtcIdMismatch
  cases hc1 : p.connectors.get? i with
  | none =>
    rw [hc1] at hc
    cases hc2 : q.connectors.get? i with
    | none => rfl
    | some c2 => rw [hc2] at hc; simp at hc
  | some c1 =>
    rw [hc1] at hc
    cases hc2 : q.connectors.get? i with
    | none => rw [hc2] at hc; simp at hc
    | some c2 =>
      rw [hc2] at hc
      simp only [Option.map_some', Option.some.injEq] at hc
      have hcp := getProp_map_of_view Property.current _ _ ix.connectorCrtcId hc
      cases hr1 : p.crtcs.get? i with
      | none =>
        rw [hr1] at hr
        cases hr2 : q.crtcs.get? i with
        | none => rfl
        | some r2 => rw [hr2] at hr; simp at hr
      | some r1 =>
        rw [hr1] at hr
        cases hr2 : q.crtcs.get? i with
        | none => rw [hr2] at hr; simp at hr
        | some r2 =>
          rw [hr2] at hr
          simp only [Option.map_some', Option.some.injEq] at hr
          have hid : r1.id = r2.id := congrArg Prod.fst hr
          simp only
          cases hg1 : c1.getProp ix.connectorCrtcId with
          | none =>
            rw [hg1] at hcp
            cases hg2 : c2.getProp ix.connectorCrtcId with
            | none => rfl
            | some x => rw [hg2] at hcp; simp at hcp
          | some x1 =>
            rw [hg1] at hcp
            cases hg2 : c2.getProp ix.connectorCrtcId with
            | none => rw [hg2] at hcp; simp at hcp
            | some x2 =>
              rw [hg2] at hcp
              simp only [Option.map_some', Option.some.injEq] at hcp
              simp only [hcp, hid]
              split_ifs
              · rfl
              · cases hp1 : p.primaryPlanes.get? i with
                | none =>
                  rw [hp1] at hp
                  cases hp2 : q.primaryPlanes.get? i with
                  | none => rfl
                  | some y => rw [hp2] at hp; simp at hp
                | some y1 =>
                  rw [hp1] at hp
                  cases hp2 : q.primaryPlanes.get? i with
                  | none => rw [hp2] at hp; simp at hp
                  | some y2 =>
                    rw [hp2] at hp
                    simp only [Option.map_some', Option.some.injEq] at hp
                    have hpp := getProp_map_of_view Property.current _ _ ix.planeCrtcId hp
                    simp only
                    cases hq1 : y1.getProp ix.planeCrtcId with
                    | none =>
                      rw [hq1] at hpp
                      cases hq2 : y2.getProp ix.planeCrtcId with
                      | none => rfl
                      | some z => rw [hq2] at hpp; simp at hpp
                    | some z1 =>
                      rw [hq1] at hpp
                      cases hq2 : y2.getProp ix.planeCrtcId with
                      | none => rw [hq2] at hpp; simp at hpp
                      | some z2 =>
                        rw [hq2] at hpp
                        simp only [Option.map_some', Option.some.injEq] at hpp
                        simp only [hpp]

theorem isConnectedLoop_congr (ix : PropertyIndex) (p q : DrmPipeline) (l : List Nat)
    (h : p.view Property.current = q.view Property.current) :
    DrmPipeline.isConnectedLoop ix p l = DrmPipeline.isConnectedLoop ix q l := by
  induction l with
  | nil => rfl
  | cons i rest ih =>
    simp only [DrmPipeline.isConnectedLoop, crtcIdMismatch_congr ix p q i h, ih]

theorem isConnected_congr (ix : PropertyIndex) (p q : DrmPipeline)
    (h : p.view Property.current = q.view Property.current) :
    p.isConnected ix = q.isConnected ix := by
  have hc : p.connectors.length = q.connectors.length := by
    simpa [DrmPipeline.view] using congrArg List.length (congrArg Prod.fst h)
  have hp : p.primaryPlanes.length = q.primaryPlanes.length := by
    simpa [DrmPipeline.view] using congrArg List.length (congrArg (fun x => x.2.2) h)
  unfold DrmPipeline.isConnected
  rw [hc, hp, isConnectedLoop_congr ix p q _ h]

theorem crtcIdMismatch_eq_some_false_iff (ix : PropertyIndex) (p : DrmPipeline) (i : Nat) :
    DrmPipeline.crtcIdMismatch ix p i = some false ↔
      ∃ conn crtc plane connProp planeProp,
        p.connectors.get? i = some conn ∧ p.crtcs.get? i = some crtc ∧
        p.primaryPlanes.get? i = some plane ∧
        conn.getProp ix.connectorCrtcId = some connProp ∧
        plane.getProp ix.planeCrtcId = some planeProp ∧
        connProp.current = crtc.id ∧ planeProp.current = crtc.id := by
  unfold DrmPipeline.crtcIdMismatch
  cases hc : p.connectors.get? i with
  | none => simp
  | some conn =>
    cases hr : p.crtcs.get? i with
    | none => simp
    | some crtc =>
      simp only
      cases hcp : conn.getProp ix.connectorCrtcId with
      | none => simp [hcp]
      | some connProp =>
        simp only
        by_cases h1 : connProp.current = crtc.id
        · simp only [h1, bne_self_eq_false, Bool.false_eq_true, if_false]
          cases hp : p.primaryPlanes.get? i with
          | none => simp
          | some plane =>
            simp only
            cases hpp : plane.getProp ix.planeCrtcId with
            | none => simp [hpp]
            | some planeProp =>
              simp [hcp, hpp, h1]
        · have hb : (connProp.current != crtc.id) = true := by simpa using h1
          simp [hb, hcp, h1]

theorem isConnectedLoop_eq_some_true_iff (ix : PropertyIndex) (p : DrmPipeline) (l : List Nat) :
    DrmPipeline.isConnectedLoop ix p l = some true ↔
      ∀ i ∈ l, DrmPipeline.crtcIdMismatch ix p i = some false := by
  induction l with
  | nil => simp [DrmPipeline.isConnectedLoop]
  | cons i rest ih =>
    unfold DrmPipeline.isConnectedLoop
    cases h : DrmPipeline.crtcIdMismatch ix p i with
    | none => simp [h]
    | some b =>
      cases b with
      | true => simp [h]
      | false => simp [h, ih]

theorem isConnected_eq_some_true_iff (ix : PropertyIndex) (p : DrmPipeline)
    (hne : p.connectors ≠ []) :
    p.isConnected ix = some true ↔
      ∀ i, i < p.connectors.length →
        ∃ conn crtc plane connProp planeProp,
          p.connectors.get? i = some conn ∧ p.crtcs.get? i = some crtc ∧
          p.primaryPlanes.get? i = some plane ∧
          conn.getProp ix.connectorCrtcId = some connProp ∧
          plane.getProp ix.planeCrtcId = some planeProp ∧
          connProp.current = crtc.id ∧ planeProp.current = crtc.id := by
  unfold DrmPipeline.isConnected
  by_cases hp : p.primaryPlanes.length = 0
  · have hnil : p.primaryPlanes = [] := List.length_eq_zero.1 hp
    simp only [hp, bne_self_eq_false, Bool.false_eq_true, if_false]
    refine ⟨fun h => (by cases h), fun h => ?_⟩
    exfalso
    have hpos : 0 < p.connectors.length := List.length_pos.2 hne
    obtain ⟨_, _, plane, _, _, _, _, h3, _⟩ := h 0 hpos
    rw [hnil] at h3
    simp at h3
  · have hb : (p.primaryPlanes.length != 0) = true := by simpa using hp
    simp only [hb, if_true, isConnectedLoop_eq_some_true_iff, List.mem_range,
      crtcIdMismatch_eq_some_false_iff]

theorem setPending_view_current (o : DrmObject) (idx value : Nat) :
    (o.setPending idx value).view Property.current = o.view Property.current := by
  unfold DrmObject.setPending DrmObject.view
  simp only [Prod.mk.injEq, true_and]
  apply map_modify_of_get?
  intro a _
  cases a <;> rfl

theorem stageCrtcId_view_current (ix : PropertyIndex) (p : DrmPipeline) (i value : Nat) :
    (p.stageCrtcId ix i value).view Property.current = p.view Property.current := by
  unfold DrmPipeline.stageCrtcId DrmPipeline.view
  simp only [Prod.mk.injEq, true_and]
  constructor
  · apply map_modify_of_get?
    intro a _
    exact setPending_view_current _ _ _
  · apply map_modify_of_get?
    intro a _
    exact setPending_view_current _ _ _

theorem getProp_forEachProp (f : Property → Kernel → Property × Kernel)
    (props : List (Option Property)) (k : Kernel) (idx : Nat) (pr : Property)
    (h : (props.get? idx).join = some pr) :
    ∃ k', ((DrmObject.forEachProp f props k).1.get? idx).join = some (f pr k').1 := by
  induction props generalizing k idx with
  | nil => simp at h
  | cons x rest ih =>
    cases idx with
    | zero =>
      cases x with
      | none => simp at h
      | some y =>
        have h' : y = pr := by simpa [Option.join] using h
        subst h' 
        exact ⟨k, by simp [DrmObject.forEachProp]⟩
    | succ n =>
      simp only [List.get?_cons_succ] at h
      cases x with
      | none =>
        obtain ⟨k', hk'⟩ := ih k n h
        exact ⟨k', by simpa [DrmObject.forEachProp] using hk'⟩
      | some y =>
        obtain ⟨k', hk'⟩ := ih (f y k).2 n h
        exact ⟨k', by simpa [DrmObject.forEachProp] using hk'⟩

theorem getProp_commit (o : DrmObject) (k : Kernel) (idx : Nat) (pr : Property)
    (h : o.getProp idx = some pr) :
    ∃ k', (o.commit k).1.getProp idx = some (pr.commit k').1 :=
  getProp_forEachProp Property.commit o.props k idx pr h

theorem getProp_setPending (o : DrmObject) (idx value : Nat) (pr : Property)
    (h : o.getProp idx = some pr) :
    (o.setPending idx value).getProp idx = some (pr.setPending value) := by
  unfold DrmObject.getProp DrmObject.setPending at *
  simp only [List.get?_eq_getElem?, List.getElem?_modify_eq] at *
  cases hx : o.props[idx]? with
  | none => rw [hx] at h; simp at h
  | some x =>
    rw [hx] at h
    cases x with
    | none => simp at h
    | some y =>
      have h' : y = pr := by simpa [Option.join] using h
      subst h'
      rfl

theorem commit_current_of_scalar (pr : Property) (k : Kernel) (himm : pr.immutable = false)
    (hp : pr.pendingBlob = none) (hc : pr.currentBlob = none) :
    (pr.commit k).1.current = pr.pending := by
  unfold Property.commit
  by_cases h : pr.current = pr.pending
  · simp [h]
  · simp [himm, h, hp, hc, Property.setCurrent]

theorem commit_id (o : DrmObject) (k : Kernel) : (o.commit k).1.id = o.id := rfl

theorem isConnected_after_commit (ix : PropertyIndex) (conn : DrmConnector) (crtc : DrmCrtc)
    (plane : DrmPlane) (connProp planeProp : Property) (k : Kernel)
    (hc : conn.getProp ix.connectorCrtcId = some connProp)
    (hp : plane.getProp ix.planeCrtcId = some planeProp)
    (hci : connProp.immutable = false) (hpi : planeProp.immutable = false)
    (hcb : connProp.pendingBlob = none ∧ connProp.currentBlob = none)
    (hpb : planeProp.pendingBlob = none ∧ planeProp.currentBlob = none) :
    ((connProp.current ≠ crtc.id ∨ planeProp.current ≠ crtc.id) →
      ((DrmPipeline.new conn crtc (some plane)).stageCrtcId ix 0 crtc.id).isConnected ix
        = some false) ∧
    ((((DrmPipeline.new conn crtc (some plane)).stageCrtcId ix 0 crtc.id).forAllObjects
      DrmObject.commit k).1.isConnected ix = some true) := by
  constructor
  · intro hne
    rw [isConnected_congr ix _ _ (stageCrtcId_view_current ix _ 0 crtc.id)]
    have hr : List.range 1 = [0] := rfl
    simp only [DrmPipeline.isConnected, DrmPipeline.new, DrmPipeline.addOutput,
      DrmPipeline.init, List.nil_append, List.length_singleton, hr,
      DrmPipeline.isConnectedLoop, DrmPipeline.crtcIdMismatch, List.get?_cons_zero, hc, hp]
    by_cases h1 : connProp.current = crtc.id
    · have h2 : (planeProp.current != crtc.id) = true := by
        rcases hne with h | h
        · exact absurd h1 h
        · simpa using h
      simp [h1, h2]
    · simp [h1]
  · have hc' := getProp_setPending conn.toDrmObject ix.connectorCrtcId crtc.id connProp hc
    have hp' := getProp_setPending plane.toDrmObject ix.planeCrtcId crtc.id planeProp hp
    obtain ⟨k1, hk1⟩ := getProp_commit _ k _ _ hc'
    obtain ⟨k2, hk2⟩ := getProp_commit _
      ((crtc.toDrmObject.commit ((conn.toDrmObject.setPending ix.connectorCrtcId crtc.id).commit
        k).2).2) _ _ hp'
    have e1 : ((connProp.setPending crtc.id).commit k1).1.current = crtc.id :=
      commit_current_of_scalar _ _ hci hcb.1 hcb.2
    have e2 : ((planeProp.setPending crtc.id).commit k2).1.current = crtc.id :=
      commit_current_of_scalar _ _ hpi hpb.1 hpb.2
    rw [isConnected_eq_some_true_iff]
    · intro i hi
      simp only [DrmPipeline.forAllObjects, DrmPipeline.new, DrmPipeline.addOutput,
        DrmPipeline.init, DrmPipeline.stageCrtcId, List.nil_append, List.length_nil,
        List.singleton_append, List.cons_append, List.foldl_cons, List.foldl_nil,
        DrmPipeline.applyToObject,
        DrmPipeline.getObject, DrmPipeline.setObject, List.modify_zero_cons,
        List.get?_cons_zero, Option.map_some', List.length_singleton, Nat.lt_one_iff] at hi ⊢
      subst hi
      refine ⟨_, _, _, _, _, rfl, rfl, rfl, hk1, hk2, ?_, ?_⟩
      · rw [e1]; rfl
      · rw [e2]; rfl
    · simp [DrmPipeline.forAllObjects, DrmPipeline.new, DrmPipeline.addOutput,
        DrmPipeline.init, DrmPipeline.stageCrtcId, DrmPipeline.applyToObject,
        DrmPipeline.getObject, DrmPipeline.setObject, List.cons_append]

theorem setObject_allObjects (p : DrmPipeline) (r : ObjRef) (o : DrmObject) :
    (p.setObject r o).allObjects = p.allObjects := by
  cases r <;> rfl

theorem applyToObject_allObjects (F : DrmObject → Kernel → DrmObject × Kernel)
    (s : DrmPipeline × Kernel) (r : ObjRef) :
    (DrmPipeline.applyToObject F s r).1.allObjects = s.1.allObjects := by
  unfold DrmPipeline.applyToObject
  cases s.1.getObject r with
  | none => rfl
  | some o => exact setObject_allObjects _ _ _

theorem foldl_applyToObject_allObjects (F : DrmObject → Kernel → DrmObject × Kernel)
    (refs : List ObjRef) (s : DrmPipeline × Kernel) :
    (refs.foldl (DrmPipeline.applyToObject F) s).1.allObjects = s.1.allObjects := by
  induction refs generalizing s with
  | nil => rfl
  | cons r rs ih => simp only [List.foldl_cons]; rw [ih, applyToObject_allObjects]

theorem forAllObjects_allObjects (F : DrmObject → Kernel → DrmObject × Kernel)
    (p : DrmPipeline) (k : Kernel) : (p.forAllObjects F k).1.allObjects = p.allObjects :=
  foldl_applyToObject_allObjects F p.allObjects (p, k)

theorem needsCommit_eq_of_view (o o' : DrmObject)
    (h : o.view (fun pr => (pr.pending, pr.current)) =
      o'.view (fun pr => (pr.pending, pr.current))) :
    o.needsCommit = o'.needsCommit := by
  have key : ∀ x : DrmObject, x.needsCommit =
      (x.view (fun pr => (pr.pending, pr.current))).2.any (fun e =>
        match e with
        | some e => e.1 != e.2
        | none => false) := by
    intro x
    unfold DrmObject.needsCommit DrmObject.view
    simp only
    induction x.props with
    | nil => rfl
    | cons e es ih =>
      simp only [List.any_cons, List.map_cons, ih]
      cases e <;> rfl
  rw [key, key, h]

theorem getObject_view_of_view {β : Type} (v : Property → β) (p q : DrmPipeline)
    (h : p.view v = q.view v) (r : ObjRef) :
    (p.getObject r).map (DrmObject.view v) = (q.getObject r).map (DrmObject.view v) := by
  cases r with
  | connector i =>
    have := get?_map_of_map_eq _ _ _ i (congrArg Prod.fst h)
    simpa [DrmPipeline.getObject, Function.comp_def] using this
  | crtc i =>
    have := get?_map_of_map_eq _ _ _ i (congrArg (fun x => x.2.1) h)
    simpa [DrmPipeline.getObject, Function.comp_def] using this
  | plane i =>
    have := get?_map_of_map_eq _ _ _ i (congrArg (fun x => x.2.2) h)
    simpa [DrmPipeline.getObject, Function.comp_def] using this

theorem objects_needsCommit_of_view (p q : DrmPipeline)
    (hv : p.view (fun pr => (pr.pending, pr.current)) =
      q.view (fun pr => (pr.pending, pr.current)))
    (ha : p.allObjects = q.allObjects) :
    p.objects.map DrmObject.needsCommit = q.objects.map DrmObject.needsCommit := by
  unfold DrmPipeline.objects
  rw [ha]
  induction q.allObjects with
  | nil => rfl
  | cons r rs ih =>
    have hr := getObject_view_of_view _ p q hv r
    cases hp : p.getObject r with
    | none =>
      rw [hp] at hr
      cases hq : q.getObject r with
      | none => simp [List.filterMap_cons, hp, hq, ih]
      | some y => rw [hq] at hr; simp at hr
    | some x =>
      rw [hp] at hr
      cases hq : q.getObject r with
      | none => rw [hq] at hr; simp at hr
      | some y =>
        rw [hq] at hr
        simp only [Option.map_some', Option.some.injEq] at hr
        simp [List.filterMap_cons, hp, hq, ih, needsCommit_eq_of_view x y hr]

theorem commitPending_pending_current (pr : Property) (k : Kernel) :
    ((pr.commitPending k).1.pending, (pr.commitPending k).1.current) =
      (pr.pending, pr.current) := by
  rw [Property.commitPending_pending, Property.commitPending_current]

theorem forEachProp_commitPending_next (props : List (Option Property)) (k : Kernel)
    (pr : Property) (hm : some pr ∈ (DrmObject.forEachProp Property.commitPending props k).1)
    (himm : pr.immutable = false) : pr.next = pr.pending := by
  induction props generalizing k with
  | nil => simp [DrmObject.forEachProp] at hm
  | cons x rest ih =>
    cases x with
    | none =>
      simp only [DrmObject.forEachProp, List.mem_cons, reduceCtorEq, false_or] at hm
      exact ih k hm
    | some y =>
      simp only [DrmObject.forEachProp, List.mem_cons, Option.some.injEq] at hm
      rcases hm with rfl | hm
      · have hi : y.immutable = false := by
          rw [← Property.commitPending_immutable y k]; exact himm
        rw [Property.commitPending_next y k hi, Property.commitPending_pending]
      · exact ih _ hm

theorem getObject_setObject (p : DrmPipeline) (r r2 : ObjRef) (o0 o' : DrmObject)
    (h : p.getObject r = some o0) :
    (p.setObject r o').getObject r2 = if r2 = r then some o' else p.getObject r2 := by
  cases r with
  | connector i =>
    simp only [DrmPipeline.getObject, Option.map_eq_some'] at h
    obtain ⟨c, hc, -⟩ := h
    cases r2 with
    | connector j =>
      simp only [DrmPipeline.getObject, DrmPipeline.setObject, List.get?_eq_getElem?,
        List.getElem?_modify, ObjRef.connector.injEq]
      rw [List.get?_eq_getElem?] at hc
      by_cases hij : j = i
      · subst hij; simp [hc]
      · have : ¬ i = j := fun e => hij e.symm
        cases p.connectors[j]? <;> simp [hij, this]
    | crtc j => simp [DrmPipeline.getObject, DrmPipeline.setObject]
    | plane j => simp [DrmPipeline.getObject, DrmPipeline.setObject]
  | crtc i =>
    simp only [DrmPipeline.getObject, Option.map_eq_some'] at h
    obtain ⟨c, hc, -⟩ := h
    cases r2 with
    | crtc j =>
      simp only [DrmPipeline.getObject, DrmPipeline.setObject, List.get?_eq_getElem?,
        List.getElem?_modify, ObjRef.crtc.injEq]
      rw [List.get?_eq_getElem?] at hc
      by_cases hij : j = i
      · subst hij; simp [hc]
      · have : ¬ i = j := fun e => hij e.symm
        cases p.crtcs[j]? <;> simp [hij, this]
    | connector j => simp [DrmPipeline.getObject, DrmPipeline.setObject]
    | plane j => simp [DrmPipeline.getObject, DrmPipeline.setObject]
  | plane i =>
    simp only [DrmPipeline.getObject, Option.map_eq_some'] at h
    obtain ⟨c, hc, -⟩ := h
    cases r2 with
    | plane j =>
      simp only [DrmPipeline.getObject, DrmPipeline.setObject, List.get?_eq_getElem?,
        List.getElem?_modify, ObjRef.plane.injEq]
      rw [List.get?_eq_getElem?] at hc
      by_cases hij : j = i
      · subst hij; simp [hc]
      · have : ¬ i = j := fun e => hij e.symm
        cases p.primaryPlanes[j]? <;> simp [hij, this]
    | connector j => simp [DrmPipeline.getObject, DrmPipeline.setObject]
    | crtc j => simp [DrmPipeline.getObject, DrmPipeline.setObject]

theorem foldl_commitPending_next (refs done : List ObjRef) (s : DrmPipeline × Kernel)
    (hdone : ∀ r ∈ done, ∀ o, s.1.getObject r = some o →
      ∀ pr, some pr ∈ o.props → pr.immutable = false → pr.next = pr.pending) :
    ∀ r ∈ done ++ refs, ∀ o,
      (refs.foldl (DrmPipeline.applyToObject DrmObject.commitPending) s).1.getObject r = some o →
      ∀ pr, some pr ∈ o.props → pr.immutable = false → pr.next = pr.pending := by
  induction refs generalizing done s with
  | nil => simpa using hdone
  | cons r0 rs ih =>
    intro r hr
    have hr' : r ∈ (done ++ [r0]) ++ rs := by simpa using hr
    simp only [List.foldl_cons]
    refine ih (done ++ [r0]) _ ?_ r hr'
    intro r2 hr2 o ho pr hpr himm
    unfold DrmPipeline.applyToObject at ho
    cases hg : s.1.getObject r0 with
    | none =>
      rw [hg] at ho
      simp only [List.mem_append, List.mem_singleton] at hr2
      rcases hr2 with h | rfl
      · exact hdone r2 h o ho pr hpr himm
      · rw [hg] at ho; cases ho
    | some o0 =>
      rw [hg] at ho
      simp only at ho
      rw [getObject_setObject _ _ _ o0 _ hg] at ho
      split_ifs at ho with he
      · cases ho
        exact forEachProp_commitPending_next _ _ pr hpr himm
      · simp only [List.mem_append, List.mem_singleton] at hr2
        rcases hr2 with h | h
        · exact hdone r2 h o ho pr hpr himm
        · exact absurd h he

/-! ### Blob creation in `setPendingBlob` -/

theorem setPendingBlob_of_same (p : Property) (blob : Option (List Nat)) (k : Kernel)
    (h : (blob = none ∧ p.pendingBlob = none) ∨
      (∃ bytes pb, blob = some bytes ∧ p.pendingBlob = some pb ∧
        bytes.length = pb.length ∧ bytes = pb.data)) :
    p.setPendingBlob blob k = (true, p, k) := by
  unfold Property.setPendingBlob
  rcases h with ⟨h1, h2⟩ | ⟨bytes, pb, h1, h2, h3, h4⟩
  · simp [h1, h2]
  · subst h1
    have hs : p.sameAsPendingBlob (some bytes) = true := by
      simp [Property.sameAsPendingBlob, h2, ← h4, Blob.length]
    simp [h2, hs]

theorem createdBlobs_destroy (k : Kernel) (id : Nat) :
    createdBlobs (drmModeDestroyPropertyBlob k id) = createdBlobs k := by
  simp [createdBlobs, drmModeDestroyPropertyBlob, List.countP_append]

theorem createdBlobs_get (k : Kernel) (id : Nat) :
    createdBlobs (drmModeGetPropertyBlob k id).2 = createdBlobs k := by
  simp [createdBlobs, drmModeGetPropertyBlob, List.countP_append]

theorem createdBlobs_withReject (k : Kernel) (r : Bool) :
    createdBlobs { k with rejectBlobCreate := r } = createdBlobs k := rfl

theorem createdBlobs_storePendingBlob (p : Property) (id : Nat) (k : Kernel) :
    createdBlobs (p.storePendingBlob id k).2.2 = createdBlobs k := by
  unfold Property.storePendingBlob
  simp only [createdBlobs_get]
  split_ifs
  · exact createdBlobs_destroy _ _
  · rfl

theorem createdBlobs_create_le (k : Kernel) (data : List Nat) :
    createdBlobs (drmModeCreatePropertyBlob k data).2 ≤ createdBlobs k + 1 := by
  unfold drmModeCreatePropertyBlob
  split_ifs <;> simp [createdBlobs, List.countP_append]

theorem createdBlobs_setPendingBlob_le (p : Property) (blob : Option (List Nat)) (k : Kernel) :
    createdBlobs (p.setPendingBlob blob k).2.2 ≤ createdBlobs k + 1 := by
  unfold Property.setPendingBlob
  split_ifs
  · exact Nat.le_succ _
  · exact Nat.le_succ _
  · cases blob with
    | none => simp only [createdBlobs_storePendingBlob]; omega
    | some bytes =>
      simp only
      have hle := createdBlobs_create_le k bytes
      cases hc : drmModeCreatePropertyBlob k bytes with
      | mk r k1 =>
        rw [hc] at hle
        cases r with
        | none => exact hle
        | some id => simp only [createdBlobs_storePendingBlob]; exact hle

theorem find_fresh_after_create (blobs : List Blob) (fresh : Nat) (bytes : List Nat)
    (h : ∀ b ∈ blobs, b.id ≠ fresh) :
    (blobs ++ [({ id := fresh, data := bytes } : Blob)]).find? (fun b => b.id == fresh)
      = some { id := fresh, data := bytes } := by
  induction blobs with
  | nil => simp
  | cons b bs ih =>
    have hb : b.id ≠ fresh := h b (List.mem_cons_self _ _)
    have hb' : (b.id == fresh) = false := by simpa using hb
    simp only [List.cons_append, List.find?_cons, hb']
    exact ih (fun x hx => h x (List.mem_cons_of_mem _ hx))

theorem find_fresh_after_destroy (blobs : List Blob) (fresh old : Nat) (bytes : List Nat)
    (h : ∀ b ∈ blobs, b.id ≠ fresh) (hold : old ≠ fresh) :
    ((blobs ++ [({ id := fresh, data := bytes } : Blob)]).filter (fun b => b.id != old)).find?
      (fun b => b.id == fresh) = some { id := fresh, data := bytes } := by
  induction blobs with
  | nil =>
    have : (fresh != old) = true := by simpa using Ne.symm hold
    simp [List.filter_cons, this]
  | cons b bs ih =>
    have hb : b.id ≠ fresh := h b (List.mem_cons_self _ _)
    have hb' : (b.id == fresh) = false := by simpa using hb
    simp only [List.cons_append, List.filter_cons]
    split_ifs
    · simp only [List.find?_cons, hb']
      exact ih (fun x hx => h x (List.mem_cons_of_mem _ hx))
    · exact ih (fun x hx => h x (List.mem_cons_of_mem _ hx))

theorem setPendingBlob_created_then_same (p : Property) (bytes : List Nat) (k : Kernel)
    (hfresh : ∀ b ∈ k.blobs, b.id ≠ k.freshBlobId) (hp : p.pending ≠ k.freshBlobId)
    (hrej : k.rejectBlobCreate = false)
    (hdiff : p.sameAsPendingBlob (some bytes) = false) :
    (p.setPendingBlob (some bytes) k).1 = true ∧
    (p.setPendingBlob (some bytes) k).2.1.pendingBlob
      = some { id := k.freshBlobId, data := bytes } ∧
    createdBlobs (p.setPendingBlob (some bytes) k).2.2 = createdBlobs k + 1 := by
  unfold Property.setPendingBlob
  simp only [Option.isNone_some, Bool.false_and, Bool.false_eq_true, if_false, hdiff]
  unfold drmModeCreatePropertyBlob
  simp only [hrej, Bool.false_eq_true, if_false]
  refine ⟨rfl, ?_, ?_⟩
  · unfold Property.storePendingBlob drmModeGetPropertyBlob
    simp only
    split_ifs
    · simp only [drmModeDestroyPropertyBlob]
      exact find_fresh_after_destroy k.blobs k.freshBlobId p.pending bytes hfresh hp
    · exact find_fresh_after_create k.blobs k.freshBlobId bytes hfresh
  · rw [createdBlobs_storePendingBlob]
    simp [createdBlobs, List.countP_append]

theorem sameAsPendingBlob_of_pendingBlob (p : Property) (bytes : List Nat) (id : Nat)
    (h : p.pendingBlob = some { id := id, data := bytes }) :
    p.sameAsPendingBlob (some bytes) = true := by
  simp [Property.sameAsPendingBlob, h, Blob.length]

theorem setPendingBlob_noop_of_sameAs (p : Property) (bytes : List Nat) (k : Kernel)
    (h : p.sameAsPendingBlob (some bytes) = true) :
    p.setPendingBlob (some bytes) k = (true, p, k) := by
  unfold Property.setPendingBlob
  simp [h]

theorem createdBlobs_setPendingBlob_none (p : Property) (k : Kernel) :
    createdBlobs (p.setPendingBlob none k).2.2 = createdBlobs k := by
  unfold Property.setPendingBlob
  split_ifs
  · rfl
  · rfl
  · exact createdBlobs_storePendingBlob _ _ _

theorem setPendingBlob_twice_creates_at_most_one (p : Property) (blob : Option (List Nat))
    (k : Kernel) (r : Bool)
    (hfresh : ∀ b ∈ k.blobs, b.id ≠ k.freshBlobId) (hp : p.pending ≠ k.freshBlobId) :
    createdBlobs ((p.setPendingBlob blob k).2.1.setPendingBlob blob
      { (p.setPendingBlob blob k).2.2 with rejectBlobCreate := r }).2.2
      ≤ createdBlobs k + 1 := by
  cases blob with
  | none =>
    rw [createdBlobs_setPendingBlob_none, createdBlobs_withReject,
      createdBlobs_setPendingBlob_none]
    exact Nat.le_succ _
  | some bytes =>
    by_cases hs : p.sameAsPendingBlob (some bytes) = true
    · rw [setPendingBlob_noop_of_sameAs p bytes k hs]
      simp only
      rw [setPendingBlob_noop_of_sameAs p bytes _ hs]
      exact Nat.le_succ _
    · have hs' : p.sameAsPendingBlob (some bytes) = false := by simpa using hs
      by_cases hrej : k.rejectBlobCreate = true
      · have h1 : p.setPendingBlob (some bytes) k =
            (false, p, (drmModeCreatePropertyBlob k bytes).2) := by
          unfold Property.setPendingBlob
          simp only [Option.isNone_some, Bool.false_and, Bool.false_eq_true, if_false, hs']
          unfold drmModeCreatePropertyBlob
          simp [hrej]
        rw [h1]
        simp only
        refine (createdBlobs_setPendingBlob_le _ _ _).trans ?_
        rw [createdBlobs_withReject]
        unfold drmModeCreatePropertyBlob
        simp [hrej, createdBlobs, List.countP_append]
      · have hrej' : k.rejectBlobCreate = false := by simpa using hrej
        obtain ⟨-, hb, hc⟩ := setPendingBlob_created_then_same p bytes k hfresh hp hrej' hs'
        rw [setPendingBlob_noop_of_sameAs _ bytes _
          (sameAsPendingBlob_of_pendingBlob _ bytes _ hb)]
        simp only
        rw [createdBlobs_withReject, hc]

/-! ### The cursor -/

namespace DrmPipeline

/-- A `setCursor(buffer)` that returned true leaves a state in which the same
call returns true at once: nothing changes and no kernel call is made. -/
theorem setCursor_repeated_is_noop (m : Members) (io : Ioctls) (p : DrmPipeline)
    (buffer : Option DrmBuffer) (k : Kernel) (h : (setCursor m io p buffer k).1 = true) :
    setCursor m io (setCursor m io p buffer k).2.1 buffer (setCursor m io p buffer k).2.2
      = (true, (setCursor m io p buffer k).2.1, (setCursor m io p buffer k).2.2) := by
  by_cases hc : (!p.cursor.dirty && p.cursor.buffer == buffer) = true
  · have h1 : setCursor m io p buffer k = (true, p, k) := by simp [setCursor, hc]
    rw [h1]
    exact h1
  · cases buffer with
    | none =>
      cases hl : (setCursorLoop io 0 (64, 64) p.crtcs k).1
      · simp [setCursor, hc, hl] at h
      · simp [setCursor, hc, hl]
    | some b =>
      cases hl : (setCursorLoop io (m.handle b) b.size p.crtcs k).1
      · simp [setCursor, hc, hl] at h
      · simp [setCursor, hc, hl]

end DrmPipeline

/-! ### The legacy `test` -/

namespace DrmPipeline

/-- A legacy `modeset` that returned true cleared `m_legacyNeedsModeset`. -/
theorem modesetLegacy_clears_flag (m : Members) (io : Ioctls) (p p1 : DrmPipeline)
    (k k1 : Kernel) (wantedMode : Int)
    (h : modesetLegacy m io p k wantedMode = some (true, p1, k1)) :
    p1.legacyNeedsModeset = false := by
  unfold modesetLegacy at h
  cases hc : p.connectors with
  | nil => rw [hc] at h; cases h
  | cons conn others =>
    rw [hc] at h
    dsimp only at h
    cases ht : checkTestBuffer m.toDecls
        { p with connectors := m.setModeIndex conn wantedMode :: others } with
    | none => rw [ht] at h; cases h
    | some r =>
      obtain ⟨ok, p2⟩ := r
      rw [ht] at h
      cases ok with
      | false => simp at h
      | true =>
        dsimp only at h
        cases hcr : p2.crtcs.head? with
        | none => rw [hcr] at h; cases h
        | some crtc =>
          cases hb : p2.primaryBuffer with
          | none => rw [hcr, hb] at h; cases h
          | some buffer =>
            rw [hcr, hb] at h
            dsimp only at h
            split at h
            · simp only [Option.some.injEq, Prod.mk.injEq, true_and] at h
              rw [← h.1]
            · simp at h

end DrmPipeline

/-! ### The trace only grows -/

theorem calls_prefix_destroy (k : Kernel) (id : Nat) :
    k.calls <+: (drmModeDestroyPropertyBlob k id).calls :=
  List.prefix_append _ _

theorem calls_prefix_get (k : Kernel) (id : Nat) :
    k.calls <+: (drmModeGetPropertyBlob k id).2.calls :=
  List.prefix_append _ _

theorem calls_prefix_create (k : Kernel) (data : List Nat) :
    k.calls <+: (drmModeCreatePropertyBlob k data).2.calls := by
  unfold drmModeCreatePropertyBlob
  split <;> exact List.prefix_append _ _

theorem calls_prefix_atomicCommit (drv : Driver) (k : Kernel) (req : List AtomicProperty)
    (flags : Nat) : k.calls <+: (drmModeAtomicCommit drv k req flags).2.calls :=
  List.prefix_append _ _

theorem calls_prefix_storePendingBlob (p : Property) (id : Nat) (k : Kernel) :
    k.calls <+: (p.storePendingBlob id k).2.2.calls := by
  unfold Property.storePendingBlob
  dsimp only
  split
  · exact (calls_prefix_destroy k _).trans (calls_prefix_get _ _)
  · exact calls_prefix_get _ _

theorem calls_prefix_setPendingBlob (p : Property) (blob : Option (List Nat)) (k : Kernel) :
    k.calls <+: (p.setPendingBlob blob k).2.2.calls := by
  unfold Property.setPendingBlob
  split
  · exact List.prefix_refl _
  · split
    · exact List.prefix_refl _
    · cases blob with
      | none => exact calls_prefix_storePendingBlob p 0 k
      | some bytes =>
        dsimp only
        have hc := calls_prefix_create k bytes
        cases hcr : drmModeCreatePropertyBlob k bytes with
        | mk id k1 =>
          rw [hcr] at hc
          cases id with
          | none => exact hc
          | some id => exact hc.trans (calls_prefix_storePendingBlob p id k1)

theorem calls_prefix_setCurrentBlob (p : Property) (blob : Option Blob) (k : Kernel) :
    k.calls <+: (p.setCurrentBlob blob k).2.calls := by
  unfold Property.setCurrentBlob
  split
  · exact List.prefix_refl _
  · dsimp only
    split
    · exact calls_prefix_destroy k _
    · exact List.prefix_refl _

theorem calls_prefix_commit (p : Property) (k : Kernel) : k.calls <+: (p.commit k).2.calls := by
  unfold Property.commit
  split
  · exact List.prefix_refl _
  · split
    · exact calls_prefix_setCurrentBlob p _ k
    · exact List.prefix_refl _

theorem calls_prefix_commitPending (p : Property) (k : Kernel) :
    k.calls <+: (p.commitPending k).2.calls := by
  unfold Property.commitPending
  split
  · exact List.prefix_refl _
  · split
    · dsimp only
      split
      · exact calls_prefix_destroy k _
      · exact List.prefix_refl _
    · exact List.prefix_refl _

theorem calls_prefix_rollbackPending (p : Property) (k : Kernel) :
    k.calls <+: (p.rollbackPending k).2.calls := by
  unfold Property.rollbackPending
  split
  · exact List.prefix_refl _
  · split
    · dsimp only
      split
      · exact calls_prefix_destroy k _
      · exact List.prefix_refl _
    · exact List.prefix_refl _

theorem calls_prefix_forEachProp (f : Property → Kernel → Property × Kernel)
    (hf : ∀ p k, k.calls <+: (f p k).2.calls) (props : List (Option Property)) (k : Kernel) :
    k.calls <+: (DrmObject.forEachProp f props k).2.calls := by
  induction props generalizing k with
  | nil => exact List.prefix_refl _
  | cons a rest ih =>
    cases a with
    | none => exact ih k
    | some p => exact (hf p k).trans (ih _)

theorem calls_prefix_applyToObject (f : DrmObject → Kernel → DrmObject × Kernel)
    (hf : ∀ o k, k.calls <+: (f o k).2.calls) (s : DrmPipeline × Kernel) (r : ObjRef) :
    s.2.calls <+: (DrmPipeline.applyToObject f s r).2.calls := by
  unfold DrmPipeline.applyToObject
  split
  · exact hf _ _
  · exact List.prefix_refl _

theorem calls_prefix_foldl_applyToObject (f : DrmObject → Kernel → DrmObject × Kernel)
    (hf : ∀ o k, k.calls <+: (f o k).2.calls) (refs : List ObjRef) (s : DrmPipeline × Kernel) :
    s.2.calls <+: (refs.foldl (DrmPipeline.applyToObject f) s).2.calls := by
  induction refs generalizing s with
  | nil => exact List.prefix_refl _
  | cons r rest ih => exact (calls_prefix_applyToObject f hf s r).trans (ih _)

theorem calls_prefix_forAllObjects (f : DrmObject → Kernel → DrmObject × Kernel)
    (hf : ∀ o k, k.calls <+: (f o k).2.calls) (p : DrmPipeline) (k : Kernel) :
    k.calls <+: (DrmPipeline.forAllObjects f p k).2.calls :=
  calls_prefix_foldl_applyToObject f hf p.allObjects (p, k)

theorem calls_prefix_object_commit (o : DrmObject) (k : Kernel) :
    k.calls <+: (o.commit k).2.calls :=
  calls_prefix_forEachProp _ calls_prefix_commit o.props k

theorem calls_prefix_object_commitPending (o : DrmObject) (k : Kernel) :
    k.calls <+: (o.commitPending k).2.calls :=
  calls_prefix_forEachProp _ calls_prefix_commitPending o.props k

theorem calls_prefix_object_rollbackPending (o : DrmObject) (k : Kernel) :
    k.calls <+: (o.rollbackPending k).2.calls :=
  calls_prefix_forEachProp _ calls_prefix_rollbackPending o.props k

theorem calls_prefix_object_setPendingBlob (o : DrmObject) (index : Nat)
    (blob : Option (List Nat)) (k : Kernel) :
    k.calls <+: (o.setPendingBlob index blob k).2.2.calls := by
  unfold DrmObject.setPendingBlob
  split
  · exact calls_prefix_setPendingBlob _ blob k
  · exact List.prefix_refl _

theorem calls_prefix_rollbackAll (p : DrmPipeline) (k : Kernel) :
    k.calls <+: (DrmPipeline.rollbackAll p k).2.calls :=
  calls_prefix_forAllObjects _ calls_prefix_object_rollbackPending _ k

theorem calls_prefix_doAtomicCommit (m : Members) (io : Ioctls) (caps : GpuCaps)
    (p : DrmPipeline) (k : Kernel) (req : List AtomicProperty) (flags : Nat) (testOnly : Bool)
    (r : Bool × DrmPipeline × Kernel)
    (h : DrmPipeline.doAtomicCommit m io caps p k req flags testOnly = some r) :
    k.calls <+: r.2.2.calls := by
  unfold DrmPipeline.doAtomicCommit at h
  split at h
  · cases h
  · rename_i populated p1 req1 flags1 _
    dsimp only at h
    have ht : k.calls <+: (if populated = true then
        drmModeAtomicCommit io.toDriver k req1
          ((flags1 &&& 0xFFFFFFFE) ||| DRM_MODE_ATOMIC_TEST_ONLY)
        else (false, k)).2.calls := by
      split
      · exact calls_prefix_atomicCommit _ _ _ _
      · exact List.prefix_refl _
    generalize (if populated = true then
        drmModeAtomicCommit io.toDriver k req1
          ((flags1 &&& 0xFFFFFFFE) ||| DRM_MODE_ATOMIC_TEST_ONLY)
        else (false, k)) = tested at h ht
    have hc : k.calls <+: (if (!testOnly && tested.1) = true then
        drmModeAtomicCommit io.toDriver tested.2 req1 flags1 else tested).2.calls := by
      split
      · exact ht.trans (calls_prefix_atomicCommit _ _ _ _)
      · exact ht
    generalize (if (!testOnly && tested.1) = true then
        drmModeAtomicCommit io.toDriver tested.2 req1 flags1 else tested) = committed at h hc
    split at h
    · split at h
      · cases h
        exact (hc.trans (calls_prefix_forAllObjects _ calls_prefix_object_commitPending _ _)).trans
          (calls_prefix_forAllObjects _ calls_prefix_object_commit _ _)
      · cases h
        exact hc.trans (calls_prefix_forAllObjects _ calls_prefix_object_commitPending _ _)
    · cases h
      exact hc.trans (calls_prefix_rollbackAll _ _)

theorem calls_prefix_atomicCommit_pipeline (m : Members) (io : Ioctls) (caps : GpuCaps)
    (p : DrmPipeline) (k : Kernel) (r : Bool × DrmPipeline × Kernel)
    (h : DrmPipeline.atomicCommit m io caps p k = some r) : k.calls <+: r.2.2.calls := by
  unfold DrmPipeline.atomicCommit at h
  split at h
  · cases h
    exact List.prefix_refl _
  · exact calls_prefix_doAtomicCommit m io caps p k [] 0 false r h

theorem calls_prefix_drmModeSetCursor (io : Ioctls) (k : Kernel) (crtcId handle : Nat)
    (width height : Int) : k.calls <+: (drmModeSetCursor io k crtcId handle width height).2.calls :=
  List.prefix_append _ _

theorem calls_prefix_setCursorLoop (io : Ioctls) (handle : Nat) (size : Int × Int)
    (crtcs : List DrmCrtc) (k : Kernel) :
    k.calls <+: (DrmPipeline.setCursorLoop io handle size crtcs k).2.calls := by
  induction crtcs generalizing k with
  | nil => exact List.prefix_refl _
  | cons crtc rest ih =>
    unfold DrmPipeline.setCursorLoop
    split
    · exact (calls_prefix_drmModeSetCursor io k crtc.id handle size.1 size.2).trans (ih _)
    · exact calls_prefix_drmModeSetCursor io k crtc.id handle size.1 size.2

theorem calls_prefix_setCursor (m : Members) (io : Ioctls) (p : DrmPipeline)
    (buffer : Option DrmBuffer) (k : Kernel) :
    k.calls <+: (DrmPipeline.setCursor m io p buffer k).2.2.calls := by
  unfold DrmPipeline.setCursor
  split
  · exact List.prefix_refl _
  · dsimp only
    split <;> exact calls_prefix_setCursorLoop _ _ _ _ _

theorem calls_prefix_stageActive (m : Members) (active : Bool) (l : List Nat) (p p1 : DrmPipeline)
    (k k1 : Kernel) (h : DrmPipeline.stageActive m active l p k = some (p1, k1)) :
    k.calls <+: k1.calls := by
  induction l generalizing p k with
  | nil =>
    simp only [DrmPipeline.stageActive, Option.some.injEq, Prod.mk.injEq] at h
    rw [← h.2]
  | cons i rest ih =>
    unfold DrmPipeline.stageActive at h
    split at h
    · exact (calls_prefix_object_setPendingBlob _ _ _ _).trans (ih _ _ h)
    · cases h

theorem calls_clearCursors (io : Ioctls) (crtcs : List DrmCrtc) (k : Kernel) :
    (DrmPipeline.clearCursors io crtcs k).calls
      = k.calls ++ crtcs.map (fun crtc =>
          KernelCall.setCursor crtc.id 0 0 0 (io.setCursor crtc.id 0 0 0)) := by
  induction crtcs generalizing k with
  | nil => simp [DrmPipeline.clearCursors]
  | cons crtc rest ih =>
    rw [DrmPipeline.clearCursors, ih]
    simp [drmModeSetCursor]

/-! ### `setActive(false)` -/

theorem calls_prefix_applyActive_false (m : Members) (io : Ioctls) (caps : GpuCaps)
    (b : Batch) (p : DrmPipeline) (k : Kernel) (r : Bool × DrmPipeline × Batch × Kernel)
    (h : DrmPipeline.applyActive m io caps b p k false = some r) : k.calls <+: r.2.2.2.calls := by
  unfold DrmPipeline.applyActive at h
  split at h
  · split at h
    · cases h
    · rename_i p1 k1 hs
      simp only [Bool.false_eq_true, if_false] at h
      cases hc : DrmPipeline.atomicCommit m io caps p1 k1 with
      | none => rw [hc] at h; cases h
      | some c =>
        rw [hc] at h
        obtain ⟨c1, c2, c3⟩ := c
        cases h
        exact (calls_prefix_stageActive m false _ _ p1 k k1 hs).trans
          (calls_prefix_atomicCommit_pipeline m io caps p1 k1 _ hc)
  · split at h
    · cases h
    · split at h
      · cases h
        exact List.prefix_refl _
      · cases h
        exact List.prefix_append _ _

theorem setPlaneValues_isSome (d : Decls) (l : List Nat) (p : DrmPipeline)
    (hl : ∀ i ∈ l, i < p.connectors.length ∧ i < p.primaryPlanes.length) :
    ∃ p1, DrmPipeline.setPlaneValues d l p = some p1 := by
  induction l generalizing p with
  | nil => exact ⟨p, rfl⟩
  | cons i rest ih =>
    obtain ⟨hc, hp⟩ := hl i (List.mem_cons_self _ _)
    unfold DrmPipeline.setPlaneValues
    rw [List.get?_eq_get hc, List.get?_eq_get hp]
    dsimp only
    apply ih
    intro j hj
    have := hl j (List.mem_cons_of_mem _ hj)
    simpa using this

theorem doAtomicCommit_isSome (m : Members) (io : Ioctls) (caps : GpuCaps) (p : DrmPipeline)
    (k : Kernel) (req : List AtomicProperty) (flags : Nat) (testOnly : Bool)
    (hwf : p.connectors.length ≤ p.primaryPlanes.length) :
    ∃ r, DrmPipeline.doAtomicCommit m io caps p k req flags testOnly = some r := by
  obtain ⟨p1, hp1⟩ := setPlaneValues_isSome m.toDecls (List.range p.connectors.length)
    { p with lastFlags := DrmPipeline.populateFlags m.toDecls caps p flags }
    (by
      intro i hi
      have hi' := List.mem_range.mp hi
      exact ⟨hi', Nat.lt_of_lt_of_le hi' hwf⟩)
  unfold DrmPipeline.doAtomicCommit DrmPipeline.populateAtomicValues
  rw [hp1]
  dsimp only
  split_ifs <;> exact ⟨_, rfl⟩

theorem atomicCommit_isSome (m : Members) (io : Ioctls) (caps : GpuCaps) (p : DrmPipeline)
    (k : Kernel) (hwf : p.connectors.length ≤ p.primaryPlanes.length) :
    ∃ r, DrmPipeline.atomicCommit m io caps p k = some r := by
  unfold DrmPipeline.atomicCommit
  split
  · exact ⟨_, rfl⟩
  · exact doAtomicCommit_isSome m io caps p k [] 0 false hwf

theorem stageActive_isSome (m : Members) (active : Bool) (l : List Nat) (p : DrmPipeline)
    (k : Kernel)
    (hl : ∀ i ∈ l, i < p.connectors.length ∧ i < p.crtcs.length ∧ i < p.primaryPlanes.length) :
    ∃ p1 k1, DrmPipeline.stageActive m active l p k = some (p1, k1) ∧
      p1.connectors.length = p.connectors.length ∧
      p1.primaryPlanes.length = p.primaryPlanes.length := by
  induction l generalizing p k with
  | nil => exact ⟨p, k, rfl, rfl, rfl⟩
  | cons i rest ih =>
    obtain ⟨hc, hr, hp⟩ := hl i (List.mem_cons_self _ _)
    unfold DrmPipeline.stageActive
    rw [List.get?_eq_get hc, List.get?_eq_get hr, List.get?_eq_get hp]
    dsimp only
    have := ih
      { p with
        connectors := p.connectors.set i
          { p.connectors.get ⟨i, hc⟩ with
            toDrmObject :=
              (p.connectors.get ⟨i, hc⟩).toDrmObject.setPending m.index.connectorCrtcId
                (if active then (p.crtcs.get ⟨i, hr⟩).id else 0) }
        crtcs := p.crtcs.set i
          { p.crtcs.get ⟨i, hr⟩ with
            toDrmObject :=
              (((p.crtcs.get ⟨i, hr⟩).toDrmObject.setPending m.crtcActive
                  (if active then 1 else 0)).setPendingBlob
                m.crtcModeId (if active then some (m.currentMode (p.connectors.get ⟨i, hc⟩))
                  else none) k).2.1 }
        primaryPlanes := p.primaryPlanes.set i
          { p.primaryPlanes.get ⟨i, hp⟩ with
            toDrmObject :=
              (p.primaryPlanes.get ⟨i, hp⟩).toDrmObject.setPending m.index.planeCrtcId
                (if active then (p.crtcs.get ⟨i, hr⟩).id else 0) } }
      (((p.crtcs.get ⟨i, hr⟩).toDrmObject.setPending m.crtcActive
          (if active then 1 else 0)).setPendingBlob
        m.crtcModeId (if active then some (m.currentMode (p.connectors.get ⟨i, hc⟩)) else none)
        k).2.2
      (by
        intro j hj
        have := hl j (List.mem_cons_of_mem _ hj)
        simpa using this)
    obtain ⟨p1, k1, h1, h2, h3⟩ := this
    refine ⟨p1, k1, h1, ?_, ?_⟩
    · simpa using h2
    · simpa using h3

theorem applyActive_false_isSome (m : Members) (io : Ioctls) (caps : GpuCaps) (b : Batch)
    (p : DrmPipeline) (k : Kernel)
    (hwf : if caps.atomicModeSetting then
        p.crtcs.length = p.connectors.length ∧ p.primaryPlanes.length = p.connectors.length
      else p.connectors ≠ []) :
    ∃ r, DrmPipeline.applyActive m io caps b p k false = some r := by
  unfold DrmPipeline.applyActive
  cases hat : caps.atomicModeSetting with
  | true =>
    rw [hat] at hwf
    simp only [if_true] at hwf
    obtain ⟨p1, k1, h1, h2, h3⟩ := stageActive_isSome m false (List.range p.connectors.length)
      { p with active := false } k
      (by
        intro i hi
        have hi' := List.mem_range.mp hi
        refine ⟨hi', ?_, ?_⟩
        · show i < p.crtcs.length
          omega
        · show i < p.primaryPlanes.length
          omega)
    simp only [if_true, h1, Bool.false_eq_true, if_false]
    obtain ⟨c, hc⟩ := atomicCommit_isSome m io caps p1 k1 (by
      rw [h2, h3]
      show p.connectors.length ≤ p.primaryPlanes.length
      omega)
    rw [hc]
    exact ⟨_, rfl⟩
  | false =>
    rw [hat] at hwf
    simp only [Bool.false_eq_true, if_false] at hwf ⊢
    cases hc : p.connectors with
    | nil => exact absurd hc hwf
    | cons conn rest =>
      simp only [List.head?_cons]
      split <;> exact ⟨_, rfl⟩

/-! ### Which calls an operation adds to the trace -/

theorem AddsOnly.refl (allowed : KernelCall → Bool) (k : Kernel) : AddsOnly allowed k k :=
  ⟨[], by simp, by simp⟩

theorem AddsOnly.of_calls_eq (allowed : KernelCall → Bool) (k k2 : Kernel)
    (h : k2.calls = k.calls) : AddsOnly allowed k k2 :=
  ⟨[], by simp [h], by simp⟩

theorem AddsOnly.trans {allowed : KernelCall → Bool} {k1 k2 k3 : Kernel}
    (h12 : AddsOnly allowed k1 k2) (h23 : AddsOnly allowed k2 k3) : AddsOnly allowed k1 k3 := by
  obtain ⟨r1, e1, a1⟩ := h12
  obtain ⟨r2, e2, a2⟩ := h23
  refine ⟨r1 ++ r2, by rw [e2, e1, List.append_assoc], ?_⟩
  intro call hc
  rcases List.mem_append.mp hc with h | h
  · exact a1 call h
  · exact a2 call h

theorem AddsOnly.mono {allowed wider : KernelCall → Bool} {k1 k2 : Kernel}
    (h : AddsOnly allowed k1 k2) (hw : ∀ call, allowed call = true → wider call = true) :
    AddsOnly wider k1 k2 := by
  obtain ⟨r, e, a⟩ := h
  exact ⟨r, e, fun call hc => hw call (a call hc)⟩

theorem AddsOnly.single (allowed : KernelCall → Bool) (k k2 : Kernel) (call : KernelCall)
    (h : k2.calls = k.calls ++ [call]) (ha : allowed call = true) : AddsOnly allowed k k2 :=
  ⟨[call], h, by simpa using ha⟩

theorem AddsOnly.countCalls_eq {allowed kind : KernelCall → Bool} {k1 k2 : Kernel}
    (h : AddsOnly allowed k1 k2) (hk : ∀ call, allowed call = true → kind call = false) :
    countCalls kind k2 = countCalls kind k1 := by
  obtain ⟨r, e, a⟩ := h
  unfold countCalls
  rw [e, List.countP_append]
  have : r.countP kind = 0 := by
    rw [List.countP_eq_zero]
    intro call hc
    simp [hk call (a call hc)]
  omega

theorem addsBlob_destroy (k : Kernel) (id : Nat) :
    AddsOnly isBlobCall k (drmModeDestroyPropertyBlob k id) :=
  AddsOnly.single _ _ _ _ rfl rfl

theorem addsBlob_get (k : Kernel) (id : Nat) :
    AddsOnly isBlobCall k (drmModeGetPropertyBlob k id).2 :=
  AddsOnly.single _ _ _ _ rfl rfl

theorem addsBlob_create (k : Kernel) (data : List Nat) :
    AddsOnly isBlobCall k (drmModeCreatePropertyBlob k data).2 := by
  unfold drmModeCreatePropertyBlob
  split
  · exact AddsOnly.single _ _ _ _ rfl rfl
  · exact AddsOnly.single _ _ _ _ rfl rfl

theorem addsBlob_storePendingBlob (p : Property) (id : Nat) (k : Kernel) :
    AddsOnly isBlobCall k (p.storePendingBlob id k).2.2 := by
  unfold Property.storePendingBlob
  dsimp only
  split
  · exact (addsBlob_destroy k _).trans (addsBlob_get _ _)
  · exact addsBlob_get _ _

theorem addsBlob_setPendingBlob (p : Property) (blob : Option (List Nat)) (k : Kernel) :
    AddsOnly isBlobCall k (p.setPendingBlob blob k).2.2 := by
  unfold Property.setPendingBlob
  split
  · exact AddsOnly.refl _ _
  · split
    · exact AddsOnly.refl _ _
    · cases blob with
      | none => exact addsBlob_storePendingBlob p 0 k
      | some bytes =>
        dsimp only
        have hc := addsBlob_create k bytes
        cases hcr : drmModeCreatePropertyBlob k bytes with
        | mk id k1 =>
          rw [hcr] at hc
          cases id with
          | none => exact hc
          | some id => exact hc.trans (addsBlob_storePendingBlob p id k1)

theorem addsBlob_setCurrentBlob (p : Property) (blob : Option Blob) (k : Kernel) :
    AddsOnly isBlobCall k (p.setCurrentBlob blob k).2 := by
  unfold Property.setCurrentBlob
  split
  · exact AddsOnly.refl _ _
  · dsimp only
    split
    · exact addsBlob_destroy k _
    · exact AddsOnly.refl _ _

theorem addsBlob_commit (p : Property) (k : Kernel) : AddsOnly isBlobCall k (p.commit k).2 := by
  unfold Property.commit
  split
  · exact AddsOnly.refl _ _
  · split
    · exact addsBlob_setCurrentBlob p _ k
    · exact AddsOnly.refl _ _

theorem addsBlob_commitPending (p : Property) (k : Kernel) :
    AddsOnly isBlobCall k (p.commitPending k).2 := by
  unfold Property.commitPending
  split
  · exact AddsOnly.refl _ _
  · split
    · dsimp only
      split
      · exact addsBlob_destroy k _
      · exact AddsOnly.refl _ _
    · exact AddsOnly.refl _ _

theorem addsBlob_rollbackPending (p : Property) (k : Kernel) :
    AddsOnly isBlobCall k (p.rollbackPending k).2 := by
  unfold Property.rollbackPending
  split
  · exact AddsOnly.refl _ _
  · split
    · dsimp only
      split
      · exact addsBlob_destroy k _
      · exact AddsOnly.refl _ _
    · exact AddsOnly.refl _ _

theorem addsOnly_forEachProp (allowed : KernelCall → Bool)
    (f : Property → Kernel → Property × Kernel)
    (hf : ∀ p k, AddsOnly allowed k (f p k).2) (props : List (Option Property)) (k : Kernel) :
    AddsOnly allowed k (DrmObject.forEachProp f props k).2 := by
  induction props generalizing k with
  | nil => exact AddsOnly.refl _ _
  | cons a rest ih =>
    cases a with
    | none => exact ih k
    | some p => exact (hf p k).trans (ih _)

theorem addsOnly_applyToObject (allowed : KernelCall → Bool)
    (f : DrmObject → Kernel → DrmObject × Kernel)
    (hf : ∀ o k, AddsOnly allowed k (f o k).2) (s : DrmPipeline × Kernel) (r : ObjRef) :
    AddsOnly allowed s.2 (DrmPipeline.applyToObject f s r).2 := by
  unfold DrmPipeline.applyToObject
  split
  · exact hf _ _
  · exact AddsOnly.refl _ _

theorem addsOnly_foldl_applyToObject (allowed : KernelCall → Bool)
    (f : DrmObject → Kernel → DrmObject × Kernel)
    (hf : ∀ o k, AddsOnly allowed k (f o k).2) (refs : List ObjRef) (s : DrmPipeline × Kernel) :
    AddsOnly allowed s.2 (refs.foldl (DrmPipeline.applyToObject f) s).2 := by
  induction refs generalizing s with
  | nil => exact AddsOnly.refl _ _
  | cons r rest ih => exact (addsOnly_applyToObject allowed f hf s r).trans (ih _)

theorem addsOnly_forAllObjects (allowed : KernelCall → Bool)
    (f : DrmObject → Kernel → DrmObject × Kernel)
    (hf : ∀ o k, AddsOnly allowed k (f o k).2) (p : DrmPipeline) (k : Kernel) :
    AddsOnly allowed k (DrmPipeline.forAllObjects f p k).2 :=
  addsOnly_foldl_applyToObject allowed f hf p.allObjects (p, k)

theorem addsBlob_object_commit (o : DrmObject) (k : Kernel) :
    AddsOnly isBlobCall k (o.commit k).2 :=
  addsOnly_forEachProp _ _ addsBlob_commit o.props k

theorem addsBlob_object_commitPending (o : DrmObject) (k : Kernel) :
    AddsOnly isBlobCall k (o.commitPending k).2 :=
  addsOnly_forEachProp _ _ addsBlob_commitPending o.props k

theorem addsBlob_object_rollbackPending (o : DrmObject) (k : Kernel) :
    AddsOnly isBlobCall k (o.rollbackPending k).2 :=
  addsOnly_forEachProp _ _ addsBlob_rollbackPending o.props k

theorem addsBlob_rollbackAll (p : DrmPipeline) (k : Kernel) :
    AddsOnly isBlobCall k (DrmPipeline.rollbackAll p k).2 :=
  addsOnly_forAllObjects _ _ addsBlob_object_rollbackPending _ k

/-! ### One commit attempt -/

theorem isTestOnly_test_flags (flags : Nat) :
    isTestOnly ((flags &&& 0xFFFFFFFE) ||| DRM_MODE_ATOMIC_TEST_ONLY) = true := by
  unfold isTestOnly DRM_MODE_ATOMIC_TEST_ONLY
  simp only [bne_iff_ne, ne_eq]
  intro h
  have h8 := congrArg (fun n => Nat.testBit n 8) h
  simp only [Nat.testBit_and, Nat.testBit_or, Nat.zero_testBit] at h8
  have : Nat.testBit 256 8 = true := by decide
  simp [this] at h8

theorem isTestOnly_populateFlags (d : Decls) (caps : GpuCaps) (p : DrmPipeline) :
    isTestOnly (DrmPipeline.populateFlags d caps p 0) = false := by
  unfold DrmPipeline.populateFlags
  dsimp only
  split <;> split <;> decide

theorem populateAtomicValues_flags (d : Decls) (drv : Driver) (caps : GpuCaps) (p : DrmPipeline)
    (req : List AtomicProperty) (flags : Nat) (r : Bool × DrmPipeline × List AtomicProperty × Nat)
    (h : p.populateAtomicValues d drv caps req flags = some r) :
    r.2.2.2 = DrmPipeline.populateFlags d caps p flags := by
  unfold DrmPipeline.populateAtomicValues at h
  split at h
  · cases h
  · cases h
    rfl

/-- The four ways `atomicCommit()` can end once a request was allocated: the
request could not be filled, the test was rejected, the commit was rejected,
or both were accepted.  `p1` is the pipeline as `populateAtomicValues` leaves
it. -/
theorem atomicCommit_cases (m : Members) (io : Ioctls) (caps : GpuCaps) (p : DrmPipeline)
    (k : Kernel) (r : Bool × DrmPipeline × Kernel) (halloc : io.atomicAlloc = true)
    (h : DrmPipeline.atomicCommit m io caps p k = some r) :
    ∃ populated p1 req1,
      p.populateAtomicValues m.toDecls io.toDriver caps [] 0
        = some (populated, p1, req1, DrmPipeline.populateFlags m.toDecls caps p 0) ∧
      ((r.1 = false ∧ ∃ kc, r.2 = DrmPipeline.rollbackAll p1 kc ∧
          ((populated = false ∧ kc.calls = k.calls) ∨
           (∃ tf, isTestOnly tf = true ∧
              kc.calls = k.calls ++ [KernelCall.atomicCommit req1 tf false]) ∨
           (∃ tf cf, isTestOnly tf = true ∧ isTestOnly cf = false ∧
              kc.calls = k.calls ++ [KernelCall.atomicCommit req1 tf true,
                KernelCall.atomicCommit req1 cf false]))) ∨
       (r.1 = true ∧ ∃ tf cf, isTestOnly tf = true ∧ isTestOnly cf = false ∧
          AddsOnly isBlobCall
            { k with calls := k.calls ++ [KernelCall.atomicCommit req1 tf true,
                KernelCall.atomicCommit req1 cf true] } r.2.2)) := by
  unfold DrmPipeline.atomicCommit at h
  simp only [halloc, Bool.not_true, Bool.false_eq_true, if_false] at h
  unfold DrmPipeline.doAtomicCommit at h
  cases hp : p.populateAtomicValues m.toDecls io.toDriver caps [] 0 with
  | none => rw [hp] at h; cases h
  | some v =>
    have hfl := populateAtomicValues_flags _ _ _ _ _ _ v hp
    obtain ⟨populated, p1, req1, flags1⟩ := v
    dsimp only at hfl
    subst hfl
    rw [hp] at h
    dsimp only at h
    refine ⟨populated, p1, req1, rfl, ?_⟩
    have htf := isTestOnly_test_flags (DrmPipeline.populateFlags m.toDecls caps p 0)
    have hcf := isTestOnly_populateFlags m.toDecls caps p
    cases populated with
    | false =>
      simp only [Bool.false_eq_true, if_false, Bool.and_false, Bool.not_false] at h
      cases h
      exact Or.inl ⟨rfl, k, rfl, Or.inl ⟨rfl, rfl⟩⟩
    | true =>
      simp only [if_true, Bool.not_false, Bool.true_and] at h
      cases ht : io.atomicCommit req1
          ((DrmPipeline.populateFlags m.toDecls caps p 0 &&& 0xFFFFFFFE)
            ||| DRM_MODE_ATOMIC_TEST_ONLY) with
      | false =>
        simp only [drmModeAtomicCommit, ht, Bool.false_eq_true, if_false] at h
        cases h
        exact Or.inl ⟨rfl, _, rfl, Or.inr (Or.inl ⟨_, htf, rfl⟩)⟩
      | true =>
        cases hc : io.atomicCommit req1 (DrmPipeline.populateFlags m.toDecls caps p 0) with
        | false =>
          simp only [drmModeAtomicCommit, ht, hc, Bool.false_eq_true, if_false, if_true] at h
          cases h
          refine Or.inl ⟨rfl, _, rfl, Or.inr (Or.inr ⟨_, _, htf, hcf, ?_⟩)⟩
          simp
        | true =>
          simp only [drmModeAtomicCommit, ht, hc, if_true] at h
          cases h
          refine Or.inr ⟨rfl, _, _, htf, hcf, ?_⟩
          dsimp only
          refine AddsOnly.trans ?_
            (AddsOnly.trans (addsOnly_forAllObjects _ _ addsBlob_object_commitPending _ _)
              (addsOnly_forAllObjects _ _ addsBlob_object_commit _ _))
          exact AddsOnly.of_calls_eq _ _ _ (by simp)

/-! ### What a commit attempt leaves alone -/

theorem setObject_shape (p : DrmPipeline) (r : ObjRef) (o : DrmObject) :
    (p.setObject r o).shape = p.shape := by
  cases r <;> simp [DrmPipeline.setObject, DrmPipeline.shape]

theorem applyToObject_shape (f : DrmObject → Kernel → DrmObject × Kernel)
    (s : DrmPipeline × Kernel) (r : ObjRef) :
    (DrmPipeline.applyToObject f s r).1.shape = s.1.shape := by
  unfold DrmPipeline.applyToObject
  split
  · exact setObject_shape _ _ _
  · rfl

theorem foldl_applyToObject_shape (f : ObjRef → DrmObject → Kernel → DrmObject × Kernel)
    (refs : List ObjRef) (s : DrmPipeline × Kernel) :
    (refs.foldl (fun s r => DrmPipeline.applyToObject (f r) s r) s).1.shape = s.1.shape := by
  induction refs generalizing s with
  | nil => rfl
  | cons r rest ih =>
    simp only [List.foldl_cons]
    rw [ih, applyToObject_shape]

theorem forAllObjects_shape (f : DrmObject → Kernel → DrmObject × Kernel) (p : DrmPipeline)
    (k : Kernel) : (p.forAllObjects f k).1.shape = p.shape :=
  foldl_applyToObject_shape (fun _ => f) p.allObjects (p, k)

theorem rollbackAll_shape (p : DrmPipeline) (k : Kernel) :
    (DrmPipeline.rollbackAll p k).1.shape = p.shape := by
  unfold DrmPipeline.rollbackAll
  rw [forAllObjects_shape]
  split <;> rfl

theorem countCalls_append (kind : KernelCall → Bool) (k k2 : Kernel) (l : List KernelCall)
    (h : k2.calls = k.calls ++ l) : countCalls kind k2 = countCalls kind k + l.countP kind := by
  unfold countCalls
  rw [h, List.countP_append]

theorem isBlobCall_not_commitAttempt (call : KernelCall) (h : isBlobCall call = true) :
    isCommitAttempt call = false := by
  cases call <;> simp_all [isBlobCall, isCommitAttempt]

theorem isBlobCall_not_propertyQuery (call : KernelCall) (h : isBlobCall call = true) :
    isPropertyQuery call = false := by
  cases call <;> simp_all [isBlobCall, isPropertyQuery]

theorem isReadCall_not_commitAttempt (call : KernelCall) (h : isReadCall call = true) :
    isCommitAttempt call = false := by
  cases call <;> simp_all [isReadCall, isBlobCall, isCommitAttempt]

theorem isReadCall_not_acceptedCommit (call : KernelCall) (h : isReadCall call = true) :
    isAcceptedCommit call = false := by
  cases call <;> simp_all [isReadCall, isBlobCall, isAcceptedCommit]

theorem isBlobCall_isReadCall (call : KernelCall) (h : isBlobCall call = true) :
    isReadCall call = true := by
  cases call <;> simp_all [isReadCall, isBlobCall]

theorem addsBlob_updateProperty (reported : List ReportedProperty) (old : Option Property)
    (definition : PropertyDefinition) (k : Kernel) :
    AddsOnly isBlobCall k (DrmObject.updateProperty reported old definition k).2 := by
  unfold DrmObject.updateProperty
  split
  · exact AddsOnly.refl _ _
  · rename_i value res _
    dsimp only
    have hg : AddsOnly isBlobCall k
        (if res.isBlob = true then drmModeGetPropertyBlob k value else (none, k)).2 := by
      split
      · exact addsBlob_get _ _
      · exact AddsOnly.refl _ _
    generalize (if res.isBlob = true then drmModeGetPropertyBlob k value else (none, k)) = got
      at hg
    split
    · split
      · exact hg.trans (addsBlob_setCurrentBlob _ _ _)
      · exact hg
    · exact hg

theorem addsBlob_updatePropertiesLoop (reported : List ReportedProperty)
    (old : List (Option Property)) (definitions : List PropertyDefinition) (propIndex : Nat)
    (k : Kernel) :
    AddsOnly isBlobCall k
      (DrmObject.updatePropertiesLoop reported old definitions propIndex k).2 := by
  induction definitions generalizing propIndex k with
  | nil => exact AddsOnly.refl _ _
  | cons definition rest ih =>
    unfold DrmObject.updatePropertiesLoop
    exact (addsBlob_updateProperty _ _ _ _).trans (ih _ _)

theorem object_updateProperties_trace (definitions : List PropertyDefinition) (atomic : Bool)
    (io : Ioctls) (o : DrmObject) (k : Kernel) :
    AddsOnly isBlobCall
      { k with calls := k.calls ++
          [KernelCall.objectGetProperties o.id (io.objectGetProperties o.id).isSome] }
      (o.updateProperties definitions atomic io k).2.2 := by
  unfold DrmObject.updateProperties drmModeObjectGetProperties
  cases io.objectGetProperties o.id with
  | none => exact AddsOnly.refl _ _
  | some reported => exact addsBlob_updatePropertiesLoop _ _ _ _ _

theorem object_updateProperties_counts (definitions : List PropertyDefinition) (atomic : Bool)
    (io : Ioctls) (o : DrmObject) (k : Kernel) :
    countCalls isPropertyQuery (o.updateProperties definitions atomic io k).2.2
        = countCalls isPropertyQuery k + 1 ∧
    AddsOnly isReadCall k (o.updateProperties definitions atomic io k).2.2 := by
  have h := object_updateProperties_trace definitions atomic io o k
  constructor
  · rw [h.countCalls_eq isBlobCall_not_propertyQuery, countCalls_append isPropertyQuery k _ _ rfl]
    simp [isPropertyQuery]
  · exact AddsOnly.trans
      ⟨[KernelCall.objectGetProperties o.id (io.objectGetProperties o.id).isSome], rfl,
        by simp [isReadCall]⟩
      (h.mono isBlobCall_isReadCall)

theorem getObject_isSome_of_shape (p q : DrmPipeline) (h : p.shape = q.shape) (r : ObjRef) :
    (p.getObject r).isSome = (q.getObject r).isSome := by
  simp only [DrmPipeline.shape, Prod.mk.injEq] at h
  obtain ⟨-, -, -, -, h1, h2, h3⟩ := h
  cases r with
  | connector i =>
    by_cases hi : i < p.connectors.length
    · simp [DrmPipeline.getObject, List.get?_eq_getElem?, hi, h1 ▸ hi]
    · have hi' : ¬ i < q.connectors.length := h1 ▸ hi
      simp [DrmPipeline.getObject, List.get?_eq_getElem?, List.getElem?_eq_none (not_lt.mp hi),
        List.getElem?_eq_none (not_lt.mp hi')]
  | crtc i =>
    by_cases hi : i < p.crtcs.length
    · simp [DrmPipeline.getObject, List.get?_eq_getElem?, hi, h2 ▸ hi]
    · have hi' : ¬ i < q.crtcs.length := h2 ▸ hi
      simp [DrmPipeline.getObject, List.get?_eq_getElem?, List.getElem?_eq_none (not_lt.mp hi),
        List.getElem?_eq_none (not_lt.mp hi')]
  | plane i =>
    by_cases hi : i < p.primaryPlanes.length
    · simp [DrmPipeline.getObject, List.get?_eq_getElem?, hi, h3 ▸ hi]
    · have hi' : ¬ i < q.primaryPlanes.length := h3 ▸ hi
      simp [DrmPipeline.getObject, List.get?_eq_getElem?, List.getElem?_eq_none (not_lt.mp hi),
        List.getElem?_eq_none (not_lt.mp hi')]

theorem objects_length (p : DrmPipeline) :
    p.objects.length = p.allObjects.countP (fun r => (p.getObject r).isSome) := by
  unfold DrmPipeline.objects
  induction p.allObjects with
  | nil => rfl
  | cons r rest ih =>
    cases hr : p.getObject r with
    | none => simp [List.filterMap_cons, hr, ih]
    | some o => simp [List.filterMap_cons, hr, ih]

theorem foldl_updateProperties_counts (m : Members) (io : Ioctls) (caps : GpuCaps)
    (refs : List ObjRef) (s : DrmPipeline × Kernel) :
    countCalls isPropertyQuery
        (refs.foldl (fun s r => DrmPipeline.applyToObject
          (fun o k1 => (o.updateProperties (DrmPipeline.definitionsOf m r)
            caps.atomicModeSetting io k1).2) s r) s).2
      = countCalls isPropertyQuery s.2 + refs.countP (fun r => (s.1.getObject r).isSome) ∧
    AddsOnly isReadCall s.2
      (refs.foldl (fun s r => DrmPipeline.applyToObject
          (fun o k1 => (o.updateProperties (DrmPipeline.definitionsOf m r)
            caps.atomicModeSetting io k1).2) s r) s).2 := by
  induction refs generalizing s with
  | nil => exact ⟨by simp, AddsOnly.refl _ _⟩
  | cons r rest ih =>
    simp only [List.foldl_cons]
    obtain ⟨ih1, ih2⟩ := ih (DrmPipeline.applyToObject
      (fun o k1 => (o.updateProperties (DrmPipeline.definitionsOf m r)
        caps.atomicModeSetting io k1).2) s r)
    have hshape := applyToObject_shape
      (fun o k1 => (o.updateProperties (DrmPipeline.definitionsOf m r)
        caps.atomicModeSetting io k1).2) s r
    have hsame : rest.countP (fun r2 => ((DrmPipeline.applyToObject
        (fun o k1 => (o.updateProperties (DrmPipeline.definitionsOf m r)
          caps.atomicModeSetting io k1).2) s r).1.getObject r2).isSome)
        = rest.countP (fun r2 => (s.1.getObject r2).isSome) := by
      congr 1
      funext r2
      exact getObject_isSome_of_shape _ _ hshape r2
    rw [ih1, hsame]
    unfold DrmPipeline.applyToObject at ih2 ⊢
    cases hg : s.1.getObject r with
    | none =>
      rw [hg] at ih2
      simp only [List.countP_cons, hg, Option.isSome_none, Bool.false_eq_true, if_false]
      exact ⟨by omega, ih2⟩
    | some o =>
      rw [hg] at ih2
      obtain ⟨hc, ha⟩ := object_updateProperties_counts (DrmPipeline.definitionsOf m r)
        caps.atomicModeSetting io o s.2
      simp only [List.countP_cons, hg, Option.isSome_some, if_true]
      dsimp only at ih2 ⊢
      exact ⟨by rw [hc]; omega, ha.trans ih2⟩

theorem updateProperties_counts (m : Members) (io : Ioctls) (caps : GpuCaps) (p : DrmPipeline)
    (k : Kernel) :
    countCalls isPropertyQuery (p.updateProperties m io caps k).2
        = countCalls isPropertyQuery k + p.objects.length ∧
    AddsOnly isReadCall k (p.updateProperties m io caps k).2 := by
  rw [objects_length]
  exact foldl_updateProperties_counts m io caps p.allObjects (p, k)


theorem rollbackPending_pending_eq_next (y : Property) (k : Kernel)
    (himm : (y.rollbackPending k).1.immutable = false) :
    (y.rollbackPending k).1.pending = (y.rollbackPending k).1.next := by
  unfold Property.rollbackPending at himm ⊢
  split_ifs at himm ⊢ <;> simp_all

theorem forEachProp_rollbackPending_pending (props : List (Option Property)) (k : Kernel)
    (pr : Property) (hm : some pr ∈ (DrmObject.forEachProp Property.rollbackPending props k).1)
    (himm : pr.immutable = false) : pr.pending = pr.next := by
  induction props generalizing k with
  | nil => simp [DrmObject.forEachProp] at hm
  | cons x rest ih =>
    cases x with
    | none =>
      simp only [DrmObject.forEachProp, List.mem_cons, reduceCtorEq, false_or] at hm
      exact ih k hm
    | some y =>
      simp only [DrmObject.forEachProp, List.mem_cons, Option.some.injEq] at hm
      rcases hm with rfl | hm
      · exact rollbackPending_pending_eq_next y k himm
      · exact ih _ hm

theorem foldl_applyToObject_all (F : DrmObject → Kernel → DrmObject × Kernel)
    (Q : DrmObject → Prop) (hF : ∀ o k, Q (F o k).1) (refs done : List ObjRef)
    (s : DrmPipeline × Kernel)
    (hdone : ∀ r ∈ done, ∀ o, s.1.getObject r = some o → Q o) :
    ∀ r ∈ done ++ refs, ∀ o,
      (refs.foldl (DrmPipeline.applyToObject F) s).1.getObject r = some o → Q o := by
  induction refs generalizing done s with
  | nil => simpa using hdone
  | cons r0 rs ih =>
    intro r hr
    have hr' : r ∈ (done ++ [r0]) ++ rs := by simpa using hr
    simp only [List.foldl_cons]
    refine ih (done ++ [r0]) _ ?_ r hr'
    intro r2 hr2 o ho
    unfold DrmPipeline.applyToObject at ho
    cases hg : s.1.getObject r0 with
    | none =>
      rw [hg] at ho
      simp only [List.mem_append, List.mem_singleton] at hr2
      rcases hr2 with h | rfl
      · exact hdone r2 h o ho
      · rw [hg] at ho; cases ho
    | some o0 =>
      rw [hg] at ho
      simp only at ho
      rw [getObject_setObject _ _ _ o0 _ hg] at ho
      split_ifs at ho with he
      · cases ho
        exact hF _ _
      · simp only [List.mem_append, List.mem_singleton] at hr2
        rcases hr2 with h | h
        · exact hdone r2 h o ho
        · exact absurd h he

theorem rollbackAll_allObjects (p : DrmPipeline) (k : Kernel) :
    (DrmPipeline.rollbackAll p k).1.allObjects = p.allObjects := by
  have h := rollbackAll_shape p k
  simp only [DrmPipeline.shape, Prod.mk.injEq] at h
  exact h.2.2.2.1

/-- After the rollback of a failed attempt no object of the pipeline has a
staged value. -/
theorem rollbackAll_nothing_staged (p : DrmPipeline) (k : Kernel) :
    ∀ o ∈ (DrmPipeline.rollbackAll p k).1.objects, ∀ q, some q ∈ o.props →
      q.immutable = false → q.pending = q.next := by
  intro o ho
  unfold DrmPipeline.objects at ho
  rw [List.mem_filterMap] at ho
  obtain ⟨r, hr, hget⟩ := ho
  rw [rollbackAll_allObjects] at hr
  have hall := foldl_applyToObject_all DrmObject.rollbackPending
    (fun o => ∀ q, some q ∈ o.props → q.immutable = false → q.pending = q.next)
    (fun o k q hq himm => forEachProp_rollbackPending_pending o.props k q hq himm)
    (match p.oldTestBuffer with
      | some buffer => { p with primaryBuffer := some buffer, oldTestBuffer := none }
      | none => p).allObjects []
    ((match p.oldTestBuffer with
      | some buffer => { p with primaryBuffer := some buffer, oldTestBuffer := none }
      | none => p), k)
    (by simp)
  have hobj : (match p.oldTestBuffer with
      | some buffer => ({ p with primaryBuffer := some buffer, oldTestBuffer := none } : DrmPipeline)
      | none => p).allObjects = p.allObjects := by
    split <;> rfl
  exact hall r (by rw [hobj]; simpa using hr) o hget


theorem rollbackPending_nextSlot (q : Property) (k : Kernel) :
    (q.rollbackPending k).1.nextSlot = q.nextSlot := by
  unfold Property.nextSlot
  rw [Property.rollbackPending_next, Property.rollbackPending_nextBlob]

theorem object_rollbackPending_view {β : Type} (v : Property → β)
    (hf : ∀ pr k, v (Property.rollbackPending pr k).1 = v pr) (o : DrmObject) (k : Kernel) :
    (o.rollbackPending k).1.view v = o.view v := by
  simp [DrmObject.rollbackPending, DrmObject.view, forEachProp_map v _ hf]

theorem rollbackAll_view {β : Type} (v : Property → β)
    (hf : ∀ pr k, v (Property.rollbackPending pr k).1 = v pr) (p : DrmPipeline) (k : Kernel) :
    (DrmPipeline.rollbackAll p k).1.view v = p.view v := by
  unfold DrmPipeline.rollbackAll
  rw [forAllObjects_view v _ (object_rollbackPending_view v hf)]
  split <;> rfl

theorem map_set_of_eq {α γ : Type} (g : α → γ) (l : List α) (i : Nat) (x y : α)
    (hy : l.get? i = some y) (hx : g x = g y) : (l.set i x).map g = l.map g := by
  induction l generalizing i with
  | nil => rfl
  | cons a rest ih =>
    cases i with
    | zero =>
      simp only [List.get?_cons_zero, Option.some.injEq] at hy
      subst hy
      simp [hx]
    | succ n =>
      simp only [List.get?_cons_succ] at hy
      simp [ih n hy]

theorem setPlaneValues_view {β : Type} (v : Property → β) (d : Decls)
    (hset : ∀ plane a b c e, (d.planeSet plane a b c e).toDrmObject.view v
      = plane.toDrmObject.view v)
    (hbuf : ∀ plane buffer, (d.planeSetBuffer plane buffer).toDrmObject.view v
      = plane.toDrmObject.view v)
    (l : List Nat) (p p1 : DrmPipeline)
    (h : DrmPipeline.setPlaneValues d l p = some p1) : p1.view v = p.view v := by
  induction l generalizing p with
  | nil =>
    simp only [DrmPipeline.setPlaneValues, Option.some.injEq] at h
    rw [h]
  | cons i rest ih =>
    unfold DrmPipeline.setPlaneValues at h
    split at h
    · rename_i conn plane hconn hplane
      rw [ih _ h]
      simp only [DrmPipeline.view, Prod.mk.injEq, true_and]
      exact map_set_of_eq _ _ i _ plane hplane ((hbuf _ _).trans (hset _ _ _ _ _))
    · cases h

theorem populateAtomicValues_view {β : Type} (v : Property → β) (d : Decls) (drv : Driver)
    (caps : GpuCaps)
    (hset : ∀ plane a b c e, (d.planeSet plane a b c e).toDrmObject.view v
      = plane.toDrmObject.view v)
    (hbuf : ∀ plane buffer, (d.planeSetBuffer plane buffer).toDrmObject.view v
      = plane.toDrmObject.view v)
    (p : DrmPipeline) (req : List AtomicProperty) (flags : Nat)
    (r : Bool × DrmPipeline × List AtomicProperty × Nat)
    (h : p.populateAtomicValues d drv caps req flags = some r) : r.2.1.view v = p.view v := by
  unfold DrmPipeline.populateAtomicValues at h
  split at h
  · cases h
  · rename_i p1 hp1
    cases h
    exact (setPlaneValues_view v d hset hbuf _ _ p1 hp1).trans rfl

/-- A failed `atomicCommit()` ends in the rollback of the pipeline that
`populateAtomicValues` left, and that pipeline differs from the one the attempt
started with only in what `DrmPlane::set` and `setBuffer` staged. -/
theorem atomicCommit_failed (m : Members) (io : Ioctls) (caps : GpuCaps) (p : DrmPipeline)
    (k : Kernel) (p2 : DrmPipeline) (k2 : Kernel) (halloc : io.atomicAlloc = true)
    (h : DrmPipeline.atomicCommit m io caps p k = some (false, p2, k2)) :
    ∃ populated p1 req1 kc,
      p.populateAtomicValues m.toDecls io.toDriver caps [] 0
        = some (populated, p1, req1, DrmPipeline.populateFlags m.toDecls caps p 0) ∧
      (p2, k2) = DrmPipeline.rollbackAll p1 kc := by
  obtain ⟨populated, p1, req1, hp, hcase⟩ := atomicCommit_cases m io caps p k _ halloc h
  rcases hcase with ⟨-, kc, hkc, -⟩ | ⟨hr, -⟩
  · exact ⟨populated, p1, req1, kc, hp, hkc⟩
  · cases hr


theorem setCurrentBlob_nextSlot (q : Property) (blob : Option Blob) (k : Kernel) :
    (q.setCurrentBlob blob k).1.nextSlot = q.nextSlot := by
  unfold Property.setCurrentBlob
  split <;> rfl

theorem updateProperty_nextSlot (reported : List ReportedProperty) (definition : PropertyDefinition)
    (k : Kernel) (q q2 : Property)
    (h : (DrmObject.updateProperty reported (some q) definition k).1 = some q2) :
    q2.nextSlot = q.nextSlot := by
  unfold DrmObject.updateProperty at h
  split at h
  · cases h
  · dsimp only at h
    split at h
    · simp only [Option.some.injEq] at h
      rw [← h]
      exact setCurrentBlob_nextSlot _ _ _
    · simp only [Option.some.injEq] at h
      rw [← h]
      rfl

theorem updatePropertiesLoop_get (reported : List ReportedProperty) (old : List (Option Property))
    (definitions : List PropertyDefinition) (start : Nat) (k : Kernel) (j : Nat)
    (x : Option Property)
    (h : (DrmObject.updatePropertiesLoop reported old definitions start k).1.get? j = some x) :
    ∃ definition kj,
      x = (DrmObject.updateProperty reported (old.get? (start + j)).join definition kj).1 := by
  induction definitions generalizing start k j with
  | nil => simp [DrmObject.updatePropertiesLoop] at h
  | cons definition rest ih =>
    unfold DrmObject.updatePropertiesLoop at h
    cases j with
    | zero =>
      simp only [List.get?_cons_zero, Option.some.injEq] at h
      exact ⟨definition, k, h.symm⟩
    | succ n =>
      simp only [List.get?_cons_succ] at h
      obtain ⟨d2, kj, hx⟩ := ih _ _ _ h
      refine ⟨d2, kj, ?_⟩
      rw [hx]
      have e : start + 1 + n = start + (n + 1) := by omega
      rw [e]

theorem object_updateProperties_nextSlot (definitions : List PropertyDefinition) (atomic : Bool)
    (io : Ioctls) (o : DrmObject) (k : Kernel) (i : Nat) (q q2 : Property)
    (hq : o.getProp i = some q)
    (h : (o.updateProperties definitions atomic io k).2.1.getProp i = some q2) :
    q2.nextSlot = q.nextSlot := by
  unfold DrmObject.updateProperties drmModeObjectGetProperties at h
  cases hrep : io.objectGetProperties o.id with
  | none =>
    rw [hrep] at h
    dsimp only at h
    rw [hq] at h
    cases h
    rfl
  | some reported =>
    rw [hrep] at h
    dsimp only at h
    unfold DrmObject.getProp at h hq
    cases hget : (DrmObject.updatePropertiesLoop reported o.props definitions 0
        { k with calls := k.calls ++
            [KernelCall.objectGetProperties o.id (some reported).isSome] }).1.get? i with
    | none => rw [hget] at h; cases h
    | some x =>
      rw [hget] at h
      simp only [Option.join] at h
      obtain ⟨definition, kj, hx⟩ := updatePropertiesLoop_get _ _ _ _ _ _ _ hget
      rw [Nat.zero_add, hq] at hx
      subst hx
      exact updateProperty_nextSlot reported definition kj q q2 (by simpa using h)

theorem foldl_applyToObject_once (G : ObjRef → DrmObject → Kernel → DrmObject × Kernel)
    (refs : List ObjRef) (hn : refs.Nodup) (s : DrmPipeline × Kernel) (r : ObjRef) (o2 : DrmObject)
    (h : (refs.foldl (fun s r => DrmPipeline.applyToObject (G r) s r) s).1.getObject r = some o2) :
    ∃ o, s.1.getObject r = some o ∧ (o2 = o ∨ (r ∈ refs ∧ ∃ k0, o2 = (G r o k0).1)) := by
  induction refs generalizing s with
  | nil => exact ⟨o2, h, Or.inl rfl⟩
  | cons r0 rest ih =>
    simp only [List.foldl_cons] at h
    obtain ⟨hnot, hrest⟩ := List.nodup_cons.mp hn
    obtain ⟨o1, ho1, hcase⟩ := ih hrest _ h
    unfold DrmPipeline.applyToObject at ho1
    cases hg : s.1.getObject r0 with
    | none =>
      rw [hg] at ho1
      refine ⟨o1, ho1, ?_⟩
      rcases hcase with h1 | ⟨hm, k0, h1⟩
      · exact Or.inl h1
      · exact Or.inr ⟨List.mem_cons_of_mem _ hm, k0, h1⟩
    | some o0 =>
      rw [hg] at ho1
      simp only at ho1
      rw [getObject_setObject _ _ _ o0 _ hg] at ho1
      split_ifs at ho1 with he
      · subst he
        simp only [Option.some.injEq] at ho1
        refine ⟨o0, hg, Or.inr ⟨List.mem_cons_self _ _, s.2, ?_⟩⟩
        rcases hcase with h1 | ⟨hm, -⟩
        · rw [h1, ← ho1]
        · exact absurd hm hnot
      · refine ⟨o1, ho1, ?_⟩
        rcases hcase with h1 | ⟨hm, k0, h1⟩
        · exact Or.inl h1
        · exact Or.inr ⟨List.mem_cons_of_mem _ hm, k0, h1⟩

theorem updateProperties_nextSlot (m : Members) (io : Ioctls) (caps : GpuCaps) (p : DrmPipeline)
    (k : Kernel) (hn : p.allObjects.Nodup) (r : ObjRef) (i : Nat) (q q2 : Property)
    (hq : p.propertyAt r i = some q)
    (h : (p.updateProperties m io caps k).1.propertyAt r i = some q2) :
    q2.nextSlot = q.nextSlot := by
  unfold DrmPipeline.propertyAt at h hq
  have hsame : (p.updateProperties m io caps k).1.getObject r
      = (p.allObjects.foldl
          (fun s r => DrmPipeline.applyToObject
            (fun o k1 => (o.updateProperties (DrmPipeline.definitionsOf m r)
              caps.atomicModeSetting io k1).2) s r) (p, k)).1.getObject r := by
    unfold DrmPipeline.updateProperties
    cases r <;> rfl
  rw [hsame] at h
  cases hg : (p.allObjects.foldl
      (fun s r => DrmPipeline.applyToObject
        (fun o k1 => (o.updateProperties (DrmPipeline.definitionsOf m r)
          caps.atomicModeSetting io k1).2) s r) (p, k)).1.getObject r with
  | none => rw [hg] at h; cases h
  | some o2 =>
    rw [hg] at h
    simp only [Option.bind] at h
    obtain ⟨o, ho, hcase⟩ := foldl_applyToObject_once
      (fun r o k1 => (o.updateProperties (DrmPipeline.definitionsOf m r)
        caps.atomicModeSetting io k1).2) p.allObjects hn (p, k) r o2 hg
    dsimp only at ho
    rw [ho] at hq
    simp only [Option.bind] at hq
    rcases hcase with h1 | ⟨-, k0, h1⟩
    · subst h1
      rw [hq] at h
      cases h
      rfl
    · subst h1
      exact object_updateProperties_nextSlot _ _ io o k0 i q q2 hq h

theorem propertyAt_map_of_view {β : Type} (v : Property → β) (p q : DrmPipeline)
    (h : p.view v = q.view v) (r : ObjRef) (i : Nat) :
    (p.propertyAt r i).map v = (q.propertyAt r i).map v := by
  have hobj := getObject_view_of_view v p q h r
  unfold DrmPipeline.propertyAt
  cases hp : p.getObject r with
  | none =>
    rw [hp] at hobj
    cases hq : q.getObject r with
    | none => rfl
    | some oq => rw [hq] at hobj; cases hobj
  | some op =>
    rw [hp] at hobj
    cases hq : q.getObject r with
    | none => rw [hq] at hobj; cases hobj
    | some oq =>
      rw [hq] at hobj
      simp only [Option.map_some', Option.some.injEq] at hobj
      exact getProp_map_of_view v op oq i hobj

/-! ### The tests of `modeset` -/

theorem testPipelines_trace (d : Decls) (drv : Driver) (caps : GpuCaps) (k : Kernel)
    (l : List DrmPipeline) (r : Bool × List DrmPipeline × Kernel)
    (h : DrmPipeline.testPipelines d drv caps k l = some r) :
    (r.2.2 = k ∧ r.1 = false) ∨
    ∃ req flags, isTestOnly flags = true ∧
      r.2.2 = { k with calls := k.calls ++ [KernelCall.atomicCommit req flags r.1] } := by
  unfold DrmPipeline.testPipelines at h
  split_ifs at h with h1 h2
  · cases h
    exact Or.inl ⟨rfl, rfl⟩
  · split at h
    · cases h
    · rename_i s hs
      split_ifs at h with h3
      · cases h
        exact Or.inr ⟨_, _, isTestOnly_test_flags _, rfl⟩
      · cases h
        exact Or.inl ⟨rfl, rfl⟩

theorem addsBlob_object_setPendingBlob (o : DrmObject) (index : Nat) (blob : Option (List Nat))
    (k : Kernel) : AddsOnly isBlobCall k (o.setPendingBlob index blob k).2.2 := by
  unfold DrmObject.setPendingBlob
  split
  · exact addsBlob_setPendingBlob _ blob k
  · exact AddsOnly.refl _ _

theorem setValues_spec (m : Members) (wantedMode : Int) (l : List Nat) (p p1 : DrmPipeline)
    (k k1 : Kernel) (h : DrmPipeline.setValues m wantedMode l p k = some (p1, k1)) :
    p1.primaryPlanes = p.primaryPlanes ∧ AddsOnly isBlobCall k k1 := by
  induction l generalizing p k with
  | nil =>
    simp only [DrmPipeline.setValues, Option.some.injEq, Prod.mk.injEq] at h
    rw [← h.1, ← h.2]
    exact ⟨rfl, AddsOnly.refl _ _⟩
  | cons i rest ih =>
    unfold DrmPipeline.setValues at h
    split at h
    · obtain ⟨h1, h2⟩ := ih _ _ h
      exact ⟨h1, (addsBlob_object_setPendingBlob _ _ _ _).trans h2⟩
    · cases h

/-- Starting from no flags, one pipeline sets `ALLOW_MODESET` when one of its
objects needs a modeset and `NONBLOCK` otherwise, never both. -/
theorem populateFlags_exclusive (d : Decls) (caps : GpuCaps) (p : DrmPipeline) :
    (DrmPipeline.populateFlags d caps p 0 &&& DRM_MODE_ATOMIC_ALLOW_MODESET != 0)
      = p.needsModeset d ∧
    (DrmPipeline.populateFlags d caps p 0 &&& DRM_MODE_ATOMIC_NONBLOCK != 0)
      = !p.needsModeset d := by
  unfold DrmPipeline.populateFlags
  dsimp only
  cases hm : p.needsModeset d <;>
    cases hf : (!(caps.useEglStreams && caps.hasEglBackend && caps.isPrimaryGpu) && p.active) <;>
    simp only [Bool.false_eq_true, if_false, if_true] <;> decide

/-! ### The backend of an output -/

theorem find?_first (α : Type) (pred : α → Bool) (l : List α) (h : ∃ a ∈ l, pred a = true) :
    ∃ front owner back,
      l = front ++ owner :: back ∧ (∀ a ∈ front, pred a = false) ∧ pred owner = true ∧
      l.find? pred = some owner := by
  induction l with
  | nil =>
    obtain ⟨a, ha, -⟩ := h
    cases ha
  | cons x rest ih =>
    by_cases hx : pred x = true
    · exact ⟨[], x, rest, rfl, by simp, hx, by simp [List.find?_cons, hx]⟩
    · obtain ⟨a, ha, hown⟩ := h
      have ha' : a ∈ rest := by
        rcases List.mem_cons.mp ha with rfl | hmem
        · exact absurd hown hx
        · exact hmem
      obtain ⟨front, owner, back, h1, h2, h3, h4⟩ := ih ⟨a, ha', hown⟩
      simp only [Bool.not_eq_true] at hx
      refine ⟨x :: front, owner, back, by simp [h1], ?_, h3, ?_⟩
      · intro b hmem
        rcases List.mem_cons.mp hmem with rfl | hm
        · exact hx
        · exact h2 b hm
      · simp only [List.find?_cons, hx]
        exact h4

/-! ### The result of `updateProperties` -/

theorem updateProperty_isSome (reported : List ReportedProperty) (old : Option Property)
    (definition : PropertyDefinition) (k : Kernel) :
    (DrmObject.updateProperty reported old definition k).1.isSome
      = (DrmObject.findReported reported definition).isSome := by
  unfold DrmObject.updateProperty
  cases DrmObject.findReported reported definition with
  | none => rfl
  | some found =>
    obtain ⟨value, res⟩ := found
    dsimp only
    cases old with
    | none => rfl
    | some property =>
      dsimp only
      cases res.isBlob <;> rfl

theorem requiredPresent_updatePropertiesLoop (reported : List ReportedProperty)
    (old : List (Option Property)) (definitions : List PropertyDefinition) (start : Nat)
    (k : Kernel) :
    DrmObject.requiredPresent definitions
        (DrmObject.updatePropertiesLoop reported old definitions start k).1
      = definitions.all (fun definition =>
          !(definition.required && (DrmObject.findReported reported definition).isNone)) := by
  induction definitions generalizing start k with
  | nil => rfl
  | cons definition rest ih =>
    unfold DrmObject.updatePropertiesLoop
    have hs := updateProperty_isSome reported (old.get? start).join definition k
    have ih' := ih (start + 1)
      (DrmObject.updateProperty reported (old.get? start).join definition k).2
    unfold DrmObject.requiredPresent at ih' ⊢
    simp only [List.zip_cons_cons, List.all_cons]
    rw [ih']
    congr 1
    cases hfound : DrmObject.findReported reported definition with
    | none =>
      rw [hfound] at hs
      cases hu : (DrmObject.updateProperty reported (old.get? start).join definition k).1 with
      | none => rfl
      | some x => rw [hu] at hs; cases hs
    | some found =>
      rw [hfound] at hs
      cases hu : (DrmObject.updateProperty reported (old.get? start).join definition k).1 with
      | none => rw [hu] at hs; cases hs
      | some x => rfl

/-! ### Which blobs an operation destroys -/

theorem destroyedBlobs_destroy (k : Kernel) (id : Nat) :
    destroyedBlobs (drmModeDestroyPropertyBlob k id) = destroyedBlobs k ++ [id] := by
  simp [destroyedBlobs, drmModeDestroyPropertyBlob, List.filterMap_append]

theorem destroyedBlobs_get (k : Kernel) (id : Nat) :
    destroyedBlobs (drmModeGetPropertyBlob k id).2 = destroyedBlobs k := by
  simp [destroyedBlobs, drmModeGetPropertyBlob, List.filterMap_append]

theorem destroyedBlobs_create (k : Kernel) (data : List Nat) :
    destroyedBlobs (drmModeCreatePropertyBlob k data).2 = destroyedBlobs k := by
  unfold drmModeCreatePropertyBlob
  split <;> simp [destroyedBlobs, List.filterMap_append]

theorem find_blob_id (blobs : List Blob) (id : Nat) (b : Blob)
    (h : blobs.find? (fun x => x.id == id) = some b) : b.id = id ∧ b ∈ blobs := by
  have h1 := List.find?_some h
  exact ⟨by simpa using h1, List.mem_of_find?_eq_some h⟩
theorem blobStep_refl (s : Property × Kernel) (h : BlobInvariant s) : BlobStep s s :=
  ⟨h, [], by simp, by simp⟩

theorem references_false_iff (p : Property) (id : Nat) :
    p.references id = false ↔
      p.pending ≠ id ∧ p.next ≠ id ∧ p.current ≠ id ∧
      (∀ b, p.pendingBlob = some b → b.id ≠ id) ∧
      (∀ b, p.nextBlob = some b → b.id ≠ id) ∧
      (∀ b, p.currentBlob = some b → b.id ≠ id) := by
  unfold Property.references
  cases p.pendingBlob <;> cases p.nextBlob <;> cases p.currentBlob <;>
    simp [Option.any] <;> tauto

theorem blobStep_storePendingBlob (p : Property) (k k1 : Kernel) (id : Nat)
    (h : BlobInvariant (p, k))
    (hfresh : k.freshBlobId ≤ k1.freshBlobId)
    (hblobs : ∀ b ∈ k1.blobs, b.id < k1.freshBlobId)
    (hdes : destroyedBlobs k1 = destroyedBlobs k)
    (hid : id < k1.freshBlobId) (hnew : id = 0 ∨ k.freshBlobId ≤ id) :
    BlobStep (p, k) (p.storePendingBlob id k1).2 := by
  obtain ⟨h1, h2, h3, h4, h5, h6, h7⟩ := h
  dsimp only at h1 h2 h3 h4 h5 h6 h7
  unfold Property.storePendingBlob
  by_cases hc : (p.pending != 0 && p.pending != p.current && p.pending != p.next) = true
  · rw [if_pos hc]
    simp only [Bool.and_eq_true, bne_iff_ne, ne_eq] at hc
    refine ⟨⟨?_, ?_, ?_, ?_, ?_, ?_, ?_⟩, [p.pending], ?_, ?_⟩
    · simpa [drmModeGetPropertyBlob, drmModeDestroyPropertyBlob] using hid
    · simp only [drmModeGetPropertyBlob, drmModeDestroyPropertyBlob]; omega
    · simp only [drmModeGetPropertyBlob, drmModeDestroyPropertyBlob]; omega
    · intro b hb
      simp only [drmModeGetPropertyBlob, drmModeDestroyPropertyBlob] at hb ⊢
      exact hblobs b (List.mem_of_mem_filter hb)
    · intro b hb
      simp only [drmModeGetPropertyBlob] at hb ⊢
      exact (find_blob_id _ _ _ hb).1
    · exact h6
    · exact h7
    · simp only [destroyedBlobs_get, destroyedBlobs_destroy, hdes]
    · intro x hx
      simp only [List.mem_singleton] at hx
      subst hx
      refine ⟨hc.1.1, ?_⟩
      rw [references_false_iff]
      refine ⟨?_, fun e => hc.2 e.symm, fun e => hc.1.2 e.symm, ?_, ?_, ?_⟩
      · simp only; rcases hnew with e | e
        · rw [e]; exact fun e2 => hc.1.1 e2.symm
        · omega
      · intro b hb
        simp only [drmModeGetPropertyBlob] at hb
        rw [(find_blob_id _ _ _ hb).1]
        rcases hnew with e | e
        · rw [e]; exact fun e2 => hc.1.1 e2.symm
        · omega
      · intro b hb e; exact hc.2 ((h6 b hb).symm.trans e).symm
      · intro b hb e; exact hc.1.2 ((h7 b hb).symm.trans e).symm
  · rw [if_neg hc]
    refine ⟨⟨?_, ?_, ?_, ?_, ?_, ?_, ?_⟩, [], ?_, by simp⟩
    · simpa [drmModeGetPropertyBlob] using hid
    · simp only [drmModeGetPropertyBlob]; omega
    · simp only [drmModeGetPropertyBlob]; omega
    · intro b hb
      simp only [drmModeGetPropertyBlob] at hb ⊢
      exact hblobs b hb
    · intro b hb
      simp only [drmModeGetPropertyBlob] at hb ⊢
      exact (find_blob_id _ _ _ hb).1
    · exact h6
    · exact h7
    · simp only [destroyedBlobs_get, hdes, List.append_nil]
theorem blobStep_setPendingBlob (p : Property) (k : Kernel) (blob : Option (List Nat))
    (h : BlobInvariant (p, k)) : BlobStep (p, k) (p.setPendingBlob blob k).2 := by
  unfold Property.setPendingBlob
  split_ifs
  · exact blobStep_refl _ h
  · exact blobStep_refl _ h
  · cases blob with
    | none =>
      exact blobStep_storePendingBlob p k k 0 h (Nat.le_refl _) h.2.2.2.1 rfl
        (Nat.lt_of_le_of_lt (Nat.zero_le _) h.1) (Or.inl rfl)
    | some bytes =>
      dsimp only
      by_cases hr : k.rejectBlobCreate = true
      · simp only [drmModeCreatePropertyBlob, hr, if_true]
        obtain ⟨h1, h2, h3, h4, h5, h6, h7⟩ := h
        exact ⟨⟨h1, h2, h3, h4, h5, h6, h7⟩, [], by simp [destroyedBlobs, List.filterMap_append],
          by simp⟩
      · simp only [drmModeCreatePropertyBlob, hr, if_false, Bool.false_eq_true]
        refine blobStep_storePendingBlob p k _ k.freshBlobId h (Nat.le_succ _) ?_ ?_
          (Nat.lt_succ_self _) (Or.inr (Nat.le_refl _))
        · intro b hb
          simp only [List.mem_append, List.mem_singleton] at hb
          rcases hb with hb | hb
          · exact Nat.lt_succ_of_lt (h.2.2.2.1 b hb)
          · rw [hb]; exact Nat.lt_succ_self _
        · simp [destroyedBlobs, List.filterMap_append]

theorem blobStep_commitPending (p : Property) (k : Kernel) (h : BlobInvariant (p, k)) :
    BlobStep (p, k) (p.commitPending k) := by
  obtain ⟨h1, h2, h3, h4, h5, h6, h7⟩ := h
  dsimp only at h1 h2 h3 h4 h5 h6 h7
  unfold Property.commitPending
  split_ifs with ha hb hc
  · exact blobStep_refl _ ⟨h1, h2, h3, h4, h5, h6, h7⟩
  · simp only [Bool.or_eq_true, beq_iff_eq, not_or] at ha
    simp only [Bool.and_eq_true, bne_iff_ne, ne_eq] at hc
    refine ⟨⟨h1, h1, h3, ?_, h5, h5, h7⟩, [p.next], by simp [destroyedBlobs_destroy], ?_⟩
    · intro b hb2; exact h4 b (List.mem_of_mem_filter hb2)
    · intro x hx
      simp only [List.mem_singleton] at hx
      subst hx
      refine ⟨hc.1, ?_⟩
      rw [references_false_iff]
      refine ⟨fun e => ha.2 e.symm, fun e => ha.2 e.symm, fun e => hc.2 e.symm, ?_, ?_, ?_⟩
      · intro b hb2 e; exact ha.2 ((h5 b hb2).symm.trans e).symm
      · intro b hb2 e; exact ha.2 ((h5 b hb2).symm.trans e).symm
      · intro b hb2 e; exact hc.2 ((h7 b hb2).symm.trans e).symm
  · exact ⟨⟨h1, h1, h3, h4, h5, h5, h7⟩, [], by simp, by simp⟩
  · simp only [Bool.or_eq_true, not_or, Bool.not_eq_true, Option.not_isSome,
      Option.isNone_iff_eq_none] at hb
    refine ⟨⟨h1, h1, h3, h4, h5, ?_, h7⟩, [], by simp, by simp⟩
    intro b hb2; simp only at hb2; rw [hb.2] at hb2; cases hb2

theorem blobStep_rollbackPending (p : Property) (k : Kernel) (h : BlobInvariant (p, k)) :
    BlobStep (p, k) (p.rollbackPending k) := by
  obtain ⟨h1, h2, h3, h4, h5, h6, h7⟩ := h
  dsimp only at h1 h2 h3 h4 h5 h6 h7
  unfold Property.rollbackPending
  split_ifs with ha hb hc
  · exact blobStep_refl _ ⟨h1, h2, h3, h4, h5, h6, h7⟩
  · simp only [Bool.or_eq_true, beq_iff_eq, not_or] at ha
    simp only [Bool.and_eq_true, bne_iff_ne, ne_eq] at hc
    refine ⟨⟨h2, h2, h3, ?_, h6, h6, h7⟩, [p.pending], by simp [destroyedBlobs_destroy], ?_⟩
    · intro b hb2; exact h4 b (List.mem_of_mem_filter hb2)
    · intro x hx
      simp only [List.mem_singleton] at hx
      subst hx
      refine ⟨hc.1, ?_⟩
      rw [references_false_iff]
      refine ⟨ha.2, ha.2, fun e => hc.2 e.symm, ?_, ?_, ?_⟩
      · intro b hb2 e; exact ha.2 ((h6 b hb2).symm.trans e)
      · intro b hb2 e; exact ha.2 ((h6 b hb2).symm.trans e)
      · intro b hb2 e; exact hc.2 ((h7 b hb2).symm.trans e).symm
  · exact ⟨⟨h2, h2, h3, h4, h6, h6, h7⟩, [], by simp, by simp⟩
  · simp only [Bool.or_eq_true, not_or, Bool.not_eq_true, Option.not_isSome,
      Option.isNone_iff_eq_none] at hb
    refine ⟨⟨h2, h2, h3, h4, ?_, h6, h7⟩, [], by simp, by simp⟩
    intro b hb2; simp only at hb2; rw [hb.1] at hb2; cases hb2

theorem blobStep_setCurrent_core (p : Property) (k k1 : Kernel) (blob : Option Blob)
    (blobId : Nat) (h : BlobInvariant (p, k))
    (hk1 : k1.blobs = k.blobs ∧ k1.freshBlobId = k.freshBlobId ∧
      destroyedBlobs k1 = destroyedBlobs k)
    (hlt : blobId < k.freshBlobId) (hptr : ∀ b, blob = some b → b.id = blobId) :
    BlobStep (p, k)
      ({ p with currentBlob := blob, current := blobId },
        if (p.current != 0 && p.current != p.pending && p.current != p.next
          && p.current != blobId) = true then
          drmModeDestroyPropertyBlob k1 p.current else k1) := by
  obtain ⟨h1, h2, h3, h4, h5, h6, h7⟩ := h
  dsimp only at h1 h2 h3 h4 h5 h6 h7
  obtain ⟨e1, e2, e3⟩ := hk1
  split_ifs with hc
  · simp only [Bool.and_eq_true, bne_iff_ne, ne_eq] at hc
    refine ⟨⟨?_, ?_, ?_, ?_, h5, h6, hptr⟩, [p.current], ?_, ?_⟩
    · simpa [drmModeDestroyPropertyBlob, e2] using h1
    · simpa [drmModeDestroyPropertyBlob, e2] using h2
    · simpa [drmModeDestroyPropertyBlob, e2] using hlt
    · intro b hb
      simp only [drmModeDestroyPropertyBlob, e1, e2] at hb ⊢
      exact h4 b (List.mem_of_mem_filter hb)
    · simp [destroyedBlobs_destroy, e3]
    · intro x hx
      simp only [List.mem_singleton] at hx
      subst hx
      refine ⟨hc.1.1.1, ?_⟩
      rw [references_false_iff]
      refine ⟨fun e => hc.1.1.2 e.symm, fun e => hc.1.2 e.symm, fun e => hc.2 e.symm, ?_, ?_, ?_⟩
      · intro b hb2 e; exact hc.1.1.2 ((h5 b hb2).symm.trans e).symm
      · intro b hb2 e; exact hc.1.2 ((h6 b hb2).symm.trans e).symm
      · intro b hb2 e; exact hc.2 ((hptr b hb2).symm.trans e).symm
  · refine ⟨⟨?_, ?_, ?_, ?_, h5, h6, hptr⟩, [], by simp [e3], by simp⟩
    · simpa [e2] using h1
    · simpa [e2] using h2
    · simpa [e2] using hlt
    · intro b hb; rw [e1] at hb; rw [e2]; exact h4 b hb

theorem blobStep_setCurrentBlob (p : Property) (k k1 : Kernel) (blob : Option Blob)
    (h : BlobInvariant (p, k))
    (hk1 : k1.blobs = k.blobs ∧ k1.freshBlobId = k.freshBlobId ∧
      destroyedBlobs k1 = destroyedBlobs k)
    (hblob : ∀ b, blob = some b → b.id < k.freshBlobId) :
    BlobStep (p, k) (p.setCurrentBlob blob k1) := by
  have hpos : 0 < k.freshBlobId := Nat.lt_of_le_of_lt (Nat.zero_le _) h.1
  unfold Property.setCurrentBlob
  cases blob with
  | some b0 =>
    exact blobStep_setCurrent_core p k k1 (some b0) b0.id h hk1 (hblob b0 rfl)
      (fun b hb => by cases hb; rfl)
  | none =>
    cases hcb : p.currentBlob with
    | some c =>
      exact blobStep_setCurrent_core p k k1 none 0 h hk1 hpos (fun b hb => by cases hb)
    | none =>
      obtain ⟨h1, h2, h3, h4, h5, h6, h7⟩ := h
      dsimp only at h1 h2 h3 h4 h5 h6 h7
      obtain ⟨e1, e2, e3⟩ := hk1
      refine ⟨⟨?_, ?_, ?_, ?_, h5, h6, h7⟩, [], by simp [e3], by simp⟩
      · simpa [e2] using h1
      · simpa [e2] using h2
      · simpa [e2] using h3
      · intro b hb; simp only [e1, e2] at hb ⊢; exact h4 b hb

theorem blobStep_commit (p : Property) (k : Kernel) (h : BlobInvariant (p, k)) :
    BlobStep (p, k) (p.commit k) := by
  unfold Property.commit
  split_ifs with ha hb
  · exact blobStep_refl _ h
  · refine blobStep_setCurrentBlob p k k p.pendingBlob h ⟨rfl, rfl, rfl⟩ ?_
    intro b hb2
    have := h.2.2.2.2.1 b hb2
    have h1 := h.1
    dsimp only at this h1
    omega
  · obtain ⟨h1, h2, h3, h4, h5, h6, h7⟩ := h
    dsimp only at h1 h2 h3 h4 h5 h6 h7
    simp only [Bool.or_eq_true, not_or, Bool.not_eq_true, Option.not_isSome,
      Option.isNone_iff_eq_none] at hb
    refine ⟨⟨h1, h2, h1, h4, h5, h6, ?_⟩, [], by simp, by simp⟩
    intro b hb2
    simp only [Property.setCurrent] at hb2
    rw [hb.2] at hb2; cases hb2

theorem blobStep_run (op : BlobOp) (s : Property × Kernel) (h : BlobInvariant s) :
    BlobStep s (op.run s) := by
  obtain ⟨p, k⟩ := s
  cases op with
  | setPendingBlob blob => exact blobStep_setPendingBlob p k blob h
  | commitPending => exact blobStep_commitPending p k h
  | rollbackPending => exact blobStep_rollbackPending p k h
  | commit => exact blobStep_commit p k h
  | setCurrentBlob value =>
    refine blobStep_setCurrentBlob p k _ _ h ⟨rfl, rfl, destroyedBlobs_get k value⟩ ?_
    intro b hb
    exact h.2.2.2.1 b (find_blob_id _ _ _ hb).2

theorem blobInvariant_runAll (ops : List BlobOp) (s : Property × Kernel)
    (h : BlobInvariant s) : BlobInvariant (BlobOp.runAll ops s) := by
  induction ops generalizing s with
  | nil => exact h
  | cons op rest ih => exact ih _ (blobStep_run op s h).1

/-! ### Commits come after their test -/

theorem mayFollow_of_other (prev : Option KernelCall) (call : KernelCall)
    (h : isOtherCall call = true) : mayFollow prev call = true := by
  cases call <;> simp_all [isOtherCall, isCommitAttempt, mayFollow]

theorem commitsTested_of_other (l : List KernelCall) (h : ∀ call ∈ l, isOtherCall call = true) :
    ∀ prev, commitsTested prev l = true := by
  induction l with
  | nil => intro prev; rfl
  | cons c rest ih =>
    intro prev
    simp only [commitsTested, Bool.and_eq_true]
    exact ⟨mayFollow_of_other prev c (h c (List.mem_cons_self _ _)),
      ih (fun call hc => h call (List.mem_cons_of_mem _ hc)) _⟩

theorem commitsTested_append (l1 l2 : List KernelCall) (prev : Option KernelCall)
    (h1 : commitsTested prev l1 = true) (h2 : ∀ q, commitsTested q l2 = true) :
    commitsTested prev (l1 ++ l2) = true := by
  induction l1 generalizing prev with
  | nil => exact h2 prev
  | cons c rest ih =>
    simp only [commitsTested, Bool.and_eq_true, List.cons_append] at h1 ⊢
    exact ⟨h1.1, ih _ h1.2⟩

theorem commitsTested_pair (prev : Option KernelCall) (req : List AtomicProperty) (flags : Nat)
    (accepted : Bool) :
    commitsTested prev [KernelCall.atomicCommit req (testFlags flags) true,
      KernelCall.atomicCommit req flags accepted] = true := by
  simp [commitsTested, mayFollow, testFlags, isTestOnly_test_flags]

theorem addsTested_refl (k : Kernel) : AddsTested k k :=
  ⟨[], by simp, fun _ => rfl⟩

theorem addsTested_trans {k1 k2 k3 : Kernel} (h12 : AddsTested k1 k2) (h23 : AddsTested k2 k3) :
    AddsTested k1 k3 := by
  obtain ⟨r1, e1, a1⟩ := h12
  obtain ⟨r2, e2, a2⟩ := h23
  exact ⟨r1 ++ r2, by rw [e2, e1, List.append_assoc],
    fun prev => commitsTested_append r1 r2 prev (a1 prev) a2⟩

theorem addsTested_of_other {k1 k2 : Kernel} (h : AddsOnly isOtherCall k1 k2) :
    AddsTested k1 k2 := by
  obtain ⟨r, e, a⟩ := h
  exact ⟨r, e, commitsTested_of_other r a⟩

theorem addsTested_commitsTested {k1 k2 : Kernel} (h : AddsTested k1 k2)
    (h1 : commitsTested none k1.calls = true) : commitsTested none k2.calls = true := by
  obtain ⟨r, e, a⟩ := h
  rw [e]
  exact commitsTested_append _ _ _ h1 a

theorem other_of_blob {k1 k2 : Kernel} (h : AddsOnly isBlobCall k1 k2) :
    AddsOnly isOtherCall k1 k2 :=
  h.mono (fun call hc => by simp [isOtherCall, isBlobCall_not_commitAttempt call hc])

theorem other_of_read {k1 k2 : Kernel} (h : AddsOnly isReadCall k1 k2) :
    AddsOnly isOtherCall k1 k2 :=
  h.mono (fun call hc => by simp [isOtherCall, isReadCall_not_commitAttempt call hc])

theorem other_countCalls {k1 k2 : Kernel} (h : AddsOnly isOtherCall k1 k2) :
    countCalls isCommitAttempt k2 = countCalls isCommitAttempt k1 :=
  h.countCalls_eq (fun call hc => by simpa [isOtherCall] using hc)

theorem other_drmModeSetCursor (io : Ioctls) (k : Kernel) (crtcId handle : Nat)
    (width height : Int) :
    AddsOnly isOtherCall k (drmModeSetCursor io k crtcId handle width height).2 :=
  ⟨[_], rfl, by simp [isOtherCall, isCommitAttempt]⟩

theorem other_drmModeMoveCursor (io : Ioctls) (k : Kernel) (crtcId : Nat) (x y : Int) :
    AddsOnly isOtherCall k (drmModeMoveCursor io k crtcId x y).2 :=
  ⟨[_], rfl, by simp [isOtherCall, isCommitAttempt]⟩

theorem other_drmModeConnectorSetProperty (io : Ioctls) (k : Kernel)
    (connectorId propertyId value : Nat) :
    AddsOnly isOtherCall k (drmModeConnectorSetProperty io k connectorId propertyId value).2 :=
  ⟨[_], rfl, by simp [isOtherCall, isCommitAttempt]⟩

theorem other_drmModeSetCrtc (io : Ioctls) (k : Kernel) (crtcId bufferId connectorId : Nat)
    (mode : List Nat) :
    AddsOnly isOtherCall k (drmModeSetCrtc io k crtcId bufferId connectorId mode).2 :=
  ⟨[_], rfl, by simp [isOtherCall, isCommitAttempt]⟩

theorem other_drmModePageFlip (io : Ioctls) (k : Kernel) (crtcId bufferId : Nat) :
    AddsOnly isOtherCall k (drmModePageFlip io k crtcId bufferId).2 :=
  ⟨[_], rfl, by simp [isOtherCall, isCommitAttempt]⟩

theorem other_drmModeCrtcSetGamma (io : Ioctls) (k : Kernel) (crtcId : Nat) (ramp : List Nat) :
    AddsOnly isOtherCall k (drmModeCrtcSetGamma io k crtcId ramp).2 :=
  ⟨[_], rfl, by simp [isOtherCall, isCommitAttempt]⟩

theorem other_drmModeObjectSetProperty (io : Ioctls) (k : Kernel)
    (objectId propertyId value : Nat) :
    AddsOnly isOtherCall k (drmModeObjectSetProperty io k objectId propertyId value).2 :=
  ⟨[_], rfl, by simp [isOtherCall, isCommitAttempt]⟩
theorem other_setCursorLoop (io : Ioctls) (handle : Nat) (size : Int × Int)
    (crtcs : List DrmCrtc) (k : Kernel) :
    AddsOnly isOtherCall k (DrmPipeline.setCursorLoop io handle size crtcs k).2 := by
  induction crtcs generalizing k with
  | nil => exact AddsOnly.refl _ _
  | cons crtc rest ih =>
    unfold DrmPipeline.setCursorLoop
    split
    · exact (other_drmModeSetCursor io k crtc.id handle size.1 size.2).trans (ih _)
    · exact other_drmModeSetCursor io k crtc.id handle size.1 size.2

theorem other_setCursor (m : Members) (io : Ioctls) (p : DrmPipeline)
    (buffer : Option DrmBuffer) (k : Kernel) :
    AddsOnly isOtherCall k (DrmPipeline.setCursor m io p buffer k).2.2 := by
  unfold DrmPipeline.setCursor
  split
  · exact AddsOnly.refl _ _
  · dsimp only
    split <;> exact other_setCursorLoop _ _ _ _ _

theorem other_moveCursorLoop (io : Ioctls) (pos : Int × Int) (crtcs : List DrmCrtc)
    (k : Kernel) : AddsOnly isOtherCall k (DrmPipeline.moveCursorLoop io pos crtcs k).2 := by
  induction crtcs generalizing k with
  | nil => exact AddsOnly.refl _ _
  | cons crtc rest ih =>
    unfold DrmPipeline.moveCursorLoop
    split
    · exact (other_drmModeMoveCursor io k crtc.id pos.1 pos.2).trans (ih _)
    · exact other_drmModeMoveCursor io k crtc.id pos.1 pos.2

theorem other_moveCursor (io : Ioctls) (p : DrmPipeline) (pos : Int × Int) (k : Kernel) :
    AddsOnly isOtherCall k (DrmPipeline.moveCursor io p pos k).2.2 := by
  unfold DrmPipeline.moveCursor
  split
  · exact AddsOnly.refl _ _
  · split <;> exact other_moveCursorLoop _ _ _ _

theorem other_clearCursors (io : Ioctls) (crtcs : List DrmCrtc) (k : Kernel) :
    AddsOnly isOtherCall k (DrmPipeline.clearCursors io crtcs k) := by
  induction crtcs generalizing k with
  | nil => exact AddsOnly.refl _ _
  | cons crtc rest ih =>
    unfold DrmPipeline.clearCursors
    exact (other_drmModeSetCursor io k crtc.id 0 0 0).trans (ih _)

theorem other_updateProperties (m : Members) (io : Ioctls) (caps : GpuCaps) (p : DrmPipeline)
    (k : Kernel) : AddsOnly isOtherCall k (p.updateProperties m io caps k).2 :=
  other_of_read (updateProperties_counts m io caps p k).2

theorem other_rollbackAll (p : DrmPipeline) (k : Kernel) :
    AddsOnly isOtherCall k (DrmPipeline.rollbackAll p k).2 :=
  other_of_blob (addsBlob_rollbackAll p k)

theorem other_testPipelines (d : Decls) (drv : Driver) (caps : GpuCaps) (k : Kernel)
    (l : List DrmPipeline) (r : Bool × List DrmPipeline × Kernel)
    (h : DrmPipeline.testPipelines d drv caps k l = some r) : AddsOnly isOtherCall k r.2.2 := by
  rcases testPipelines_trace d drv caps k l r h with ⟨hk, -⟩ | ⟨req, flags, hf, hk⟩
  · rw [hk]; exact AddsOnly.refl _ _
  · rw [hk]
    exact ⟨[_], rfl, by simp [isOtherCall, isCommitAttempt, hf]⟩

theorem other_atomicTest (m : Members) (io : Ioctls) (caps : GpuCaps) (b : Batch)
    (p : DrmPipeline) (k : Kernel) (r : Bool × DrmPipeline × Batch × Kernel)
    (h : DrmPipeline.atomicTest m io caps b p k = some r) : AddsOnly isOtherCall k r.2.2.2 := by
  unfold DrmPipeline.atomicTest at h
  cases ht : DrmPipeline.testPipelines m.toDecls io.toDriver caps k (b.pipelines p) with
  | none => rw [ht] at h; cases h
  | some t =>
    have hc := other_testPipelines _ _ _ _ _ t ht
    obtain ⟨result, l, k1⟩ := t
    rw [ht] at h
    dsimp only at h hc
    cases result with
    | true =>
      simp only [if_true, Option.some.injEq] at h
      subst h
      exact hc.trans (other_of_blob (addsOnly_forAllObjects _ _ addsBlob_object_commitPending _ k1))
    | false =>
      simp only [Bool.false_eq_true, if_false, Option.some.injEq] at h
      subst h
      exact hc.trans (other_rollbackAll _ k1)

theorem other_modesetLegacy (m : Members) (io : Ioctls) (p : DrmPipeline) (k : Kernel)
    (wantedMode : Int) (r : Bool × DrmPipeline × Kernel)
    (h : DrmPipeline.modesetLegacy m io p k wantedMode = some r) :
    AddsOnly isOtherCall k r.2.2 := by
  unfold DrmPipeline.modesetLegacy at h
  cases hc : p.connectors with
  | nil => rw [hc] at h; cases h
  | cons conn others =>
    rw [hc] at h
    dsimp only at h
    split at h
    · cases h
    · cases h; exact AddsOnly.refl _ _
    · split at h
      · split_ifs at h <;> cases h <;> exact other_drmModeSetCrtc _ _ _ _ _ _
      · cases h

theorem other_test (m : Members) (io : Ioctls) (caps : GpuCaps) (b : Batch)
    (p : DrmPipeline) (k : Kernel) (r : Bool × DrmPipeline × Batch × Kernel)
    (h : DrmPipeline.test m io caps b p k = some r) : AddsOnly isOtherCall k r.2.2.2 := by
  unfold DrmPipeline.test at h
  split_ifs at h with h1 h2
  · split at h
    · cases h
    · cases h; exact AddsOnly.refl _ _
    · exact other_atomicTest m io caps b _ k r h
  · cases hm : DrmPipeline.modesetLegacy m io p k 0 with
    | none => rw [hm] at h; cases h
    | some t =>
      rw [hm] at h
      obtain ⟨t1, t2, t3⟩ := t
      cases h
      exact other_modesetLegacy m io p k 0 _ hm
  · cases h; exact AddsOnly.refl _ _
theorem other_setValuesAndTest (m : Members) (io : Ioctls) (caps : GpuCaps) (b : Batch)
    (p : DrmPipeline) (k : Kernel) (wantedMode : Int) (r : Bool × DrmPipeline × Batch × Kernel)
    (h : DrmPipeline.setValuesAndTest m io caps b p k wantedMode = some r) :
    AddsOnly isOtherCall k r.2.2.2 := by
  unfold DrmPipeline.setValuesAndTest at h
  cases hs : DrmPipeline.setValues m wantedMode (List.range p.connectors.length) p k with
  | none => rw [hs] at h; cases h
  | some s =>
    obtain ⟨p1, k1⟩ := s
    rw [hs] at h
    dsimp only at h
    exact (other_of_blob (setValues_spec m wantedMode _ p p1 k k1 hs).2).trans
      (other_test m io caps b p1 k1 r h)

theorem other_rollbackPlanes (planes : List DrmPlane) (k : Kernel) :
    AddsOnly isOtherCall k (DrmPipeline.rollbackPlanes planes k).2 := by
  induction planes generalizing k with
  | nil => exact AddsOnly.refl _ _
  | cons plane rest ih =>
    unfold DrmPipeline.rollbackPlanes
    exact (other_of_blob (addsBlob_object_rollbackPending plane.toDrmObject k)).trans (ih _)

theorem other_setPendingTransformation (m : Members) (caps : GpuCaps) (p : DrmPipeline)
    (transformation : Nat) (k : Kernel) :
    AddsOnly isOtherCall k (DrmPipeline.setPendingTransformation m caps p transformation k).2.2 := by
  unfold DrmPipeline.setPendingTransformation
  split_ifs
  · exact AddsOnly.refl _ _
  · exact AddsOnly.refl _ _
  · exact AddsOnly.refl _ _
  · exact other_rollbackPlanes _ _

theorem other_modeset (m : Members) (io : Ioctls) (caps : GpuCaps) (b : Batch)
    (p : DrmPipeline) (k : Kernel) (wantedMode : Int) (r : Bool × DrmPipeline × Batch × Kernel)
    (h : DrmPipeline.modeset m io caps b p k wantedMode = some r) :
    AddsOnly isOtherCall k r.2.2.2 := by
  unfold DrmPipeline.modeset at h
  split_ifs at h with hatomic
  · cases hs : DrmPipeline.setValuesAndTest m io caps b p k wantedMode with
    | none => rw [hs] at h; cases h
    | some s =>
      have h1 := other_setValuesAndTest m io caps b p k wantedMode s hs
      obtain ⟨ok, p1, b1, k1⟩ := s
      rw [hs] at h
      dsimp only at h1
      cases ok with
      | true => cases h; exact h1
      | false =>
        dsimp only at h
        split_ifs at h with h2 h3
        · exact h1.trans ((other_setPendingTransformation m caps p1 Rotate0 k1).trans
            (other_setValuesAndTest m io caps b1 _ _ wantedMode r h))
        · cases h
          exact h1.trans (other_setPendingTransformation m caps p1 Rotate0 k1)
        · cases h; exact h1
  · cases hm : DrmPipeline.modesetLegacy m io p k wantedMode with
    | none => rw [hm] at h; cases h
    | some t =>
      rw [hm] at h
      obtain ⟨t1, t2, t3⟩ := t
      cases h
      exact other_modesetLegacy m io p k wantedMode _ hm

theorem other_stageActive (m : Members) (active : Bool) (l : List Nat) (p p1 : DrmPipeline)
    (k k1 : Kernel) (h : DrmPipeline.stageActive m active l p k = some (p1, k1)) :
    AddsOnly isOtherCall k k1 := by
  induction l generalizing p k with
  | nil =>
    simp only [DrmPipeline.stageActive, Option.some.injEq, Prod.mk.injEq] at h
    rw [← h.2]
    exact AddsOnly.refl _ _
  | cons i rest ih =>
    unfold DrmPipeline.stageActive at h
    split at h
    · exact (other_of_blob (addsBlob_object_setPendingBlob _ _ _ _)).trans (ih _ _ h)
    · cases h

theorem other_stageGamma (m : Members) (lut : List Nat) (crtcs : List DrmCrtc) (k : Kernel) :
    AddsOnly isOtherCall k (DrmPipeline.stageGamma m lut crtcs k).2.2 := by
  induction crtcs generalizing k with
  | nil => exact AddsOnly.refl _ _
  | cons crtc rest ih =>
    unfold DrmPipeline.stageGamma
    split
    · exact (other_of_blob (addsBlob_object_setPendingBlob _ _ _ _)).trans (ih _)
    · exact other_of_blob (addsBlob_object_setPendingBlob _ _ _ _)

theorem other_setGammaLegacy (io : Ioctls) (ramp : GammaRamp) (crtcs : List DrmCrtc)
    (k : Kernel) : AddsOnly isOtherCall k (DrmPipeline.setGammaLegacy io ramp crtcs k).2 := by
  induction crtcs generalizing k with
  | nil => exact AddsOnly.refl _ _
  | cons crtc rest ih =>
    unfold DrmPipeline.setGammaLegacy
    split
    · exact (other_drmModeCrtcSetGamma _ _ _ _).trans (ih _)
    · exact other_drmModeCrtcSetGamma _ _ _ _

theorem other_setGammaRamp (m : Members) (io : Ioctls) (caps : GpuCaps) (b : Batch)
    (p : DrmPipeline) (k : Kernel) (ramp : GammaRamp) (r : Bool × DrmPipeline × Batch × Kernel)
    (h : DrmPipeline.setGammaRamp m io caps b p k ramp = some r) :
    AddsOnly isOtherCall k r.2.2.2 := by
  unfold DrmPipeline.setGammaRamp at h
  split_ifs at h
  · exact (other_stageGamma m _ p.crtcs k).trans (other_test m io caps b _ _ r h)
  · cases h; exact other_stageGamma m _ p.crtcs k
  · cases h; exact other_setGammaLegacy io ramp p.crtcs k

theorem other_setTransformation (m : Members) (io : Ioctls) (caps : GpuCaps) (b : Batch)
    (p : DrmPipeline) (k : Kernel) (transformation : Nat)
    (r : Bool × DrmPipeline × Batch × Kernel)
    (h : DrmPipeline.setTransformation m io caps b p k transformation = some r) :
    AddsOnly isOtherCall k r.2.2.2 := by
  unfold DrmPipeline.setTransformation at h
  split_ifs at h
  · exact (other_setPendingTransformation m caps p transformation k).trans
      (other_test m io caps b _ _ r h)
  · cases h; exact other_setPendingTransformation m caps p transformation k

theorem other_setSyncMode (m : Members) (io : Ioctls) (caps : GpuCaps) (b : Batch)
    (p : DrmPipeline) (k : Kernel) (syncMode : SyncMode)
    (r : Bool × DrmPipeline × Batch × Kernel)
    (h : DrmPipeline.setSyncMode m io caps b p k syncMode = some r) :
    AddsOnly isOtherCall k r.2.2.2 := by
  unfold DrmPipeline.setSyncMode at h
  generalize (if (syncMode == SyncMode.Adaptive) = true then (1 : Nat) else 0) = vrr at h
  split_ifs at h
  · cases h; exact AddsOnly.refl _ _
  · exact other_test m io caps b _ _ r h
  · cases h; exact AddsOnly.refl _ _
  · split at h
    · cases h
    · split at h
      · cases h; exact AddsOnly.refl _ _
      · cases h; exact other_drmModeObjectSetProperty _ _ _ _ _

theorem other_setOverscan (m : Members) (io : Ioctls) (caps : GpuCaps) (b : Batch)
    (p : DrmPipeline) (k : Kernel) (overscan : Nat) (r : Bool × DrmPipeline × Batch × Kernel)
    (h : DrmPipeline.setOverscan m io caps b p k overscan = some r) :
    AddsOnly isOtherCall k r.2.2.2 := by
  unfold DrmPipeline.setOverscan at h
  split_ifs at h
  · cases h; exact AddsOnly.refl _ _
  · split at h
    · cases h
    · split_ifs at h
      · cases h; exact AddsOnly.refl _ _
      · exact other_test m io caps b _ _ r h
theorem tested_doAtomicCommit (m : Members) (io : Ioctls) (caps : GpuCaps) (p : DrmPipeline)
    (k : Kernel) (req : List AtomicProperty) (flags : Nat) (r : Bool × DrmPipeline × Kernel)
    (h : DrmPipeline.doAtomicCommit m io caps p k req flags false = some r) :
    AddsTested k r.2.2 := by
  unfold DrmPipeline.doAtomicCommit at h
  cases hp : p.populateAtomicValues m.toDecls io.toDriver caps req flags with
  | none => rw [hp] at h; cases h
  | some v =>
    obtain ⟨populated, p1, req1, flags1⟩ := v
    rw [hp] at h
    dsimp only at h
    cases populated with
    | false =>
      simp only [Bool.false_eq_true, if_false, Bool.and_false, Bool.not_false] at h
      cases h
      exact addsTested_of_other (other_rollbackAll p1 k)
    | true =>
      simp only [if_true, Bool.not_false, Bool.true_and] at h
      cases ht : io.atomicCommit req1 ((flags1 &&& 0xFFFFFFFE) ||| DRM_MODE_ATOMIC_TEST_ONLY) with
      | false =>
        simp only [drmModeAtomicCommit, ht, Bool.false_eq_true, if_false] at h
        cases h
        refine addsTested_of_other (AddsOnly.trans ?_ (other_rollbackAll p1 _))
        exact ⟨[_], rfl, by simp [isOtherCall, isCommitAttempt, isTestOnly_test_flags]⟩
      | true =>
        have hpair : AddsTested k
            { k with calls := k.calls ++
              [KernelCall.atomicCommit req1 (testFlags flags1) true,
                KernelCall.atomicCommit req1 flags1 (io.atomicCommit req1 flags1)] } :=
          ⟨_, rfl, fun prev => commitsTested_pair prev req1 flags1 _⟩
        cases hc : io.atomicCommit req1 flags1 with
        | false =>
          simp only [drmModeAtomicCommit, ht, hc, Bool.false_eq_true, if_false, if_true] at h
          cases h
          rw [hc] at hpair
          refine addsTested_trans ?_ (addsTested_of_other (other_rollbackAll p1 _))
          obtain ⟨rest, e, a⟩ := hpair
          exact ⟨rest, by simpa [testFlags] using e, a⟩
        | true =>
          simp only [drmModeAtomicCommit, ht, hc, if_true] at h
          cases h
          rw [hc] at hpair
          dsimp only
          refine addsTested_trans ?_
            (addsTested_of_other (other_of_blob
              (AddsOnly.trans (addsOnly_forAllObjects _ _ addsBlob_object_commitPending _ _)
                (addsOnly_forAllObjects _ _ addsBlob_object_commit _ _))))
          obtain ⟨rest, e, a⟩ := hpair
          exact ⟨rest, by simpa [testFlags] using e, a⟩

theorem tested_atomicCommit (m : Members) (io : Ioctls) (caps : GpuCaps) (p : DrmPipeline)
    (k : Kernel) (r : Bool × DrmPipeline × Kernel)
    (h : DrmPipeline.atomicCommit m io caps p k = some r) : AddsTested k r.2.2 := by
  unfold DrmPipeline.atomicCommit at h
  split_ifs at h
  · cases h; exact addsTested_refl _
  · exact tested_doAtomicCommit m io caps p k [] 0 r h

theorem tested_presentAtomic (m : Members) (io : Ioctls) (caps : GpuCaps) (p : DrmPipeline)
    (k : Kernel) (r : Bool × DrmPipeline × Kernel)
    (h : DrmPipeline.presentAtomic m io caps p k = some r) : AddsTested k r.2.2 := by
  unfold DrmPipeline.presentAtomic at h
  cases hc : DrmPipeline.atomicCommit m io caps p k with
  | none => rw [hc] at h; cases h
  | some c =>
    have h1 := tested_atomicCommit m io caps p k c hc
    obtain ⟨ok, p1, k1⟩ := c
    rw [hc] at h
    cases ok with
    | true => cases h; exact h1
    | false =>
      dsimp only at h h1
      exact addsTested_trans h1 (addsTested_trans
        (addsTested_of_other (other_updateProperties m io caps p1 k1))
        (tested_atomicCommit m io caps _ _ r h))

theorem other_presentLegacy (m : Members) (io : Ioctls) (p : DrmPipeline) (k : Kernel)
    (r : Bool × DrmPipeline × Kernel) (h : DrmPipeline.presentLegacy m io p k = some r) :
    AddsOnly isOtherCall k r.2.2 := by
  unfold DrmPipeline.presentLegacy at h
  split at h
  · cases h
  · rename_i current hcur
    dsimp only at h
    generalize hneeds : (match current with
      | none => true
      | some buffer => m.needsModeChange buffer p.primaryBuffer) = needs at h
    have hafter : ∀ t, (if needs = true then
          match p.connectors.head? with
          | none => none
          | some conn => DrmPipeline.modesetLegacy m io p k (m.modeIndex conn)
        else some (true, p, k)) = some t → AddsOnly isOtherCall k t.2.2 := by
      intro t ht
      split_ifs at ht
      · split at ht
        · cases ht
        · exact other_modesetLegacy m io p k _ t ht
      · cases ht; exact AddsOnly.refl _ _
    generalize (if needs = true then
          match p.connectors.head? with
          | none => none
          | some conn => DrmPipeline.modesetLegacy m io p k (m.modeIndex conn)
        else some (true, p, k)) = after at h hafter
    cases after with
    | none => cases h
    | some t =>
      have h1 := hafter t rfl
      obtain ⟨ok, p1, k1⟩ := t
      cases ok with
      | false => cases h; exact h1
      | true =>
        dsimp only at h h1
        split at h
        · cases h
        · cases h
          exact h1.trans (other_drmModePageFlip _ _ _ _)

theorem tested_present (m : Members) (io : Ioctls) (caps : GpuCaps) (p : DrmPipeline)
    (buffer : Option DrmBuffer) (k : Kernel) (r : Bool × DrmPipeline × Kernel)
    (h : DrmPipeline.present m io caps p buffer k = some r) : AddsTested k r.2.2 := by
  unfold DrmPipeline.present at h
  split_ifs at h
  · cases h; exact addsTested_refl _
  · exact tested_presentAtomic m io caps _ k r h
  · exact addsTested_of_other (other_presentLegacy m io _ k r h)

theorem other_applyActive_legacy (m : Members) (io : Ioctls) (caps : GpuCaps) (b : Batch)
    (p : DrmPipeline) (k : Kernel) (active : Bool) (r : Bool × DrmPipeline × Batch × Kernel)
    (hat : caps.atomicModeSetting = false)
    (h : DrmPipeline.applyActive m io caps b p k active = some r) :
    AddsOnly isOtherCall k r.2.2.2 := by
  unfold DrmPipeline.applyActive at h
  simp only [hat, Bool.false_eq_true, if_false] at h
  split at h
  · cases h
  · split at h
    · cases h; exact AddsOnly.refl _ _
    · cases h; exact other_drmModeConnectorSetProperty _ _ _ _ _

theorem other_applyActive_true (m : Members) (io : Ioctls) (caps : GpuCaps) (b : Batch)
    (p : DrmPipeline) (k : Kernel) (r : Bool × DrmPipeline × Batch × Kernel)
    (h : DrmPipeline.applyActive m io caps b p k true = some r) :
    AddsOnly isOtherCall k r.2.2.2 := by
  cases hat : caps.atomicModeSetting with
  | false => exact other_applyActive_legacy m io caps b p k true r hat h
  | true =>
    unfold DrmPipeline.applyActive at h
    simp only [hat, if_true] at h
    split at h
    · cases h
    · rename_i p1 k1 hs
      have h0 := other_stageActive m true _ _ p1 k k1 hs
      cases ht : DrmPipeline.test m io caps b p1 k1 with
      | none => rw [ht] at h; cases h
      | some t =>
        have h1 := other_test m io caps b p1 k1 t ht
        obtain ⟨ok, p2, b2, k2⟩ := t
        rw [ht] at h
        cases ok with
        | true => cases h; exact h0.trans h1
        | false =>
          dsimp only at h h1
          exact h0.trans (h1.trans ((other_updateProperties m io caps p2 k2).trans
            (other_test m io caps b2 _ _ r h)))

theorem tested_applyActive (m : Members) (io : Ioctls) (caps : GpuCaps) (b : Batch)
    (p : DrmPipeline) (k : Kernel) (active : Bool) (r : Bool × DrmPipeline × Batch × Kernel)
    (h : DrmPipeline.applyActive m io caps b p k active = some r) : AddsTested k r.2.2.2 := by
  cases active with
  | true => exact addsTested_of_other (other_applyActive_true m io caps b p k r h)
  | false =>
    cases hat : caps.atomicModeSetting with
    | false => exact addsTested_of_other (other_applyActive_legacy m io caps b p k false r hat h)
    | true =>
      unfold DrmPipeline.applyActive at h
      simp only [hat, if_true, Bool.false_eq_true, if_false] at h
      split at h
      · cases h
      · rename_i p1 k1 hs
        have h0 := other_stageActive m false _ _ p1 k k1 hs
        cases hc : DrmPipeline.atomicCommit m io caps p1 k1 with
        | none => rw [hc] at h; cases h
        | some c =>
          have h1 := tested_atomicCommit m io caps p1 k1 c hc
          rw [hc] at h
          obtain ⟨c1, c2, c3⟩ := c
          cases h
          exact addsTested_trans (addsTested_of_other h0) h1

theorem setActive_trace (m : Members) (io : Ioctls) (caps : GpuCaps) (b : Batch)
    (p : DrmPipeline) (k : Kernel) (active : Bool) (r : Bool × DrmPipeline × Batch × Kernel)
    (h : DrmPipeline.setActive m io caps b p k active = some r) :
    ∃ t, DrmPipeline.applyActive m io caps b p
        (if (p.active && !active) = true then DrmPipeline.clearCursors io p.crtcs k else k) active
        = some t ∧ AddsOnly isOtherCall t.2.2.2 r.2.2.2 := by
  unfold DrmPipeline.setActive at h
  cases ha : DrmPipeline.applyActive m io caps b p
      (if (p.active && !active) = true then DrmPipeline.clearCursors io p.crtcs k else k)
      active with
  | none => rw [ha] at h; cases h
  | some t =>
    rw [ha] at h
    obtain ⟨t1, t2, t3, t4⟩ := t
    dsimp only at h
    refine ⟨_, rfl, ?_⟩
    generalize (if t1 = true then t2.active else p.active) = act at h
    split_ifs at h
    · cases h; exact other_setCursor _ _ _ _ _
    · cases h; exact AddsOnly.refl _ _

theorem other_setActive_true (m : Members) (io : Ioctls) (caps : GpuCaps) (b : Batch)
    (p : DrmPipeline) (k : Kernel) (r : Bool × DrmPipeline × Batch × Kernel)
    (h : DrmPipeline.setActive m io caps b p k true = some r) :
    AddsOnly isOtherCall k r.2.2.2 := by
  obtain ⟨t, ht, h2⟩ := setActive_trace m io caps b p k true r h
  simp only [Bool.not_true, Bool.and_false, Bool.false_eq_true, if_false] at ht
  exact (other_applyActive_true m io caps b p k t ht).trans h2

theorem tested_setActive (m : Members) (io : Ioctls) (caps : GpuCaps) (b : Batch)
    (p : DrmPipeline) (k : Kernel) (active : Bool) (r : Bool × DrmPipeline × Batch × Kernel)
    (h : DrmPipeline.setActive m io caps b p k active = some r) : AddsTested k r.2.2.2 := by
  obtain ⟨t, ht, h2⟩ := setActive_trace m io caps b p k active r h
  have h1 := tested_applyActive m io caps b p _ active t ht
  refine addsTested_trans (addsTested_of_other ?_) (addsTested_trans h1 (addsTested_of_other h2))
  split_ifs
  · exact other_clearCursors io p.crtcs k
  · exact AddsOnly.refl _ _
theorem tested_run (m : Members) (io : Ioctls) (caps : GpuCaps) (call : PipelineCall)
    (s r : DrmPipeline × Batch × Kernel) (h : call.run m io caps s = some r) :
    AddsTested s.2.2 r.2.2 := by
  cases call with
  | present buffer =>
    simp only [PipelineCall.run, Option.map_eq_some'] at h
    obtain ⟨t, ht, e⟩ := h
    rw [← e]
    exact tested_present m io caps s.1 buffer s.2.2 t ht
  | test =>
    simp only [PipelineCall.run, Option.map_eq_some'] at h
    obtain ⟨t, ht, e⟩ := h
    rw [← e]
    exact addsTested_of_other (other_test m io caps s.2.1 s.1 s.2.2 t ht)
  | modeset wantedMode =>
    simp only [PipelineCall.run, Option.map_eq_some'] at h
    obtain ⟨t, ht, e⟩ := h
    rw [← e]
    exact addsTested_of_other (other_modeset m io caps s.2.1 s.1 s.2.2 wantedMode t ht)
  | setCursor buffer =>
    simp only [PipelineCall.run, Option.some.injEq] at h
    rw [← h]
    exact addsTested_of_other (other_setCursor m io s.1 buffer s.2.2)
  | moveCursor pos =>
    simp only [PipelineCall.run, Option.some.injEq] at h
    rw [← h]
    exact addsTested_of_other (other_moveCursor io s.1 pos s.2.2)
  | setActive active =>
    simp only [PipelineCall.run, Option.map_eq_some'] at h
    obtain ⟨t, ht, e⟩ := h
    rw [← e]
    exact tested_setActive m io caps s.2.1 s.1 s.2.2 active t ht
  | setGammaRamp ramp =>
    simp only [PipelineCall.run, Option.map_eq_some'] at h
    obtain ⟨t, ht, e⟩ := h
    rw [← e]
    exact addsTested_of_other (other_setGammaRamp m io caps s.2.1 s.1 s.2.2 ramp t ht)
  | setTransformation transformation =>
    simp only [PipelineCall.run, Option.map_eq_some'] at h
    obtain ⟨t, ht, e⟩ := h
    rw [← e]
    exact addsTested_of_other
      (other_setTransformation m io caps s.2.1 s.1 s.2.2 transformation t ht)
  | setSyncMode syncMode =>
    simp only [PipelineCall.run, Option.map_eq_some'] at h
    obtain ⟨t, ht, e⟩ := h
    rw [← e]
    exact addsTested_of_other (other_setSyncMode m io caps s.2.1 s.1 s.2.2 syncMode t ht)
  | setOverscan overscan =>
    simp only [PipelineCall.run, Option.map_eq_some'] at h
    obtain ⟨t, ht, e⟩ := h
    rw [← e]
    exact addsTested_of_other (other_setOverscan m io caps s.2.1 s.1 s.2.2 overscan t ht)
  | updateProperties =>
    simp only [PipelineCall.run, Option.some.injEq] at h
    rw [← h]
    exact addsTested_of_other (other_updateProperties m io caps s.1 s.2.2)

theorem other_run (m : Members) (io : Ioctls) (caps : GpuCaps) (call : PipelineCall)
    (s r : DrmPipeline × Batch × Kernel) (hc : call.stagesOnly = true)
    (h : call.run m io caps s = some r) : AddsOnly isOtherCall s.2.2 r.2.2 := by
  cases call with
  | present buffer => cases hc
  | test => cases hc
  | modeset wantedMode =>
    simp only [PipelineCall.run, Option.map_eq_some'] at h
    obtain ⟨t, ht, e⟩ := h
    rw [← e]
    exact other_modeset m io caps s.2.1 s.1 s.2.2 wantedMode t ht
  | setCursor buffer => cases hc
  | moveCursor pos => cases hc
  | setActive active =>
    simp only [PipelineCall.stagesOnly] at hc
    subst hc
    simp only [PipelineCall.run, Option.map_eq_some'] at h
    obtain ⟨t, ht, e⟩ := h
    rw [← e]
    exact other_setActive_true m io caps s.2.1 s.1 s.2.2 t ht
  | setGammaRamp ramp =>
    simp only [PipelineCall.run, Option.map_eq_some'] at h
    obtain ⟨t, ht, e⟩ := h
    rw [← e]
    exact other_setGammaRamp m io caps s.2.1 s.1 s.2.2 ramp t ht
  | setTransformation transformation =>
    simp only [PipelineCall.run, Option.map_eq_some'] at h
    obtain ⟨t, ht, e⟩ := h
    rw [← e]
    exact other_setTransformation m io caps s.2.1 s.1 s.2.2 transformation t ht
  | setSyncMode syncMode =>
    simp only [PipelineCall.run, Option.map_eq_some'] at h
    obtain ⟨t, ht, e⟩ := h
    rw [← e]
    exact other_setSyncMode m io caps s.2.1 s.1 s.2.2 syncMode t ht
  | setOverscan overscan =>
    simp only [PipelineCall.run, Option.map_eq_some'] at h
    obtain ⟨t, ht, e⟩ := h
    rw [← e]
    exact other_setOverscan m io caps s.2.1 s.1 s.2.2 overscan t ht
  | updateProperties => cases hc

theorem tested_runAll (m : Members) (io : Ioctls) (caps : GpuCaps) (calls : List PipelineCall)
    (s r : DrmPipeline × Batch × Kernel) (h : PipelineCall.runAll m io caps calls s = some r) :
    AddsTested s.2.2 r.2.2 := by
  induction calls generalizing s with
  | nil =>
    simp only [PipelineCall.runAll, Option.some.injEq] at h
    rw [h]
    exact addsTested_refl _
  | cons call rest ih =>
    unfold PipelineCall.runAll at h
    cases h1 : call.run m io caps s with
    | none => rw [h1] at h; cases h
    | some s1 =>
      rw [h1] at h
      exact addsTested_trans (tested_run m io caps call s s1 h1) (ih s1 h)

theorem atomicCommit_test_rejected (m : Members) (io : Ioctls) (caps : GpuCaps)
    (p p1 : DrmPipeline) (k : Kernel) (req1 : List AtomicProperty) (flags1 : Nat)
    (halloc : io.atomicAlloc = true)
    (hp : p.populateAtomicValues m.toDecls io.toDriver caps [] 0 = some (true, p1, req1, flags1))
    (ht : io.atomicCommit req1 (testFlags flags1) = false) :
    DrmPipeline.atomicCommit m io caps p k
      = some (false,
          DrmPipeline.rollbackAll p1
            { k with calls := k.calls ++ [KernelCall.atomicCommit req1 (testFlags flags1) false] }) := by
  unfold DrmPipeline.atomicCommit DrmPipeline.doAtomicCommit
  unfold testFlags at ht
  simp [halloc, hp, drmModeAtomicCommit, ht, testFlags]

/-! ### The claims -/

/-- C2, the comparator at the failing input: connector 31 and plane 62 are
currently set to CRTC 52, so the one-pipeline combination (31, 52, 62) is
connected.  The comparator places it before the two-pipeline combination
(31, 51, 62), (32, 52, 61), which has more pipelines; the list returned for
this pool (three candidates, which `std::sort` of libstdc++ sorts by insertion)
starts with the one-pipeline combination, ahead of the two combinations of two
pipelines, and with a kernel that accepts every test `findWorkingCombination`
configures one connector only. -/
theorem sortByRelevance_places_smaller_combination_first :
    sortByRelevance exampleIndex
      [DrmPipeline.new (mkConnector 31 52 [41]) (mkCrtc 52 1) (some (mkPrimaryPlane 62 52 3))]
      [DrmPipeline.new (mkConnector 31 52 [41]) (mkCrtc 51 0) (some (mkPrimaryPlane 62 52 3)),
       DrmPipeline.new (mkConnector 32 0 [42]) (mkCrtc 52 1) (some (mkPrimaryPlane 61 0 2))]
      = true ∧
    (constructAllCombinations insertionSort true exampleIndex
      [mkConnector 31 52 [41], mkConnector 32 0 [42]] [mkCrtc 51 0, mkCrtc 52 1]
      [mkPrimaryPlane 61 0 2, mkPrimaryPlane 62 52 3]).map List.length = [1, 2, 2] ∧
    (constructAllCombinations insertionSort true exampleIndex
      [mkConnector 31 52 [41], mkConnector 32 0 [42]] [mkCrtc 51 0, mkCrtc 52 1]
      [mkPrimaryPlane 61 0 2, mkPrimaryPlane 62 52 3]).map (connectedCount exampleIndex)
      = [1, 0, 0] ∧
    (findWorkingCombination insertionSort true exampleIndex acceptAll []
      [mkConnector 31 52 [41], mkConnector 32 0 [42]] [mkCrtc 51 0, mkCrtc 52 1]
      [mkPrimaryPlane 61 0 2, mkPrimaryPlane 62 52 3]).map (fun r => r.1)
      = some [{ pipeline := DrmPipeline.new (mkConnector 31 52 [41]) (mkCrtc 52 1)
                  (some (mkPrimaryPlane 62 52 3)) }] := by
  decide

/-- C4: for every pipeline (it has at least one connector), `isConnected()` is
true if and only if at every bound index the connector and the primary plane
exist with a `CrtcId` property whose current value is the id of the CRTC at that
index (a pipeline without primary planes has no such plane, so it is not
connected).  The result reads current values only: staging any value in the
two `CrtcId` properties with `setPending`, and `commitPending()` on all objects,
leave it unchanged; for a pipeline as the constructor builds it, with mutable
scalar `CrtcId` properties, it is false after staging the CRTC id while a
current value differs, and true once `commit()` has run on all objects. -/
theorem isConnected_reads_current_crtc_ids (ix : PropertyIndex) (p : DrmPipeline)
    (hne : p.connectors ≠ []) :
    (p.isConnected ix = some true ↔
      ∀ i, i < p.connectors.length →
        ∃ conn crtc plane connProp planeProp,
          p.connectors.get? i = some conn ∧ p.crtcs.get? i = some crtc ∧
          p.primaryPlanes.get? i = some plane ∧
          conn.getProp ix.connectorCrtcId = some connProp ∧
          plane.getProp ix.planeCrtcId = some planeProp ∧
          connProp.current = crtc.id ∧ planeProp.current = crtc.id) ∧
    (∀ i value, (p.stageCrtcId ix i value).isConnected ix = p.isConnected ix) ∧
    (∀ k, (p.forAllObjects DrmObject.commitPending k).1.isConnected ix = p.isConnected ix) ∧
    (∀ (conn : DrmConnector) (crtc : DrmCrtc) (plane : DrmPlane)
      (connProp planeProp : Property) (k : Kernel),
      conn.getProp ix.connectorCrtcId = some connProp →
      plane.getProp ix.planeCrtcId = some planeProp →
      connProp.immutable = false → planeProp.immutable = false →
      (connProp.pendingBlob = none ∧ connProp.currentBlob = none) →
      (planeProp.pendingBlob = none ∧ planeProp.currentBlob = none) →
      ((connProp.current ≠ crtc.id ∨ planeProp.current ≠ crtc.id) →
        ((DrmPipeline.new conn crtc (some plane)).stageCrtcId ix 0 crtc.id).isConnected ix
          = some false) ∧
      ((((DrmPipeline.new conn crtc (some plane)).stageCrtcId ix 0 crtc.id).forAllObjects
        DrmObject.commit k).1.isConnected ix = some true)) := by
  refine ⟨isConnected_eq_some_true_iff ix p hne, ?_, ?_, ?_⟩
  · intro i value
    exact isConnected_congr ix _ _ (stageCrtcId_view_current ix p i value)
  · intro k
    exact isConnected_congr ix _ _
      (forAllObjects_view Property.current DrmObject.commitPending
        (fun o k => commitPending_view Property.current
          (fun pr k => Property.commitPending_current pr k) o k) p k)
  · intro conn crtc plane connProp planeProp k hc hp hci hpi hcb hpb
    exact isConnected_after_commit ix conn crtc plane connProp planeProp k hc hp hci hpi hcb hpb

/-- The statement above at a concrete input: the pipeline (31, 51, 61)
whose connector and plane are currently set to CRTC 51 is connected, also
after staging CRTC id 7. -/
theorem isConnected_reads_current_crtc_ids_witness :
    (DrmPipeline.new (mkConnector 31 51 [41]) (mkCrtc 51 0)
      (some (mkPrimaryPlane 61 51 1))).connectors ≠ [] ∧
    ((DrmPipeline.new (mkConnector 31 51 [41]) (mkCrtc 51 0)
      (some (mkPrimaryPlane 61 51 1))).stageCrtcId exampleIndex 0 7).isConnected exampleIndex
      = some true := by
  refine ⟨by decide, ?_⟩
  rw [(isConnected_reads_current_crtc_ids exampleIndex
    (DrmPipeline.new (mkConnector 31 51 [41]) (mkCrtc 51 0) (some (mkPrimaryPlane 61 51 1)))
    (by decide)).2.1 0 7]
  decide

/-- C5: for every property in every state, `commitPending()` followed at once by
`rollbackPending()` leaves the pending slot (value and blob pointer) as it was. -/
theorem commitPending_rollbackPending_pending (p : Property) (k : Kernel) :
    ((p.commitPending k).1.rollbackPending (p.commitPending k).2).1.pending = p.pending ∧
    ((p.commitPending k).1.rollbackPending (p.commitPending k).2).1.pendingBlob
      = p.pendingBlob := by
  by_cases h : p.immutable = true
  · rw [Property.commitPending_skip p k (Or.inl h), Property.rollbackPending_skip p k (Or.inl h)]
    exact ⟨rfl, rfl⟩
  · have h0 : p.immutable = false := by simpa using h
    have hn : (p.commitPending k).1.next = (p.commitPending k).1.pending := by
      rw [Property.commitPending_next p k h0, Property.commitPending_pending]
    rw [Property.rollbackPending_skip _ _ (Or.inr hn)]
    exact ⟨Property.commitPending_pending p k, Property.commitPending_pendingBlob p k⟩

/-- C6, counterexample: in the state reached by `setPendingBlob` of new bytes and
then `setPending(3)` on a mutable property, next and pending hold the same value,
`commitPending()` returns at its guard, and the next blob pointer (blob 3) still
differs from the pending blob pointer (blob 7). -/
theorem commitPending_leaves_next_blob_counterexample :
    staleBlobState.1.immutable = false ∧
    (staleBlobState.1.commitPending staleBlobState.2).1.next
      = (staleBlobState.1.commitPending staleBlobState.2).1.pending ∧
    (staleBlobState.1.commitPending staleBlobState.2).1.nextBlob
      = some { id := 3, data := [1] } ∧
    (staleBlobState.1.commitPending staleBlobState.2).1.pendingBlob
      = some { id := 7, data := [2] } ∧
    (staleBlobState.1.commitPending staleBlobState.2).1.nextBlob
      ≠ (staleBlobState.1.commitPending staleBlobState.2).1.pendingBlob := by
  decide

/-- C6, amended: for every non-immutable property, after `commitPending()` the
next value equals the pending value; the next blob pointer equals the pending
blob pointer whenever next and pending held different values before the call,
and is the old next blob pointer otherwise; pending and current (values and
blob pointers) are what they were before the call. -/
theorem commitPending_moves_pending_to_next (p : Property) (k : Kernel)
    (h : p.immutable = false) :
    (p.commitPending k).1.next = (p.commitPending k).1.pending ∧
    (p.next ≠ p.pending →
      (p.commitPending k).1.nextBlob = (p.commitPending k).1.pendingBlob) ∧
    (p.next = p.pending → (p.commitPending k).1.nextBlob = p.nextBlob) ∧
    (p.commitPending k).1.pending = p.pending ∧
    (p.commitPending k).1.pendingBlob = p.pendingBlob ∧
    (p.commitPending k).1.current = p.current ∧
    (p.commitPending k).1.currentBlob = p.currentBlob := by
  refine ⟨?_, ?_, ?_, Property.commitPending_pending p k, Property.commitPending_pendingBlob p k,
    Property.commitPending_current p k, Property.commitPending_currentBlob p k⟩
  · rw [Property.commitPending_next p k h, Property.commitPending_pending]
  · intro hne
    rw [Property.commitPending_nextBlob p k h hne, Property.commitPending_pendingBlob]
  · intro he
    rw [Property.commitPending_skip p k (Or.inr he)]

/-- The statement above at a concrete input: a mutable scalar property
with pending 5, next 3, current 3. -/
theorem commitPending_moves_pending_to_next_witness :
    (((Property.new 1 3 none false).setPending 5).commitPending kernelWithBlob3).1.next = 5 ∧
    (((Property.new 1 3 none false).setPending 5).commitPending kernelWithBlob3).1.current = 3 := by
  have h := commitPending_moves_pending_to_next ((Property.new 1 3 none false).setPending 5)
    kernelWithBlob3 (by decide)
  exact ⟨h.1.trans h.2.2.2.1, h.2.2.2.2.2.1⟩

/-- C7, counterexample: in the same kind of state (next and pending both 3, next
blob pointer blob 3, pending blob pointer blob 7) `rollbackPending()` returns at
its guard, so the pending blob pointer is not the one next held. -/
theorem rollbackPending_leaves_pending_blob_counterexample :
    staleBlobState.1.immutable = false ∧
    staleBlobState.1.next = 3 ∧
    staleBlobState.1.nextBlob = some { id := 3, data := [1] } ∧
    (staleBlobState.1.rollbackPending staleBlobState.2).1.pending = 3 ∧
    (staleBlobState.1.rollbackPending staleBlobState.2).1.pendingBlob
      = some { id := 7, data := [2] } ∧
    (staleBlobState.1.rollbackPending staleBlobState.2).1.pendingBlob
      ≠ staleBlobState.1.nextBlob := by
  decide

/-- C7, amended: for every non-immutable property, after `rollbackPending()` the
pending value is the value next held before the call; the pending blob pointer
is the one next held whenever next and pending held different values before
the call, and is the old pending blob pointer otherwise; next and current
(values and blob pointers) are unchanged. -/
theorem rollbackPending_restores_pending (p : Property) (k : Kernel)
    (h : p.immutable = false) :
    (p.rollbackPending k).1.pending = p.next ∧
    (p.next ≠ p.pending → (p.rollbackPending k).1.pendingBlob = p.nextBlob) ∧
    (p.next = p.pending → (p.rollbackPending k).1.pendingBlob = p.pendingBlob) ∧
    (p.rollbackPending k).1.next = p.next ∧
    (p.rollbackPending k).1.nextBlob = p.nextBlob ∧
    (p.rollbackPending k).1.current = p.current ∧
    (p.rollbackPending k).1.currentBlob = p.currentBlob := by
  refine ⟨Property.rollbackPending_pending p k h, ?_, ?_, Property.rollbackPending_next p k,
    Property.rollbackPending_nextBlob p k, Property.rollbackPending_current p k,
    Property.rollbackPending_currentBlob p k⟩
  · intro hne
    exact Property.rollbackPending_pendingBlob p k h hne
  · intro he
    rw [Property.rollbackPending_skip p k (Or.inr he)]

/-- The statement above at a concrete input: a mutable scalar property with
pending 5, next 3, current 3. -/
theorem rollbackPending_restores_pending_witness :
    (((Property.new 1 3 none false).setPending 5).rollbackPending kernelWithBlob3).1.pending = 3 ∧
    (((Property.new 1 3 none false).setPending 5).rollbackPending kernelWithBlob3).1.next = 3 := by
  have h := rollbackPending_restores_pending ((Property.new 1 3 none false).setPending 5)
    kernelWithBlob3 (by decide)
  exact ⟨h.1, h.2.2.2.1⟩

/-- C8, counterexample: a mutable property with a current blob, no pending blob
pointer and pending value 7 (reached by `setPendingBlob(nullptr, 0)` then
`setPending(7)`).  The pending blob pointer is null, so none carries a wrong id,
yet `commit()` stores the id of the null blob, 0, in current, and `needsCommit()`
is still true. -/
theorem commit_null_pending_blob_counterexample :
    nullBlobState.1.immutable = false ∧
    nullBlobState.1.pendingBlob = none ∧
    nullBlobState.1.pending = 7 ∧
    (nullBlobState.1.commit nullBlobState.2).1.current = 0 ∧
    (nullBlobState.1.commit nullBlobState.2).1.needsCommit = true := by
  decide

/-- C8, amended: `needsCommit()` is true exactly when pending differs from
current; and for every non-immutable property whose pending blob pointer, when
there is one, carries the id stored in pending, and whose pending value is 0
when there is a current blob pointer but no pending one, `commit()` makes
current equal to pending, so `needsCommit()` is false afterwards, and leaves
pending and next (values and blob pointers) unchanged. -/
theorem commit_makes_current_equal_pending (p : Property) (k : Kernel)
    (himm : p.immutable = false)
    (hid : ∀ b, p.pendingBlob = some b → b.id = p.pending)
    (hnull : p.pendingBlob = none → p.currentBlob ≠ none → p.pending = 0) :
    (p.needsCommit = true ↔ p.pending ≠ p.current) ∧
    (p.commit k).1.current = p.pending ∧
    (p.commit k).1.needsCommit = false ∧
    (p.commit k).1.pending = p.pending ∧
    (p.commit k).1.pendingBlob = p.pendingBlob ∧
    (p.commit k).1.next = p.next ∧
    (p.commit k).1.nextBlob = p.nextBlob := by
  have hq : (p.commit k).1.current = p.pending ∧ (p.commit k).1.pending = p.pending ∧
      (p.commit k).1.pendingBlob = p.pendingBlob ∧ (p.commit k).1.next = p.next ∧
      (p.commit k).1.nextBlob = p.nextBlob := by
    unfold Property.commit
    by_cases h1 : p.current = p.pending
    · simp [h1]
    · simp only [himm, Bool.false_or, beq_iff_eq, h1, if_false]
      cases hp : p.pendingBlob with
      | some b =>
        have := hid b hp
        simp [Property.setCurrentBlob, this, hp]
      | none =>
        cases hc : p.currentBlob with
        | some c =>
          have h0 := hnull hp (by simp [hc])
          simp [Property.setCurrentBlob, hc, h0, hp]
        | none => simp [Property.setCurrent, hp]
  refine ⟨by simp [Property.needsCommit], hq.1, ?_, hq.2.1, hq.2.2.1, hq.2.2.2.1, hq.2.2.2.2⟩
  simp [Property.needsCommit, hq.1, hq.2.1]

/-- The statement above at a concrete input: blob property 3 after
`setPendingBlob` of the byte 2 (pending is the new blob 7). -/
theorem commit_makes_current_equal_pending_witness :
    ((blobProperty3.setPendingBlob (some [2]) kernelWithBlob3).2.1.commit
      (blobProperty3.setPendingBlob (some [2]) kernelWithBlob3).2.2).1.current = 7 ∧
    ((blobProperty3.setPendingBlob (some [2]) kernelWithBlob3).2.1.commit
      (blobProperty3.setPendingBlob (some [2]) kernelWithBlob3).2.2).1.needsCommit = false := by
  have h := commit_makes_current_equal_pending
    (blobProperty3.setPendingBlob (some [2]) kernelWithBlob3).2.1
    (blobProperty3.setPendingBlob (some [2]) kernelWithBlob3).2.2
    (by decide) (by decide) (by decide)
  exact ⟨h.2.1.trans (by decide), h.2.2.1⟩

/-- C9, counterexample: `setPending(5)` on an immutable property with value 3
stores 5 in pending, and `needsCommit()` is then true. -/
theorem setPending_immutable_counterexample :
    immutableProperty3.immutable = true ∧
    immutableProperty3.pending = 3 ∧
    (immutableProperty3.setPending 5).pending = 5 ∧
    (immutableProperty3.setPending 5).needsCommit = true := by
  decide

/-- C9, amended: for every property whose immutable flag is set and every value
`v`, `setPending(v)` stores `v` in pending like for any other property, so
`needsCommit()` afterwards is true exactly when `v` differs from current; what
the flag does is stop the pending write there: `commit()`, `commitPending()` and
`rollbackPending()` leave the property as it is and make no kernel call, so next
and current never take the written value. -/
theorem immutable_write_is_never_applied (p : Property) (v : Nat) (k : Kernel)
    (h : p.immutable = true) :
    (p.setPending v).pending = v ∧
    ((p.setPending v).needsCommit = true ↔ v ≠ p.current) ∧
    (p.setPending v).commit k = (p.setPending v, k) ∧
    (p.setPending v).commitPending k = (p.setPending v, k) ∧
    (p.setPending v).rollbackPending k = (p.setPending v, k) := by
  have hi : (p.setPending v).immutable = true := h
  refine ⟨rfl, by simp [Property.needsCommit, Property.setPending], ?_,
    Property.commitPending_skip _ k (Or.inl hi), Property.rollbackPending_skip _ k (Or.inl hi)⟩
  unfold Property.commit
  simp [hi]

/-- The statement above at a concrete input: the immutable property with
value 3 and the write of 5. -/
theorem immutable_write_is_never_applied_witness :
    immutableProperty3.immutable = true ∧
    ((immutableProperty3.setPending 5).commit kernelWithBlob3).1.current = 3 ∧
    ((immutableProperty3.setPending 5).commitPending kernelWithBlob3).1.next = 3 := by
  have h := immutable_write_is_never_applied immutableProperty3 5 kernelWithBlob3 (by decide)
  refine ⟨by decide, ?_, ?_⟩
  · rw [h.2.2.1]; decide
  · rw [h.2.2.2.1]; decide

/-- C10, counterexample: `testPipelines` returns true on the batch of the one
pipeline (31, 51, 61) with CRTC id 51 staged (the request holds the two staged
`CrtcId` values and is committed test-only), and after `commitPending()` on
every object of the pipeline `needsCommit()` is still true for the connector
and for the plane. -/
theorem needsCommit_after_commitPending_counterexample :
    testedBatch.map (fun r => r.1) = some true ∧
    testedBatch.map (fun r => r.2.2.calls) = some
      [KernelCall.atomicCommit
        [{ objectId := 31, propertyId := 20, value := 51 },
         { objectId := 61, propertyId := 30, value := 51 }] 0x300 true] ∧
    testedBatch.map (fun r => r.2.1.map (fun p =>
      (p.forAllObjects DrmObject.commitPending r.2.2).1.objects.map DrmObject.needsCommit))
      = some [[true, false, true]] := by
  decide

/-- C10, amended: for every pipeline of every batch, whatever `testPipelines`
returned, after `commitPending()` is applied to every object of the pipeline
every non-immutable property of every object has next equal to pending
(pending has advanced to next), and `needsCommit()` of every object is what it
was before: it compares pending with current, which `commitPending()` does not
write. -/
theorem commitPending_keeps_needsCommit (p : DrmPipeline) (k : Kernel) :
    (p.forAllObjects DrmObject.commitPending k).1.objects.map DrmObject.needsCommit
      = p.objects.map DrmObject.needsCommit ∧
    (∀ o ∈ (p.forAllObjects DrmObject.commitPending k).1.objects,
      ∀ pr, some pr ∈ o.props → pr.immutable = false → pr.next = pr.pending) := by
  constructor
  · apply objects_needsCommit_of_view
    · exact forAllObjects_view _ DrmObject.commitPending
        (fun o k => commitPending_view _ (fun pr k => commitPending_pending_current pr k) o k)
        p k
    · exact forAllObjects_allObjects _ p k
  · intro o ho
    unfold DrmPipeline.objects at ho
    rw [List.mem_filterMap] at ho
    obtain ⟨r, hr, hg⟩ := ho
    rw [forAllObjects_allObjects] at hr
    exact foldl_commitPending_next p.allObjects [] (p, k) (by simp) r (by simpa using hr) o hg

/-- The statement above at a concrete input: on the pipeline (31, 51, 61)
with CRTC id 51 staged, `needsCommit()` is true for the connector and the plane
before and after `commitPending()`. -/
theorem commitPending_keeps_needsCommit_witness :
    (stagedPipeline.forAllObjects DrmObject.commitPending kernelWithBlob3).1.objects.map
      DrmObject.needsCommit = [true, false, true] :=
  (commitPending_keeps_needsCommit stagedPipeline kernelWithBlob3).1.trans (by decide)

/-- C11: for every property, `setPendingBlob` called with bytes of the same
length and content as the pending blob, or with a null pointer when the pending
blob is null, returns true, makes no kernel call (no blob is created or
destroyed) and leaves the property as it is.  Hence two calls in a row with the
same bytes create at most one blob, whether or not the kernel rejects one of
the creations; the kernel gives a created blob an id that no live blob has and
that the property does not hold as pending. -/
theorem setPendingBlob_same_bytes_is_noop :
    (∀ (p : Property) (blob : Option (List Nat)) (k : Kernel),
      ((blob = none ∧ p.pendingBlob = none) ∨
        (∃ bytes pb, blob = some bytes ∧ p.pendingBlob = some pb ∧
          bytes.length = pb.length ∧ bytes = pb.data)) →
      p.setPendingBlob blob k = (true, p, k)) ∧
    (∀ (p : Property) (blob : Option (List Nat)) (k : Kernel) (r : Bool),
      (∀ b ∈ k.blobs, b.id ≠ k.freshBlobId) → p.pending ≠ k.freshBlobId →
      createdBlobs ((p.setPendingBlob blob k).2.1.setPendingBlob blob
        { (p.setPendingBlob blob k).2.2 with rejectBlobCreate := r }).2.2
        ≤ createdBlobs k + 1) :=
  ⟨fun p blob k h => setPendingBlob_of_same p blob k h,
   fun p blob k r hfresh hp => setPendingBlob_twice_creates_at_most_one p blob k r hfresh hp⟩

/-- The statement above at a concrete input: the blob property 3, whose pending
blob holds the byte 1, with the byte 1 again, and with the new byte 2 twice. -/
theorem setPendingBlob_same_bytes_is_noop_witness :
    blobProperty3.setPendingBlob (some [1]) kernelWithBlob3 = (true, blobProperty3, kernelWithBlob3) ∧
    createdBlobs ((blobProperty3.setPendingBlob (some [2]) kernelWithBlob3).2.1.setPendingBlob
      (some [2])
      { (blobProperty3.setPendingBlob (some [2]) kernelWithBlob3).2.2 with
        rejectBlobCreate := false }).2.2 ≤ createdBlobs kernelWithBlob3 + 1 :=
  ⟨setPendingBlob_same_bytes_is_noop.1 blobProperty3 (some [1]) kernelWithBlob3
      (Or.inr ⟨[1], { id := 3, data := [1] }, rfl, rfl, rfl, rfl⟩),
   setPendingBlob_same_bytes_is_noop.2 blobProperty3 (some [2]) kernelWithBlob3 false
      (by decide) (by decide)⟩

/-- C12: for every property and every non-null byte string that differs from the
pending blob, when the kernel rejects the creation of the blob `setPendingBlob`
returns false and leaves the property as it is (pending, the pending blob
pointer, next and current); the only kernel call is the rejected creation, so
no blob is destroyed and the live blobs are the same. -/
theorem setPendingBlob_rejected_changes_nothing (p : Property) (bytes : List Nat) (k : Kernel)
    (hrej : k.rejectBlobCreate = true)
    (hdiff : p.sameAsPendingBlob (some bytes) = false) :
    (p.setPendingBlob (some bytes) k).1 = false ∧
    (p.setPendingBlob (some bytes) k).2.1 = p ∧
    (p.setPendingBlob (some bytes) k).2.2.calls
      = k.calls ++ [KernelCall.createPropertyBlob bytes false] ∧
    destroyedBlobs (p.setPendingBlob (some bytes) k).2.2 = destroyedBlobs k ∧
    (p.setPendingBlob (some bytes) k).2.2.blobs = k.blobs := by
  have h1 : p.setPendingBlob (some bytes) k =
      (false, p, { k with calls := k.calls ++ [KernelCall.createPropertyBlob bytes false] }) := by
    unfold Property.setPendingBlob
    simp only [Option.isNone_some, Bool.false_and, Bool.false_eq_true, if_false, hdiff]
    unfold drmModeCreatePropertyBlob
    simp [hrej]
  rw [h1]
  refine ⟨rfl, rfl, rfl, ?_, rfl⟩
  simp [destroyedBlobs, List.filterMap_append]

/-- The statement above at a concrete input: the blob property 3 and the byte
2 on a kernel that rejects the creation. -/
theorem setPendingBlob_rejected_changes_nothing_witness :
    (blobProperty3.setPendingBlob (some [2]) rejectingKernel).1 = false ∧
    (blobProperty3.setPendingBlob (some [2]) rejectingKernel).2.1 = blobProperty3 :=
  ⟨(setPendingBlob_rejected_changes_nothing blobProperty3 [2] rejectingKernel
      (by decide) (by decide)).1,
   (setPendingBlob_rejected_changes_nothing blobProperty3 [2] rejectingKernel
      (by decide) (by decide)).2.1⟩

/-- C16: a pipeline constructed without a primary plane, and every pipeline that
has no primary plane, is not connected: `isConnected()` returns false whatever
the properties of its connectors and CRTCs hold. -/
theorem isConnected_false_without_primary_plane (ix : PropertyIndex) :
    (∀ (conn : DrmConnector) (crtc : DrmCrtc),
      (DrmPipeline.new conn crtc none).isConnected ix = some false) ∧
    (∀ p : DrmPipeline, p.primaryPlanes = [] → p.isConnected ix = some false) := by
  constructor
  · intro conn crtc
    simp [DrmPipeline.isConnected, new_primaryPlanes]
  · intro p hp
    simp [DrmPipeline.isConnected, hp]

/-- The statement above at a concrete input: connector 31, whose `CrtcId` is
currently 51, on CRTC 51 without a plane. -/
theorem isConnected_false_without_primary_plane_witness :
    (DrmPipeline.new (mkConnector 31 51 [41]) (mkCrtc 51 0) none).isConnected exampleIndex
      = some false :=
  (isConnected_false_without_primary_plane exampleIndex).2 _ rfl

/-- C20, on the code: `moveCursor` stores the position only in the branch in
which a kernel call failed.  On the pipeline as its constructor leaves it
(cursor at (100, 100)), `moveCursor((5, 5))` returns true with the kernel
accepting the call, the stored position is still (100, 100), and the repeated
`moveCursor((5, 5))` calls `drmModeMoveCursor` a second time instead of
returning at once. -/
theorem moveCursor_repeated_call_reaches_kernel :
    (DrmPipeline.moveCursor acceptingIoctls stagedPipeline (5, 5) emptyKernel).1 = true ∧
    (DrmPipeline.moveCursor acceptingIoctls stagedPipeline (5, 5) emptyKernel).2.1.cursor
      = { pos := (100, 100), buffer := none, dirty := false } ∧
    (DrmPipeline.moveCursor acceptingIoctls stagedPipeline (5, 5) emptyKernel).2.2.calls
      = [KernelCall.moveCursor 51 5 5 true] ∧
    (DrmPipeline.moveCursor acceptingIoctls
      (DrmPipeline.moveCursor acceptingIoctls stagedPipeline (5, 5) emptyKernel).2.1 (5, 5)
      (DrmPipeline.moveCursor acceptingIoctls stagedPipeline (5, 5) emptyKernel).2.2).2.2.calls
      = [KernelCall.moveCursor 51 5 5 true, KernelCall.moveCursor 51 5 5 true] := by
  decide

/-- C15, on the code: the header says of `test` that it always returns true in
legacy mode, but the legacy branch is `m_legacyNeedsModeset ? modeset(0) : true`.
On a GPU without atomic mode setting, `test` on a pipeline as its constructor
leaves it (a legacy modeset is pending) obtains a test buffer, calls
`drmModeSetCrtc`, and returns false when the kernel rejects that call. -/
theorem legacy_test_runs_modeset :
    (DrmPipeline.test bufferMembers rejectingIoctls legacyCaps onlyThis legacyPipeline
        emptyKernel).map (fun r => (r.1, r.2.2.2.calls))
      = some (false, [KernelCall.setCrtc 51 9 31 [1] false]) := by
  decide

/-- C19, on the code: `setSyncMode` has no rollback for a failure part-way
through its loop.  On a pipeline of two CRTCs of which the second lacks
`VRR_ENABLED`, `setSyncMode(Adaptive)` returns false without any kernel call,
and the `VRR_ENABLED` property of the first CRTC, which had pending and next 0
before the call, is left staged: pending 1, next 0, not immutable. -/
theorem setSyncMode_partial_failure_leaves_staged_value :
    tiledPipeline.crtcs.map (fun crtc =>
        (crtc.getProp exampleMembers.crtcVrrEnabled).map
          (fun property => (property.pending, property.next, property.immutable)))
      = [some (0, 0, false), none] ∧
    (DrmPipeline.setSyncMode exampleMembers acceptingIoctls atomicCaps onlyThis tiledPipeline
        emptyKernel SyncMode.Adaptive).map (fun r => (r.1, r.2.2.2.calls)) = some (false, []) ∧
    (DrmPipeline.setSyncMode exampleMembers acceptingIoctls atomicCaps onlyThis tiledPipeline
        emptyKernel SyncMode.Adaptive).map
      (fun r => r.2.1.crtcs.map (fun crtc =>
        (crtc.getProp exampleMembers.crtcVrrEnabled).map
          (fun property => (property.pending, property.next, property.immutable))))
      = some [some (1, 0, false), none] := by
  decide

/-- C17: for every active pipeline, `setActive(false)` first calls
`drmModeSetCursor(fd, crtc->id(), 0, 0, 0)` for every CRTC of the pipeline, in
order and whatever the kernel answers; every other kernel call of
`setActive(false)`, the atomic commit and the DPMS call among them, comes after
these.  The call returns for every pipeline whose vectors have the lengths
`addOutput` gives them. -/
theorem setActive_false_clears_cursors_first (m : Members) (io : Ioctls) (caps : GpuCaps)
    (gpuPipelines : Batch) (p : DrmPipeline) (k : Kernel) (hactive : p.active = true) :
    ((if caps.atomicModeSetting then
        p.crtcs.length = p.connectors.length ∧ p.primaryPlanes.length = p.connectors.length
      else p.connectors ≠ []) →
      ∃ r, DrmPipeline.setActive m io caps gpuPipelines p k false = some r) ∧
    (∀ r, DrmPipeline.setActive m io caps gpuPipelines p k false = some r →
      ∃ rest, r.2.2.2.calls
        = k.calls ++
          p.crtcs.map (fun crtc => KernelCall.setCursor crtc.id 0 0 0 (io.setCursor crtc.id 0 0 0))
          ++ rest) := by
  have hk : (if (p.active && !false) = true then DrmPipeline.clearCursors io p.crtcs k else k)
      = DrmPipeline.clearCursors io p.crtcs k := by simp [hactive]
  constructor
  · intro hwf
    obtain ⟨a, ha⟩ := applyActive_false_isSome m io caps gpuPipelines p
      (DrmPipeline.clearCursors io p.crtcs k) hwf
    unfold DrmPipeline.setActive
    rw [hk, ha]
    obtain ⟨a1, a2, a3, a4⟩ := a
    dsimp only
    split_ifs <;> exact ⟨_, rfl⟩
  · intro r h
    unfold DrmPipeline.setActive at h
    rw [hk] at h
    cases ha : DrmPipeline.applyActive m io caps gpuPipelines p
        (DrmPipeline.clearCursors io p.crtcs k) false with
    | none => rw [ha] at h; cases h
    | some a =>
      have hpre := calls_prefix_applyActive_false m io caps gpuPipelines p _ a ha
      rw [ha] at h
      obtain ⟨a1, a2, a3, a4⟩ := a
      dsimp only at h hpre
      have hfinal : (DrmPipeline.clearCursors io p.crtcs k).calls <+: r.2.2.2.calls := by
        by_cases hact : (if a1 = true then a2.active else p.active) = true
        · rw [if_pos hact] at h
          cases h
          exact hpre.trans (calls_prefix_setCursor m io _ _ a4)
        · rw [if_neg hact] at h
          cases h
          exact hpre
      obtain ⟨rest, hrest⟩ := hfinal
      refine ⟨rest, ?_⟩
      rw [← hrest, calls_clearCursors]

/-- The statement above at a concrete input: the pipeline (31, 51, 61), one CRTC,
in atomic mode; the trace starts with the cursor-clear call for CRTC 51. -/
theorem setActive_false_clears_cursors_first_witness :
    ∃ r, DrmPipeline.setActive exampleMembers acceptingIoctls atomicCaps onlyThis stagedPipeline
        emptyKernel false = some r ∧
      ∃ rest, r.2.2.2.calls = [] ++ [KernelCall.setCursor 51 0 0 0 true] ++ rest := by
  obtain ⟨r, hr⟩ := (setActive_false_clears_cursors_first exampleMembers acceptingIoctls atomicCaps
    onlyThis stagedPipeline emptyKernel rfl).1 (by decide)
  exact ⟨r, hr, (setActive_false_clears_cursors_first exampleMembers acceptingIoctls atomicCaps
    onlyThis stagedPipeline emptyKernel rfl).2 r hr⟩

/-- C14, on the code: the header promises no lasting changes when the test of
`present` fails, but `present` assigns `m_primaryBuffer = buffer` first and the
failure path does not take it back.  On the pipeline (31, 51, 61) with the CRTC
id staged and a clean cursor state, `present` of a new buffer with a kernel
that rejects both tests returns false, and the state is not the one before the
call: the primary buffer is the new one, the cursor state is dirty, and the
staged value 51 of the connector is rolled back to 0. -/
theorem failed_present_changes_state :
    (DrmPipeline.present exampleMembers rejectingIoctls atomicCaps shownPipeline (some nextFrame)
        emptyKernel).map (fun r => (r.1, r.2.2.calls))
      = some (false,
          [KernelCall.atomicCommit
              [{ objectId := 31, propertyId := 20, value := 51 },
               { objectId := 61, propertyId := 30, value := 51 }] 768 false,
           KernelCall.objectGetProperties 31 true, KernelCall.objectGetProperties 51 true,
           KernelCall.objectGetProperties 61 true, KernelCall.atomicCommit [] 768 false]) ∧
    shownPipeline.connectors.map (fun conn => (conn.getProp 0).map (fun q => q.pending))
      = [some 51] ∧
    (DrmPipeline.present exampleMembers rejectingIoctls atomicCaps shownPipeline (some nextFrame)
        emptyKernel).map
        (fun r => r.2.1.connectors.map (fun conn => (conn.getProp 0).map (fun q => q.pending)))
      = some [some 0] ∧
    shownPipeline.cursor.dirty = false ∧
    (DrmPipeline.present exampleMembers rejectingIoctls atomicCaps shownPipeline (some nextFrame)
        emptyKernel).map (fun r => r.2.1.cursor.dirty) = some true ∧
    shownPipeline.primaryBuffer = some { bufferId := 9, size := (1920, 1080) } ∧
    (DrmPipeline.present exampleMembers rejectingIoctls atomicCaps shownPipeline (some nextFrame)
        emptyKernel).map (fun r => r.2.1.primaryBuffer) = some (some nextFrame) := by
  decide

/-- C30, on the code: `moveCursor` writes `m_cursor.pos` in the branch of the
failed call and not after the loop.  On the pipeline as its constructor leaves
it (`cursorPos()` is (100, 100)), a `moveCursor((5, 5))` that the kernel accepts
returns true and `cursorPos()` is still (100, 100); a `moveCursor((5, 5))` that
the kernel rejects returns false and `cursorPos()` is (5, 5). -/
theorem moveCursor_stores_position_on_failure_only :
    stagedPipeline.cursorPos = (100, 100) ∧
    (DrmPipeline.moveCursor acceptingIoctls stagedPipeline (5, 5) emptyKernel).1 = true ∧
    (DrmPipeline.moveCursor acceptingIoctls stagedPipeline (5, 5) emptyKernel).2.1.cursorPos
      = (100, 100) ∧
    (DrmPipeline.moveCursor stuckCursorIoctls stagedPipeline (5, 5) emptyKernel).1 = false ∧
    (DrmPipeline.moveCursor stuckCursorIoctls stagedPipeline (5, 5) emptyKernel).2.1.cursorPos
      = (5, 5) := by
  decide

/-- C25, on the code: `isComplete()` compares a tile position with
`loc + tile_width` and `loc + tile_height`, which are sizes in pixels, and with
`<=`.  For the pipeline that holds only the connector at tile (0, 0) of a 2x1
display, no connector is located at tile (1, 0), and `isComplete()` is true. -/
theorem isComplete_true_with_missing_tile :
    halfTiledPipeline.connectors.map (fun conn => (conn.tilingInfo.loc_x, conn.tilingInfo.loc_y))
      = [(0, 0)] ∧
    halfTiledPipeline.connectors.head?.map
        (fun conn => (conn.isTiled, conn.tilingInfo.num_tiles_x, conn.tilingInfo.num_tiles_y))
      = some (true, 2, 1) ∧
    halfTiledPipeline.isComplete false = some true := by
  decide

/-- C21, on the code: `testPipelines` passes one `flags` variable through
`populateAtomicValues` of every pipeline of the batch, and each pipeline adds
`ALLOW_MODESET` or `NONBLOCK` to it.  For the batch of pipeline (31, 51, 61),
which needs no modeset, and pipeline (32, 52, 62), which needs one, the single
test-only request carries the flags 0x700: `TEST_ONLY`, `NONBLOCK` and
`ALLOW_MODESET` together (`PAGE_FLIP_EVENT` is cleared). -/
theorem testPipelines_mixed_batch_sets_both_flags :
    stagedPipeline.needsModeset modesetFor32 = false ∧
    stagedPipeline32.needsModeset modesetFor32 = true ∧
    (DrmPipeline.testPipelines modesetFor32 acceptingDriver atomicCaps emptyKernel
        [stagedPipeline, stagedPipeline32]).map (fun r => r.2.2.calls)
      = some [KernelCall.atomicCommit
          [{ objectId := 31, propertyId := 20, value := 51 },
           { objectId := 61, propertyId := 30, value := 51 },
           { objectId := 32, propertyId := 20, value := 52 },
           { objectId := 62, propertyId := 30, value := 52 }] 0x700 true] ∧
    0x700 &&& DRM_MODE_ATOMIC_ALLOW_MODESET = DRM_MODE_ATOMIC_ALLOW_MODESET ∧
    0x700 &&& DRM_MODE_ATOMIC_NONBLOCK = DRM_MODE_ATOMIC_NONBLOCK ∧
    0x700 &&& DRM_MODE_PAGE_FLIP_EVENT = 0 := by
  decide

/-- C26: for an output that some registered backend claims, `beginFrame`,
`endFrame`, `scanout` and `directScanoutAllowed` pass the call on to one
backend and no other: the first backend in the order of registration whose
`hasOutput(output)` is true; and they return its result unchanged. -/
theorem rendering_calls_go_to_first_owner (mb : EglMultiBackend) (output : Nat)
    (h : ∃ backend ∈ mb.backends, backend.hasOutput output = true) :
    ∃ front owner back,
      mb.backends = front ++ owner :: back ∧
      (∀ backend ∈ front, backend.hasOutput output = false) ∧
      owner.hasOutput output = true ∧
      mb.beginFrame output
        = some (owner.beginFrame output, [BackendCall.beginFrame owner.id output]) ∧
      (∀ damage damagedRegion, mb.endFrame output damage damagedRegion
        = some [BackendCall.endFrame owner.id output damage damagedRegion]) ∧
      (∀ surfaceItem, mb.scanout output surfaceItem
        = some (owner.scanout output surfaceItem,
            [BackendCall.scanout owner.id output surfaceItem])) ∧
      mb.directScanoutAllowed output
        = some (owner.directScanoutAllowed output,
            [BackendCall.directScanoutAllowed owner.id output]) := by
  have hfind := find?_first EglBackend (fun backend => backend.hasOutput output) mb.backends h
  obtain ⟨front, owner, back, h1, h2, h3, h4⟩ := hfind
  refine ⟨front, owner, back, h1, h2, h3, ?_, ?_, ?_, ?_⟩
  · simp [EglMultiBackend.beginFrame, EglMultiBackend.findBackend, h4]
  · intro damage damagedRegion
    simp [EglMultiBackend.endFrame, EglMultiBackend.findBackend, h4]
  · intro surfaceItem
    simp [EglMultiBackend.scanout, EglMultiBackend.findBackend, h4]
  · simp [EglMultiBackend.directScanoutAllowed, EglMultiBackend.findBackend, h4]

/-- The statement above at a concrete input: output 2 belongs to the secondary
backend, and `beginFrame` returns that backend's region. -/
theorem rendering_calls_go_to_first_owner_witness :
    ∃ front owner back,
      twoBackends.backends = front ++ owner :: back ∧
      (∀ backend ∈ front, backend.hasOutput 2 = false) ∧
      owner.hasOutput 2 = true ∧
      twoBackends.beginFrame 2 = some (owner.beginFrame 2, [BackendCall.beginFrame owner.id 2]) := by
  obtain ⟨front, owner, back, h1, h2, h3, h4, -⟩ :=
    rendering_calls_go_to_first_owner twoBackends 2
      ⟨secondaryEgl, by simp [twoBackends], rfl⟩
  exact ⟨front, owner, back, h1, h2, h3, h4⟩

/-- C27, as stated, fails: output 2 belongs to the secondary backend, whose
texture for it is 200, and `textureForOutput` asks the primary backend and
returns its texture 100. -/
theorem textureForOutput_asks_primary_counterexample :
    secondaryEgl.hasOutput 2 = true ∧ primaryEgl.hasOutput 2 = false ∧
    secondaryEgl.textureForOutput 2 = some 200 ∧
    twoBackends.textureForOutput 2 = some (some 100, [BackendCall.textureForOutput 0 2]) := by
  decide

/-- C27, amended: `textureForOutput(output)` returns what the primary backend,
the first one registered, returns for that output, whichever backend owns the
output; no other backend is asked. -/
theorem textureForOutput_asks_primary (mb : EglMultiBackend) (output : Nat)
    (primary : EglBackend) (others : List EglBackend) (h : mb.backends = primary :: others) :
    mb.textureForOutput output
      = some (primary.textureForOutput output,
          [BackendCall.textureForOutput primary.id output]) := by
  simp [EglMultiBackend.textureForOutput, h]

/-- The statement above at a concrete input: output 2, owned by the secondary
backend. -/
theorem textureForOutput_asks_primary_witness :
    twoBackends.textureForOutput 2
      = some (primaryEgl.textureForOutput 2, [BackendCall.textureForOutput primaryEgl.id 2]) :=
  textureForOutput_asks_primary twoBackends 2 primaryEgl [secondaryEgl] rfl

/-- C24: when the platform is no `DrmBackend`, when no GPU is found for the file
descriptor of the event, or when the output the event points to is not among
the `outputs()` of that GPU, `pageFlipHandler` does nothing with the output: it
reads no field of it and calls neither `pageFlipped()` nor
`notifyFrameCompleted`. -/
theorem pageFlipHandler_ignores_unknown_output (ctx : FlipContext) (fd : Int)
    (frame sec usec data : Nat)
    (h : ctx.platformIsDrmBackend = false ∨ ctx.findGpuByFd fd = none ∨
      ∃ outputs, ctx.findGpuByFd fd = some outputs ∧ data ∉ outputs) :
    pageFlipHandler ctx fd frame sec usec data = [] := by
  unfold pageFlipHandler
  rcases h with h | h | ⟨outputs, h, hmem⟩
  · simp [h]
  · simp [h]
  · simp [h, hmem]

/-- The statement above at a concrete input: an event for the output at address
3, which the GPU of file descriptor 7 does not hold (any more). -/
theorem pageFlipHandler_ignores_unknown_output_witness :
    pageFlipHandler oneGpuContext 7 0 10 20 3 = [] :=
  pageFlipHandler_ignores_unknown_output oneGpuContext 7 0 10 20 3
    (Or.inr (Or.inr ⟨[1, 2], rfl, by decide⟩))

/-- C23, as stated, fails: on a GPU without atomic mode setting, an object whose
required property `CRTC_ID` the kernel does not report gets true from
`updateProperties()` and from `initProps()`, with the property missing. -/
theorem updateProperties_legacy_missing_required_counterexample :
    exampleDefinitions.map (fun definition => definition.required) = [true] ∧
    bareIoctls.objectGetProperties 31 = some [] ∧
    (DrmObject.updateProperties exampleDefinitions false bareIoctls
        (mkConnector 31 0 [41]).toDrmObject emptyKernel).1 = true ∧
    (DrmObject.initProps exampleDefinitions false bareIoctls
        (mkConnector 31 0 [41]).toDrmObject emptyKernel).1 = true ∧
    (DrmObject.updateProperties exampleDefinitions false bareIoctls
        (mkConnector 31 0 [41]).toDrmObject emptyKernel).2.1.props = [none] := by
  decide

/-- C23, amended: `updateProperties()`, and with it `initProps()`, returns true
exactly when the kernel answers the property query and, on a GPU with atomic
mode setting, every definition marked `Required` has a reported property of its
name (one for which `drmModeGetProperty` answers); on a GPU without atomic mode
setting a missing required property does not make it fail. -/
theorem updateProperties_true_iff (definitions : List PropertyDefinition) (atomic : Bool)
    (io : Ioctls) (o : DrmObject) (k : Kernel) :
    ((o.updateProperties definitions atomic io k).1 = true ↔
      ∃ reported, io.objectGetProperties o.id = some reported ∧
        (atomic = true → ∀ definition ∈ definitions, definition.required = true →
          (DrmObject.findReported reported definition).isSome = true)) ∧
    (o.initProps definitions atomic io k).1 = (o.updateProperties definitions atomic io k).1 := by
  constructor
  · unfold DrmObject.updateProperties drmModeObjectGetProperties
    cases hrep : io.objectGetProperties o.id with
    | none => simp
    | some reported =>
      dsimp only
      rw [requiredPresent_updatePropertiesLoop]
      simp only [Option.some.injEq, exists_eq_left', Bool.or_eq_true, Bool.not_eq_true',
        List.all_eq_true, Bool.and_eq_true, Option.isNone_iff_eq_none, Bool.not_eq_true]
      constructor
      · intro h hat definition hmem hreq
        rcases h with h | h
        · rw [hat] at h; cases h
        · have := h definition hmem
          cases hf : DrmObject.findReported reported definition with
          | none => simp [hreq, hf] at this
          | some found => rfl
      · intro h
        cases atomic with
        | false => exact Or.inl rfl
        | true =>
          refine Or.inr ?_
          intro definition hmem
          cases hreq : definition.required with
          | false => simp
          | true =>
            have := h rfl definition hmem hreq
            cases hf : DrmObject.findReported reported definition with
            | none => rw [hf] at this; cases this
            | some found => simp
  · unfold DrmObject.initProps
    cases (o.updateProperties definitions atomic io k).1 <;> rfl

/-- C22, on the code: the second search of `updateOutputs` may give a current
output a new pipeline, and the loop that follows registers the new outputs
only.  With connector 31 on CRTC 51 and plane 61, a new connector 32 and a new
CRTC 52 that cannot drive connector 32, the search settles on connector 32 with
CRTC 51 and plane 61 and moves the current output to CRTC 52 and plane 62.
Afterwards `m_crtcs` holds CRTC 51 twice and not CRTC 52, plane 62 is in
`m_unusedPlanes` although the pipeline of the first output binds it, and
`m_pipelines` holds two pipelines on CRTC 51 and plane 61. -/
theorem updateOutputs_retry_breaks_bookkeeping :
    afterSecondConnector.map (fun gpu => gpu.outputs.map (fun output =>
        (output.pipeline.connectors.map (fun c => c.id),
         output.pipeline.crtcs.map (fun c => c.id),
         output.pipeline.primaryPlanes.map (fun c => c.id))))
      = some [([31], [52], [62]), ([32], [51], [61])] ∧
    afterSecondConnector.map (fun gpu => gpu.crtcs.map (fun c => c.id)) = some [51, 51] ∧
    afterSecondConnector.map (fun gpu => gpu.unusedPlanes.map (fun c => c.id)) = some [62] ∧
    afterSecondConnector.map (fun gpu => gpu.planes.map (fun c => c.id)) = some [61, 62] ∧
    afterSecondConnector.map (fun gpu => gpu.pipelines.map (fun pipeline =>
        (pipeline.connectors.map (fun c => c.id), pipeline.crtcs.map (fun c => c.id),
         pipeline.primaryPlanes.map (fun c => c.id))))
      = some [([31], [51], [61]), ([32], [51], [61])] := by
  decide


/-- C29: on a property whose slots hold ids the kernel has handed out, after
any sequence of `setPendingBlob`, `commitPending`, `rollbackPending`, `commit`
and `setCurrentBlob` calls, with a kernel that gives every created blob a fresh
id, the next such call destroys only non-zero blob ids that none of the
pending, next and current slots refers to once the call is done. -/
theorem blob_destroyed_only_when_unreferenced (ops : List BlobOp) (op : BlobOp)
    (s : Property × Kernel) (h : BlobInvariant s) :
    ∃ ds, destroyedBlobs (op.run (BlobOp.runAll ops s)).2 =
        destroyedBlobs (BlobOp.runAll ops s).2 ++ ds ∧
      ∀ id ∈ ds, id ≠ 0 ∧ (op.run (BlobOp.runAll ops s)).1.references id = false :=
  (blobStep_run op _ (blobInvariant_runAll ops s h)).2

/-- C29 at a concrete input: the property holding blob 3, two stagings with a
test in between, then `rollbackPending`. -/
theorem blob_destroyed_only_when_unreferenced_witness :
    BlobInvariant (blobProperty3, kernelWithBlob3) ∧
    ∃ ds, destroyedBlobs
        (BlobOp.rollbackPending.run (BlobOp.runAll stageTwice (blobProperty3, kernelWithBlob3))).2 =
        destroyedBlobs (BlobOp.runAll stageTwice (blobProperty3, kernelWithBlob3)).2 ++ ds ∧
      ∀ id ∈ ds, id ≠ 0 ∧
        (BlobOp.rollbackPending.run
          (BlobOp.runAll stageTwice (blobProperty3, kernelWithBlob3))).1.references id = false :=
  ⟨by simp [BlobInvariant, blobProperty3, kernelWithBlob3, Property.new],
    blob_destroyed_only_when_unreferenced stageTwice BlobOp.rollbackPending
      (blobProperty3, kernelWithBlob3)
      (by simp [BlobInvariant, blobProperty3, kernelWithBlob3, Property.new])⟩


/-- C28: in every sequence of calls on a pipeline, each `drmModeAtomicCommit`
without `DRM_MODE_ATOMIC_TEST_ONLY` comes right after the accepted test of the
same request, made with the same flags except that `DRM_MODE_PAGE_FLIP_EVENT`
is cleared and `DRM_MODE_ATOMIC_TEST_ONLY` is set.  When the kernel rejects the
test of `atomicCommit()`, the call returns false, what it leaves is the result
of `rollbackPending()` on every object of the pipeline, no commit was issued,
and no value remains staged.  `setActive(true)`, `modeset`, `setTransformation`,
`setGammaRamp`, `setOverscan` and `setSyncMode` issue no commit without
`DRM_MODE_ATOMIC_TEST_ONLY`. -/
theorem commits_follow_accepted_tests (m : Members) (io : Ioctls) (caps : GpuCaps) :
    (∀ (calls : List PipelineCall) (s r : DrmPipeline × Batch × Kernel),
      PipelineCall.runAll m io caps calls s = some r →
      commitsTested none s.2.2.calls = true → commitsTested none r.2.2.calls = true) ∧
    (∀ (p p1 : DrmPipeline) (k : Kernel) (req1 : List AtomicProperty) (flags1 : Nat),
      io.atomicAlloc = true →
      p.populateAtomicValues m.toDecls io.toDriver caps [] 0 = some (true, p1, req1, flags1) →
      io.atomicCommit req1 (testFlags flags1) = false →
      DrmPipeline.atomicCommit m io caps p k
        = some (false,
            DrmPipeline.rollbackAll p1
              { k with
                calls := k.calls ++ [KernelCall.atomicCommit req1 (testFlags flags1) false] }) ∧
      countCalls isCommitAttempt
          (DrmPipeline.rollbackAll p1
            { k with
              calls := k.calls ++ [KernelCall.atomicCommit req1 (testFlags flags1) false] }).2
        = countCalls isCommitAttempt k ∧
      ∀ o ∈ (DrmPipeline.rollbackAll p1
            { k with
              calls := k.calls ++ [KernelCall.atomicCommit req1 (testFlags flags1) false] }).1.objects,
        ∀ q, some q ∈ o.props → q.immutable = false → q.pending = q.next) ∧
    (∀ (call : PipelineCall) (s r : DrmPipeline × Batch × Kernel),
      call.stagesOnly = true → call.run m io caps s = some r →
      ∃ rest, r.2.2.calls = s.2.2.calls ++ rest ∧
        ∀ issued ∈ rest, isCommitAttempt issued = false) := by
  refine ⟨?_, ?_, ?_⟩
  · intro calls s r h hs
    exact addsTested_commitsTested (tested_runAll m io caps calls s r h) hs
  · intro p p1 k req1 flags1 halloc hp ht
    refine ⟨atomicCommit_test_rejected m io caps p p1 k req1 flags1 halloc hp ht, ?_,
      rollbackAll_nothing_staged p1 _⟩
    rw [other_countCalls (other_rollbackAll p1 _)]
    simp [countCalls, isCommitAttempt, testFlags, isTestOnly_test_flags]
  · intro call s r hc h
    obtain ⟨rest, e, a⟩ := other_run m io caps call s r hc h
    exact ⟨rest, e, fun issued hi => by simpa [isOtherCall] using a issued hi⟩

/-- C28 at concrete inputs: the pipeline (31, 51, 61) with a modeset, a frame
and `setActive(false)` on a kernel that accepts everything (two commits, each
after its test); `atomicCommit()` on a kernel that rejects the test; and
`modeset(0)` alone. -/
theorem commits_follow_accepted_tests_witness :
    (∃ r, PipelineCall.runAll exampleMembers acceptingIoctls atomicCaps modesetFrameOff
        (stagedPipeline, onlyThis, emptyKernel) = some r ∧
      commitsTested none r.2.2.calls = true ∧ countCalls isCommitAttempt r.2.2 = 2) ∧
    (∃ p1 req1 flags1,
      shownPipeline.populateAtomicValues exampleMembers.toDecls rejectingIoctls.toDriver
        atomicCaps [] 0 = some (true, p1, req1, flags1) ∧
      DrmPipeline.atomicCommit exampleMembers rejectingIoctls atomicCaps shownPipeline emptyKernel
        = some (false,
            DrmPipeline.rollbackAll p1
              { emptyKernel with
                calls := emptyKernel.calls ++
                  [KernelCall.atomicCommit req1 (testFlags flags1) false] })) ∧
    (∃ r, (PipelineCall.modeset 0).run exampleMembers acceptingIoctls atomicCaps
        (stagedPipeline, onlyThis, emptyKernel) = some r ∧
      ∃ rest, r.2.2.calls = emptyKernel.calls ++ rest ∧
        ∀ issued ∈ rest, isCommitAttempt issued = false) := by
  refine ⟨?_, ?_, ?_⟩
  · cases hr : PipelineCall.runAll exampleMembers acceptingIoctls atomicCaps modesetFrameOff
        (stagedPipeline, onlyThis, emptyKernel) with
    | none =>
      have hd : (PipelineCall.runAll exampleMembers acceptingIoctls atomicCaps modesetFrameOff
          (stagedPipeline, onlyThis, emptyKernel)).isSome = true := by decide
      rw [hr] at hd
      cases hd
    | some r =>
      have hd : (PipelineCall.runAll exampleMembers acceptingIoctls atomicCaps modesetFrameOff
          (stagedPipeline, onlyThis, emptyKernel)).map (fun r => countCalls isCommitAttempt r.2.2)
          = some 2 := by decide
      rw [hr] at hd
      exact ⟨r, rfl,
        (commits_follow_accepted_tests exampleMembers acceptingIoctls atomicCaps).1
          modesetFrameOff _ r hr rfl,
        by simpa using hd⟩
  · cases hp : shownPipeline.populateAtomicValues exampleMembers.toDecls rejectingIoctls.toDriver
        atomicCaps [] 0 with
    | none =>
      have hd : (shownPipeline.populateAtomicValues exampleMembers.toDecls
          rejectingIoctls.toDriver atomicCaps [] 0).isSome = true := by decide
      rw [hp] at hd
      cases hd
    | some v =>
      have hd : (shownPipeline.populateAtomicValues exampleMembers.toDecls
          rejectingIoctls.toDriver atomicCaps [] 0).map (fun v => v.1) = some true := by decide
      rw [hp] at hd
      obtain ⟨populated, p1, req1, flags1⟩ := v
      simp only [Option.map_some', Option.some.injEq] at hd
      subst hd
      exact ⟨p1, req1, flags1, rfl,
        ((commits_follow_accepted_tests exampleMembers rejectingIoctls atomicCaps).2.1
          shownPipeline p1 emptyKernel req1 flags1 rfl hp rfl).1⟩
  · cases hr : (PipelineCall.modeset 0).run exampleMembers acceptingIoctls atomicCaps
        (stagedPipeline, onlyThis, emptyKernel) with
    | none =>
      have hd : ((PipelineCall.modeset 0).run exampleMembers acceptingIoctls atomicCaps
          (stagedPipeline, onlyThis, emptyKernel)).isSome = true := by decide
      rw [hr] at hd
      cases hd
    | some r =>
      exact ⟨r, rfl,
        (commits_follow_accepted_tests exampleMembers acceptingIoctls atomicCaps).2.2
          (PipelineCall.modeset 0) _ r rfl hr⟩

end KWin
